import Mathlib

/-!
# SettleUp: client onboarding and payment-schedule workflow

A shallow embedding of the Express route handlers of
`Backend/src/routes/clients.js`, `Backend/src/routes/payments.js`,
`Backend/src/routes/notifications.js` and the token-checked routes of
`Backend/src/routes/auth.js`, together with the Mongoose schema of
`Backend/src/models/Client.js`.

The document store is a record of three collections.  Every handler is a
function from the store before the request to the store after it and the
reply that is sent.  A handler whose `try` block throws passes the error to
`next(error)`; that outcome is the `Reply.next` constructor.

Conventions of the embedding:

* ObjectIds are natural numbers, fresh ones are drawn from `Store.nextId`;
  a request value that is given where the schema has an ObjectId (a path
  parameter, a `clientId` of a body, a value of the webhook metadata) is an
  `IdParam`: it casts to an ObjectId or the cast throws a CastError;
* dates are integers (milliseconds since the epoch), the clock reading of a
  request is the argument `now`;
* the fields of the body of `POST /clients` are JSON values (`JsValue`); the
  bodies of the two `PUT` routes hold, per schema path, the value that the key
  casts to, next to the list of the keys whose value does not cast
  (`uncastable`) and the list of the keys that are no schema path
  (`otherKeys`); the other request fields are absent (`none`) or hold a value
  of the type of the schema path they are written to;
* `validator.isEmail` and `String.prototype.toLowerCase` are library
  functions and are taken as parameters (`Env`); so are `jwt.verify` (`Jwt`),
  the payment provider (`Provider`) and the regular-expression matcher of the
  database (`RegexEngine`);
* `Array.prototype.sort` is the sort of the V8 engine (`arraySort`);
* the socket.io push (`io.to(...).emit(...)`) changes neither the store nor
  the reply and is not represented;
* of the provisioning in `mongo-init.js` the unique index
  `client_email_user_unique` on the `clients` collection is part of the
  embedding (`Client.keyTaken`); the `$jsonSchema` validators that the script
  adds with `collMod` are not: a write that passes the validators of the
  Mongoose schema is taken to pass them.
-/

namespace SettleUp

/-! ## Data model -/

/-- Mongo ObjectId values. -/
abbrev ObjectId := Nat

/-- JavaScript `Date` values, as milliseconds since the epoch. -/
abbrev Date := Int

/-- A request value that is given where the schema has an ObjectId: the path
parameters `:clientId` and `:notificationId`, the `clientId` of a JSON body,
the `clientId` and `userId` of the webhook metadata.  Mongoose casts such a
value to an ObjectId when it builds the query or the document.  The value
`objectId id` is one that casts to `id` (the 24 hexadecimal digits of `id`);
`malformed` is any value for which the cast throws a CastError (the string
"abc"). -/
inductive IdParam
  | objectId (id : ObjectId)
  | malformed
deriving DecidableEq, Repr

/-- An ObjectId in the place of a request value is the value that casts to
it. -/
instance : Coe ObjectId IdParam := ⟨IdParam.objectId⟩

/-- A numeral in the place of a request value is the value that casts to the
ObjectId of that number. -/
instance (n : Nat) : OfNat IdParam n := ⟨IdParam.objectId n⟩

/-- A value of a key of a JSON request body; `undefined` is a missing key, a
number is an integer, `object text` is an array or an object, `text` being
the string that `String(...)` makes of it. -/
inductive JsValue
  | undefined
  | null
  | bool (b : Bool)
  | number (n : Int)
  | string (s : String)
  | object (text : String)
deriving DecidableEq, Repr

/-- A field that is absent or a string, as a JSON value. -/
def JsValue.ofOption : Option String → JsValue
  | Option.none => JsValue.undefined
  | some v => JsValue.string v

/-- An optional string in the place of a body field is the missing key or the
JSON string. -/
instance : Coe (Option String) JsValue := ⟨JsValue.ofOption⟩

/-- Library functions called by the handlers and the schema. -/
structure Env where
  /-- The function `validator.isEmail`. -/
  isEmail : String → Bool
  /-- The method `String.prototype.toLowerCase`, which the schema option
  `lowercase: true` applies as a setter. -/
  toLowerCase : String → String

/-- The nested path `region` of `clientSchema` (`Client.js`, lines 29-33). -/
structure Region where
  timezone : Option String := none
  currency : Option String := none
  country : Option String := none
deriving DecidableEq, Repr

/-- An element of `clientSchema.paymentSchedules` (`Client.js`, lines 34-53).
The same record type is used for the plain object that `POST /schedule`
builds, which has no `createdAt`. -/
structure PaymentSchedule where
  description : Option String := none
  amount : Option Int := none
  currency : Option String := none
  dueDate : Option Date := none
  frequency : Option String := none
  status : String := "pending"
  lastNotified : Option Date := none
  createdAt : Option Date := none
deriving DecidableEq, Repr

/-- A document of the `Client` model (`Client.js`, lines 4-63). -/
structure Client where
  _id : ObjectId
  name : String
  email : String
  companyName : String
  addedBy : ObjectId
  status : String := "pending"
  region : Region := {}
  paymentSchedules : List PaymentSchedule := []
  notes : Option String := none
  createdAt : Date
  updatedAt : Date
deriving DecidableEq, Repr

/-- Modelled from the spec: the `User` model (`models/User.js` is not among
the sources).  Spec section 3: unique email, optional password hash, optional
external-identity id, display name, company name, role, region settings,
active flag, last-login timestamp, ordered list of owned Client references. -/
structure User where
  _id : ObjectId
  email : String
  password : Option String := none
  googleId : Option String := none
  name : String
  companyName : String
  role : String := "user"
  region : Region := {}
  isActive : Bool := true
  lastLogin : Option Date := none
  clients : List ObjectId := []
deriving DecidableEq, Repr

/-- The `data` object of a notification: the union of the keys the handlers
write (`clients.js` lines 83-88, 167-170, 203-206; `payments.js` lines
169-174, 290-294, 331-337). -/
structure NotificationData where
  clientId : Option ObjectId := none
  addedBy : Option ObjectId := none
  addedByName : JsValue := JsValue.undefined
  companyName : JsValue := JsValue.undefined
  clientName : Option String := none
  scheduleIndex : Option String := none
  scheduleId : Option ObjectId := none
  dueDate : Option Date := none
  amount : Option Int := none
  currency : Option String := none
deriving DecidableEq, Repr

/-- Modelled from the spec: the `Notification` model (`models/Notification.js`
is not among the sources).  Spec section 3: addressed to exactly one User;
type tag, title, message, structured payload, read flag, creation timestamp.
Spec section 4.3: persisted with read=false. -/
structure Notification where
  _id : ObjectId
  user : ObjectId
  type : String
  title : String
  message : String
  data : NotificationData := {}
  isRead : Bool := false
  createdAt : Date
deriving DecidableEq, Repr

/-- The document store: the three collections and the source of fresh
ObjectIds. -/
structure Store where
  users : List User := []
  clients : List Client := []
  notifications : List Notification := []
  nextId : ObjectId := 0
deriving DecidableEq, Repr

/-! ## Replies -/

/-- Errors thrown inside a handler and handed to `next(error)`. -/
inductive HandlerError
  | validationError
  | typeError
  | referenceError
  | providerError
  | regexError
  | tokenError
  | castError
  | duplicateKey
deriving DecidableEq, Repr

/-- The fields `name email companyName` that `populate('addedBy', ...)` puts
in place of the owner id. -/
structure OwnerInfo where
  _id : ObjectId
  name : String
  email : String
  companyName : String
deriving DecidableEq, Repr

/-- The part of a JSON reply besides `success` and `message`. -/
inductive Payload
  | none
  | client (c : Client)
  | paymentSchedule (p : PaymentSchedule)
  | paymentSchedules (ps : List PaymentSchedule)
  | clients (cs : List Client)
  | populatedClient (c : Client) (addedBy : Option OwnerInfo)
  | paymentLink (url : String) (expiresAt : Option Date)
  | populatedClients (cs : List (Client × Option OwnerInfo))
  | emailSearch (cs : List Client) (potentialUsers : List OwnerInfo)
  | notifications (ns : List Notification)
  | notification (n : Notification)
  | count (n : Nat)
  | user (u : OwnerInfo) (role : String) (region : Region)
  | region (r : Region)
deriving DecidableEq, Repr

/-- What a handler answers: `res.status(status).json(...)` with the keys
`success` and `message`, or the error it passed to `next`.  Further shapes:
`data` is `res.json` with `success: true` and no `message` key, `received`
is `res.json` of the object with the single key `received: true`, `send` is
`res.status(status).send(text)`, and `unhandled` is an error thrown by an
async handler outside any `try` block, after which the handler sends
nothing. -/
inductive Reply
  | json (status : Nat) (success : Bool) (message : String) (payload : Payload)
  | next (error : HandlerError)
  | data (payload : Payload)
  | received
  | send (status : Nat) (text : String)
  | unhandled (error : HandlerError)
deriving DecidableEq, Repr

/-! ## Schema validation and collection operations -/

/-- JavaScript truthiness of a value that is `undefined` or a string. -/
def truthy : Option String → Bool
  | some v => v != ""
  | Option.none => false

/-- JavaScript truthiness of a JSON value. -/
def JsValue.truthy : JsValue → Bool
  | JsValue.undefined => false
  | JsValue.null => false
  | JsValue.bool b => b
  | JsValue.number n => n != 0
  | JsValue.string v => v != ""
  | JsValue.object _ => true

/-- The string that `String(v)` and a template literal make of a JSON
value. -/
def JsValue.toText : JsValue → String
  | JsValue.undefined => "undefined"
  | JsValue.null => "null"
  | JsValue.bool b => if b then "true" else "false"
  | JsValue.number n => toString n
  | JsValue.string v => v
  | JsValue.object text => text

/-- The cast of Mongoose to a path of type String: a string is kept, a number
or a boolean is converted, the cast of an array or an object throws a
CastError (`none`), which `save()` reports as a validation error.  A missing
or null value is not cast; it fails `required` in the same way. -/
def JsValue.castString : JsValue → Option String
  | JsValue.string v => some v
  | JsValue.number n => some (toString n)
  | JsValue.bool b => some (if b then "true" else "false")
  | JsValue.undefined => Option.none
  | JsValue.null => Option.none
  | JsValue.object _ => Option.none

/-- JavaScript `a || d` for two JSON values. -/
def JsValue.orElse (a d : JsValue) : JsValue :=
  if a.truthy then a else d

/-- The cast of a request value to an ObjectId, as Mongoose does it for the
filter of a query and for the paths of a new document. -/
def IdParam.cast : IdParam → Except HandlerError ObjectId
  | IdParam.objectId id => Except.ok id
  | IdParam.malformed => Except.error HandlerError.castError

/-- The cast of a filter value that may be missing: a missing value is left
as it is and matches no document. -/
def IdParam.castOpt : Option IdParam → Except HandlerError (Option ObjectId)
  | Option.none => Except.ok Option.none
  | some v => v.cast.map some

/-- The enum of `clientSchema.status` (`Client.js`, line 26). -/
def clientStatusEnum : List String := ["pending", "active", "rejected", "inactive"]

/-- The enum of `paymentSchedules.frequency` (`Client.js`, line 41). -/
def frequencyEnum : List String := ["one-time", "weekly", "monthly", "quarterly", "yearly"]

/-- The enum of `paymentSchedules.status` (`Client.js`, line 45). -/
def scheduleStatusEnum : List String := ["pending", "paid", "overdue", "cancelled"]

/-- Validators of one embedded schedule: the two enums; an enum validator
accepts an absent value. -/
def PaymentSchedule.validate (p : PaymentSchedule) : Bool :=
  (match p.frequency with
   | some f => frequencyEnum.contains f
   | Option.none => true)
  && scheduleStatusEnum.contains p.status

/-- Validators that `save()` runs on a Client document: `required` on name,
email and companyName (an empty string fails `required`), `validator.isEmail`
on the email, the status enum, and the validators of every embedded
schedule.  The path `addedBy` is always present in this record type. -/
def Client.validate (env : Env) (c : Client) : Bool :=
  c.name != "" && c.email != "" && env.isEmail c.email && c.companyName != ""
  && clientStatusEnum.contains c.status
  && c.paymentSchedules.all PaymentSchedule.validate

/-- The unique index `client_email_user_unique` on `(email, addedBy)` that
`mongo-init.js` (lines 65-69) creates on the `clients` collection: the test
whether the database refuses the write of `c` with a duplicate-key error.  An
insert is refused when a stored document has the pair of `c`.  An update
writes the modified paths only: it is refused when it changes the pair (no
stored document with the `_id` of `c` has the pair of `c`) and a document
with another `_id` has the pair of `c`. -/
def Client.keyTaken (isNew : Bool) (c : Client) (s : Store) : Bool :=
  if isNew then s.clients.any (fun d => d.email == c.email && d.addedBy == c.addedBy)
  else
    !s.clients.any (fun d => d._id == c._id && (d.email == c.email && d.addedBy == c.addedBy))
    && s.clients.any (fun d => d._id != c._id && (d.email == c.email && d.addedBy == c.addedBy))

/-- The method `client.save()`: validation, then the `pre('save')` hook
(`Client.js`, lines 65-68) stamps `updatedAt`, then the write: an insert for
a document made with `new Client(...)` (`isNew`), otherwise an update of the
stored document with the same `_id`.  The database refuses a write that
breaks the unique index (`Client.keyTaken`).  Returns the saved document and
the new store, or the error that `save()` throws. -/
def Client.save (env : Env) (now : Date) (isNew : Bool) (c : Client) (s : Store) :
    Except HandlerError (Client × Store) :=
  if c.validate env then
    if Client.keyTaken isNew c s then Except.error HandlerError.duplicateKey
    else
      let c1 := { c with updatedAt := now }
      Except.ok (c1, { s with
        clients :=
          if isNew then s.clients ++ [c1]
          else s.clients.map (fun d => if d._id = c1._id then c1 else d) })
  else Except.error HandlerError.validationError

/-- The query `Client.findOne(\x7b email, addedBy \x7d)`.  The filter is cast
through the schema, so the `lowercase` setter applies to `email`. -/
def Client.findOneByEmail (env : Env) (email : String) (addedBy : ObjectId)
    (s : Store) : Option Client :=
  s.clients.find? (fun c => c.email == env.toLowerCase email && c.addedBy == addedBy)

/-- The lookup of the query `Client.findById(clientId)`, for the ObjectId
that the request value has been cast to (`IdParam.cast`). -/
def Client.findById (clientId : ObjectId) (s : Store) : Option Client :=
  s.clients.find? (fun c => c._id == clientId)

/-- The lookup of the query `Client.findOne(\x7b _id: clientId, addedBy: userId \x7d)`,
for the ObjectId that the request value has been cast to (`IdParam.cast`). -/
def Client.findOwned (clientId userId : ObjectId) (s : Store) : Option Client :=
  s.clients.find? (fun c => c._id == clientId && c.addedBy == userId)

/-- The query `User.findOne(\x7b email \x7d)`. -/
def User.findOneByEmail (email : String) (s : Store) : Option User :=
  s.users.find? (fun u => u.email == email)

/-- The query `User.findById(userId)`. -/
def User.findById (userId : ObjectId) (s : Store) : Option User :=
  s.users.find? (fun u => u._id == userId)

/-- The update `User.findByIdAndUpdate(userId, \x7b $push: \x7b clients: clientId \x7d \x7d)`. -/
def User.pushClient (userId clientId : ObjectId) (us : List User) : List User :=
  us.map (fun u => if u._id = userId then { u with clients := u.clients ++ [clientId] } else u)

/-- The update `User.findByIdAndUpdate(userId, \x7b $pull: \x7b clients: clientId \x7d \x7d)`:
`$pull` removes every element equal to `clientId`. -/
def User.pullClient (userId clientId : ObjectId) (us : List User) : List User :=
  us.map (fun u =>
    if u._id = userId then { u with clients := u.clients.filter (fun i => i != clientId) } else u)

/-- The call `notification.save()` on a new Notification. -/
def Notification.save (n : Notification) (s : Store) : Store :=
  { s with notifications := s.notifications ++ [n] }

/-! ## Handlers of `routes/clients.js`

Every handler below is the body of the route after `verifyToken` has
succeeded; `userId` is `req.userId`. -/

/-- JavaScript `a || d` for an optional string `a` and a string `d`. -/
def orElse (a : Option String) (d : String) : String :=
  if truthy a then a.getD "" else d

/-- The fields of `req.body` that `POST /clients` reads: JSON values of any
type. -/
structure CreateClientBody where
  name : JsValue := JsValue.undefined
  email : JsValue := JsValue.undefined
  companyName : JsValue := JsValue.undefined
  addedByName : JsValue := JsValue.undefined
deriving DecidableEq, Repr

/-- The document `new Client(\x7b name, email, companyName, addedBy, status \x7d)`:
the `lowercase` setter is applied to the email, the other paths take their
schema defaults. -/
def Client.new (env : Env) (now : Date) (id : ObjectId) (name email companyName : String)
    (addedBy : ObjectId) (status : String) : Client :=
  { _id := id, name := name, email := env.toLowerCase email, companyName := companyName,
    addedBy := addedBy, status := status, createdAt := now, updatedAt := now }

/-- The notification built at `clients.js` lines 78-89. -/
def clientAddRequestNotification (now : Date) (id : ObjectId) (existingUser : User)
    (client : Client) (userId : ObjectId) (body : CreateClientBody) : Notification :=
  { _id := id, user := existingUser._id, type := "client_add_request",
    title := "New Client Request",
    message := (body.addedByName.orElse (JsValue.string "A user")).toText ++
      " wants to add you as a client",
    data := { clientId := some client._id, addedBy := some userId,
              addedByName := body.addedByName.orElse (JsValue.string "Unknown"),
              companyName := body.companyName.orElse (JsValue.string "Unknown Company") },
    createdAt := now }

/-- Handler `router.post('/')` (`clients.js`, lines 28-133): add a new client.
The function `validator.isEmail` throws a TypeError when its argument is not
a string (line 40); the `catch` hands it to `next`.  The constructor
`new Client(...)` casts `name` and `companyName` to strings; when a cast
fails, `save()` throws a validation error. -/
def createClient (env : Env) (now : Date) (userId : ObjectId) (body : CreateClientBody)
    (s : Store) : Store × Reply :=
  if !body.name.truthy || !body.email.truthy || !body.companyName.truthy then
    (s, Reply.json 400 false "Name, email, and company name are required" Payload.none)
  else
    match body.email with
    | JsValue.string email =>
      if !env.isEmail email then
        (s, Reply.json 400 false "Invalid email address" Payload.none)
      else
        match Client.findOneByEmail env email userId s with
        | some _ =>
          (s, Reply.json 400 false "Client with this email already exists" Payload.none)
        | Option.none =>
          match User.findOneByEmail email s with
          | some existingUser =>
            match body.name.castString, body.companyName.castString with
            | some name, some companyName =>
              let draft := Client.new env now s.nextId name email companyName userId "pending"
              match draft.save env now true { s with nextId := s.nextId + 1 } with
              | Except.error e => (s, Reply.next e)
              | Except.ok (client, s1) =>
                let s2 := { s1 with users := User.pushClient userId client._id s1.users }
                let notification :=
                  clientAddRequestNotification now s2.nextId existingUser client userId body
                (notification.save { s2 with nextId := s2.nextId + 1 },
                  Reply.json 201 true "Client request sent successfully"
                    (Payload.client client))
            | _, _ => (s, Reply.next HandlerError.validationError)
          | Option.none =>
            match body.name.castString, body.companyName.castString with
            | some name, some companyName =>
              let draft := Client.new env now s.nextId name email companyName userId "active"
              match draft.save env now true { s with nextId := s.nextId + 1 } with
              | Except.error e => (s, Reply.next e)
              | Except.ok (client, s1) =>
                ({ s1 with users := User.pushClient userId client._id s1.users },
                  Reply.json 201 true "Client added successfully" (Payload.client client))
            | _, _ => (s, Reply.next HandlerError.validationError)
    | _ => (s, Reply.next HandlerError.typeError)

/-- The notification built at `clients.js` lines 162-171 (accepted) and
198-207 (rejected). -/
def clientAddResponseNotification (now : Date) (id : ObjectId) (client : Client)
    (accepted : Bool) : Notification :=
  { _id := id, user := client.addedBy, type := "client_add_response",
    title := if accepted then "Client Request Accepted" else "Client Request Rejected",
    message := client.name ++
      (if accepted then " has accepted your client request"
       else " has rejected your client request"),
    data := { clientId := some client._id, clientName := some client.name },
    createdAt := now }

/-- Handler `router.post('/:clientId/respond')` (`clients.js`, lines 136-228).
The query `Client.findById(clientId)` throws a CastError for a parameter that
is no ObjectId.  When `User.findById(req.userId)` yields `null`, reading
`currentUser.email` throws a TypeError. -/
def respondToClient (env : Env) (now : Date) (userId : ObjectId) (clientId : IdParam)
    (accept : Bool) (s : Store) : Store × Reply :=
  match clientId.cast with
  | Except.error e => (s, Reply.next e)
  | Except.ok clientId =>
    match Client.findById clientId s with
    | Option.none => (s, Reply.json 404 false "Client not found" Payload.none)
    | some found =>
      match User.findById userId s with
      | Option.none => (s, Reply.next HandlerError.typeError)
      | some currentUser =>
        if currentUser.email != found.email then
          (s, Reply.json 403 false "You are not authorized to respond to this request"
            Payload.none)
        else if accept then
          match Client.save env now false { found with status := "active" } s with
          | Except.error e => (s, Reply.next e)
          | Except.ok (client, s1) =>
            let notification := clientAddResponseNotification now s1.nextId client true
            (notification.save { s1 with nextId := s1.nextId + 1 },
              Reply.json 200 true "Client request accepted successfully"
                (Payload.client client))
        else
          match Client.save env now false { found with status := "rejected" } s with
          | Except.error e => (s, Reply.next e)
          | Except.ok (client, s1) =>
            let s2 := { s1 with users := User.pullClient client.addedBy client._id s1.users }
            let notification := clientAddResponseNotification now s2.nextId client false
            (notification.save { s2 with nextId := s2.nextId + 1 },
              Reply.json 200 true "Client request rejected" (Payload.client client))

/-- The body of `PUT /clients/:clientId`.  For every path of `clientSchema`
the value that the key of the body casts to, if the body has the key and the
value casts to the type of the path.  The key `_id` is left out. -/
structure UpdateClientBody where
  name : Option String := none
  email : Option String := none
  companyName : Option String := none
  addedBy : Option ObjectId := none
  status : Option String := none
  region : Option Region := none
  paymentSchedules : Option (List PaymentSchedule) := none
  notes : Option String := none
  createdAt : Option Date := none
  updatedAt : Option Date := none
  /-- The keys of the body on schema paths whose value does not cast to the
  type of the path (`addedBy: "abc"`, a schedule with `amount: "abc"`). -/
  uncastable : List String := []
  /-- The keys of the body that are no path of the schema. -/
  otherKeys : List String := []
deriving DecidableEq, Repr

/-- The call `Object.assign(client, req.body)`: every key of the body on a
schema path is written to the document; the `lowercase` setter applies to the
email, and every element of `paymentSchedules` is cast to a subdocument,
which takes the schema default `Date.now` for a missing `createdAt`.  A key
that is no schema path does not reach the stored document (`otherKeys` is not
read). -/
def Client.assign (env : Env) (now : Date) (c : Client) (b : UpdateClientBody) : Client :=
  { c with
    name := b.name.getD c.name
    email := (b.email.map env.toLowerCase).getD c.email
    companyName := b.companyName.getD c.companyName
    addedBy := b.addedBy.getD c.addedBy
    status := b.status.getD c.status
    region := b.region.getD c.region
    paymentSchedules :=
      (b.paymentSchedules.map (fun ps =>
        ps.map (fun p => { p with createdAt := some (p.createdAt.getD now) }))).getD
        c.paymentSchedules
    notes := match b.notes with
      | some v => some v
      | Option.none => c.notes
    createdAt := b.createdAt.getD c.createdAt
    updatedAt := b.updatedAt.getD c.updatedAt }

/-- Handler `router.put('/:clientId')` (`clients.js`, lines 296-320).  The
query throws a CastError for a parameter that is no ObjectId.  A value of the
body that does not cast is recorded by the assignment as a cast error, which
`save()` throws as a validation error. -/
def updateClient (env : Env) (now : Date) (userId : ObjectId) (clientId : IdParam)
    (body : UpdateClientBody) (s : Store) : Store × Reply :=
  match clientId.cast with
  | Except.error e => (s, Reply.next e)
  | Except.ok clientId =>
    match Client.findOwned clientId userId s with
    | Option.none => (s, Reply.json 404 false "Client not found" Payload.none)
    | some found =>
      if !body.uncastable.isEmpty then (s, Reply.next HandlerError.validationError)
      else
        match Client.save env now false (Client.assign env now found body) s with
        | Except.error e => (s, Reply.next e)
        | Except.ok (client, s1) =>
          (s1, Reply.json 200 true "Client updated successfully" (Payload.client client))

/-- Handler `router.delete('/:clientId')` (`clients.js`, lines 323-348):
`findOneAndDelete` removes the first matching document; the query throws a
CastError for a parameter that is no ObjectId. -/
def deleteClient (userId : ObjectId) (clientId : IdParam) (s : Store) : Store × Reply :=
  match clientId.cast with
  | Except.error e => (s, Reply.next e)
  | Except.ok clientId =>
    match Client.findOwned clientId userId s with
    | Option.none => (s, Reply.json 404 false "Client not found" Payload.none)
    | some _ =>
      let s1 := { s with
        clients := s.clients.eraseP (fun c => c._id == clientId && c.addedBy == userId) }
      ({ s1 with users := User.pullClient userId clientId s1.users },
        Reply.json 200 true "Client deleted successfully" Payload.none)

/-! ## Handlers of `routes/payments.js`

Again the bodies of the routes after `verifyToken` has succeeded. -/

/-- JavaScript `a || b` for two optional strings. -/
def orOpt (a b : Option String) : Option String :=
  if truthy a then a else b

/-- The fields of `req.body` that `POST /payments/schedule` reads.  The field
`dueDate` holds the value of `new Date(dueDate)`: `none` stands for an
Invalid Date (the key is missing or does not parse). -/
structure CreateScheduleBody where
  clientId : Option IdParam := none
  description : Option String := none
  amount : Option Int := none
  dueDate : Option Date := none
  frequency : Option String := none
  currency : Option String := none
  /-- A `status` key of the body; the handler does not read it. -/
  status : Option String := none
deriving DecidableEq, Repr

/-- Helper `schedulePaymentNotification` (`payments.js`, lines 318-353).  The
comparison `dueDate.isSameOrAfter(now)` is false for an Invalid Date.  The
plain schedule object has no `_id`, so `data.scheduleId` is undefined.  The
call `notification.save()` is not awaited; its write is taken to complete.
The loop over `[7, 3, 1]` has an empty body and creates nothing. -/
def schedulePaymentNotification (now : Date) (client : Client) (p : PaymentSchedule)
    (s : Store) : Store :=
  match p.dueDate with
  | some due =>
    if now ≤ due then
      let notification : Notification :=
        { _id := s.nextId, user := client.addedBy, type := "payment_due",
          title := "Payment Due Reminder",
          message := "Payment due for " ++ client.name ++ ": " ++ p.description.getD "undefined",
          data := { clientId := some client._id, dueDate := p.dueDate, amount := p.amount,
                    currency := p.currency },
          createdAt := now }
      notification.save { s with nextId := s.nextId + 1 }
    else s
  | Option.none => s

/-- Handler `router.post('/schedule')` (`payments.js`, lines 28-71).  The
query throws a CastError for a `clientId` that is no ObjectId.  An Invalid
Date in `dueDate` fails the cast of the pushed element, which `save()`
reports as a validation error.  The pushed subdocument takes the schema
default for `createdAt`. -/
def createSchedule (env : Env) (now : Date) (userId : ObjectId) (body : CreateScheduleBody)
    (s : Store) : Store × Reply :=
  match IdParam.castOpt body.clientId with
  | Except.error e => (s, Reply.next e)
  | Except.ok clientId =>
    match clientId.bind (fun id => Client.findOwned id userId s) with
    | Option.none => (s, Reply.json 404 false "Client not found" Payload.none)
    | some found =>
      if found.status != "active" then
        (s, Reply.json 400 false "Cannot schedule payments for inactive clients" Payload.none)
      else
        let paymentSchedule : PaymentSchedule :=
          { description := body.description, amount := body.amount,
            currency := some (orElse (orOpt body.currency found.region.currency) "USD"),
            dueDate := body.dueDate,
            frequency := some (orElse body.frequency "one-time"),
            status := "pending" }
        if body.dueDate.isNone then (s, Reply.next HandlerError.validationError)
        else
          match Client.save env now false
              { found with
                paymentSchedules :=
                  found.paymentSchedules ++ [{ paymentSchedule with createdAt := some now }] }
              s with
          | Except.error e => (s, Reply.next e)
          | Except.ok (client, s1) =>
            (schedulePaymentNotification now client paymentSchedule s1,
              Reply.json 201 true "Payment schedule created successfully"
                (Payload.paymentSchedule paymentSchedule))

/-- The path parameter `:scheduleIndex`, a string.  Two things about the
string matter to the handlers: its numeric value in the comparison with the
array length, and whether it is an array index as a property key.
`index n` is the decimal numeral of `n` ("0", "1", "12"); `other v` is any
other string, `v` being the floor of its numeric value, or `none` when the
value is NaN ("-1" is `other (some (-1))`, "abc" is `other none`). -/
inductive IndexParam
  | index (n : Nat)
  | other (floor : Option Int)
deriving DecidableEq, Repr

/-- The test `scheduleIndex >= length` on the string parameter: the string
is converted to a number, and every comparison with NaN is false. -/
def IndexParam.geLength : IndexParam → Nat → Bool
  | IndexParam.index n, len => decide (len ≤ n)
  | IndexParam.other (some v), len => decide ((len : Int) ≤ v)
  | IndexParam.other Option.none, _ => false

/-- The array position that the property key denotes, if it denotes one. -/
def IndexParam.key : IndexParam → Option Nat
  | IndexParam.index n => some n
  | IndexParam.other _ => Option.none

/-- The body of `PUT /payments/schedule/:clientId/:scheduleIndex`, the patch.
For every path of the embedded schedule schema the value that the key of the
body casts to, if the body has the key and the value casts to the type of the
path. -/
structure UpdateScheduleBody where
  description : Option String := none
  amount : Option Int := none
  currency : Option String := none
  dueDate : Option Date := none
  frequency : Option String := none
  status : Option String := none
  lastNotified : Option Date := none
  createdAt : Option Date := none
  /-- The keys of the body on schema paths whose value does not cast to the
  type of the path (`amount: "abc"`). -/
  uncastable : List String := []
  /-- The keys of the body that are no path of the schema (`paidAt`). -/
  otherKeys : List String := []
deriving DecidableEq, Repr

/-- JavaScript `Object.assign` on one optional path: a key of the body
overwrites the value. -/
def assignOpt {α : Type} (patch old : Option α) : Option α :=
  match patch with
  | some v => some v
  | Option.none => old

/-- The call `Object.assign(client.paymentSchedules[scheduleIndex], req.body)`:
every key of the body on a schema path is written to the subdocument.  A key
that is no schema path (`paidAt`) does not reach the stored subdocument
(`otherKeys` is not read). -/
def PaymentSchedule.assign (p : PaymentSchedule) (b : UpdateScheduleBody) : PaymentSchedule :=
  { description := assignOpt b.description p.description
    amount := assignOpt b.amount p.amount
    currency := assignOpt b.currency p.currency
    dueDate := assignOpt b.dueDate p.dueDate
    frequency := assignOpt b.frequency p.frequency
    status := b.status.getD p.status
    lastNotified := assignOpt b.lastNotified p.lastNotified
    createdAt := assignOpt b.createdAt p.createdAt }

/-- Handler `router.put('/schedule/:clientId/:scheduleIndex')` (`payments.js`,
lines 107-135).  The query throws a CastError for a `clientId` that is no
ObjectId.  When the key denotes no element the target of `Object.assign` is
`undefined` and the call throws a TypeError.  A value of the body that does
not cast is recorded by the assignment as a cast error, which `save()` throws
as a validation error. -/
def updateSchedule (env : Env) (now : Date) (userId : ObjectId) (clientId : IdParam)
    (scheduleIndex : IndexParam) (body : UpdateScheduleBody) (s : Store) : Store × Reply :=
  match clientId.cast with
  | Except.error e => (s, Reply.next e)
  | Except.ok clientId =>
    match Client.findOwned clientId userId s with
    | Option.none => (s, Reply.json 404 false "Client not found" Payload.none)
    | some found =>
      if scheduleIndex.geLength found.paymentSchedules.length then
        (s, Reply.json 404 false "Payment schedule not found" Payload.none)
      else
        match scheduleIndex.key.bind
            (fun i => (found.paymentSchedules.get? i).map (fun p => (i, p))) with
        | Option.none => (s, Reply.next HandlerError.typeError)
        | some (i, p) =>
          if !body.uncastable.isEmpty then (s, Reply.next HandlerError.validationError)
          else
            match Client.save env now false
                { found with paymentSchedules := found.paymentSchedules.set i (p.assign body) }
                s with
            | Except.error e => (s, Reply.next e)
            | Except.ok (_, s1) =>
              (s1, Reply.json 200 true "Payment schedule updated successfully"
                (Payload.paymentSchedule (p.assign body)))

/-- Handler `router.post('/:clientId/:scheduleIndex/mark-paid')` (`payments.js`,
lines 138-196).  When the key denotes no element, `paymentSchedule` is
`undefined` and the assignment to its `status` throws a TypeError.  The path
`paidAt` is not in the schema (`Client.js`, lines 34-53), so the assignment at
line 157 is not persisted.  The query throws a CastError for a `clientId`
that is no ObjectId.  After `client.save()` the handler evaluates
`User.findOne` (line 162); `payments.js` never binds `User` (lines 1-7), so
this throws a ReferenceError, which the `catch` hands to `next`. -/
def markPaid (env : Env) (now : Date) (userId : ObjectId) (clientId : IdParam)
    (scheduleIndex : IndexParam) (s : Store) : Store × Reply :=
  match clientId.cast with
  | Except.error e => (s, Reply.next e)
  | Except.ok clientId =>
    match Client.findOwned clientId userId s with
    | Option.none => (s, Reply.json 404 false "Client not found" Payload.none)
    | some found =>
      if scheduleIndex.geLength found.paymentSchedules.length then
        (s, Reply.json 404 false "Payment schedule not found" Payload.none)
      else
        match scheduleIndex.key.bind
            (fun i => (found.paymentSchedules.get? i).map (fun p => (i, p))) with
        | Option.none => (s, Reply.next HandlerError.typeError)
        | some (i, p) =>
          match Client.save env now false
              { found with
                paymentSchedules := found.paymentSchedules.set i { p with status := "paid" } }
              s with
          | Except.error e => (s, Reply.next e)
          | Except.ok (_, s1) => (s1, Reply.next HandlerError.referenceError)

/-- Handler `router.get('/:clientId')` (`clients.js`, lines 351-371).  The
query throws a CastError for a parameter that is no ObjectId. -/
def getClient (userId : ObjectId) (clientId : IdParam) (s : Store) : Store × Reply :=
  match clientId.cast with
  | Except.error e => (s, Reply.next e)
  | Except.ok clientId =>
    match Client.findOwned clientId userId s with
    | Option.none => (s, Reply.json 404 false "Client not found" Payload.none)
    | some client =>
      (s, Reply.data (Payload.populatedClient client
        ((User.findById client.addedBy s).map (fun u =>
          { _id := u._id, name := u.name, email := u.email, companyName := u.companyName }))))

/-- The comparator of `payments.js` line 95,
`new Date(a.dueDate) - new Date(b.dueDate)`: the difference of the two dates,
or NaN (`none`) when one of them is missing (`new Date(undefined)` is an
Invalid Date). -/
def dueDateCompare (a b : PaymentSchedule) : Option Int :=
  match a.dueDate, b.dueDate with
  | some x, some y => some (x - y)
  | _, _ => Option.none

/-- The number that `Array.prototype.sort` takes from a call of the
comparator: NaN counts as zero. -/
def sortOrder {α : Type} (comparefn : α → α → Option Int) (a b : α) : Int :=
  (comparefn a b).getD 0

/-- The run at the start of the array, as `CountAndMakeRun` of V8 counts it:
after `prev`, the elements that continue the run (each one below its
predecessor in a descending run, not below it in an ascending one), and the
elements that are left over. -/
def extendRun {α : Type} (order : α → α → Int) (descending : Bool) :
    α → List α → List α × List α
  | _, [] => ([], [])
  | prev, cur :: rest =>
    if decide (order cur prev < 0) = descending then
      ((cur :: (extendRun order descending cur rest).1), (extendRun order descending cur rest).2)
    else ([], cur :: rest)

/-- The binary search of `BinaryInsertionSort` of V8 in the sorted segment
`seg`: the number of elements of the segment that stay left of `pivot`.  The
pivot is compared with the middle element; when it is below, the search goes
on to the left of the middle, otherwise to the right of it.  The first
argument bounds the number of steps; the length of the segment is enough. -/
def insertionPoint {α : Type} (order : α → α → Int) (pivot : α) : Nat → List α → Nat
  | 0, _ => 0
  | fuel + 1, seg =>
    match seg.get? (seg.length / 2) with
    | Option.none => 0
    | some mid =>
      if order pivot mid < 0 then insertionPoint order pivot fuel (seg.take (seg.length / 2))
      else
        seg.length / 2 + 1 +
          insertionPoint order pivot fuel (seg.drop (seg.length / 2 + 1))

/-- One step of `BinaryInsertionSort`: the pivot is put at its insertion
point in the sorted part. -/
def binaryInsert {α : Type} (order : α → α → Int) (sorted : List α) (pivot : α) : List α :=
  (sorted.take (insertionPoint order pivot sorted.length sorted)) ++
    pivot :: sorted.drop (insertionPoint order pivot sorted.length sorted)

/-- The method `Array.prototype.sort(comparefn)` as the V8 engine of Node.js
implements it for an array of fewer than 64 elements, which is a single run
of its TimSort: the run at the start of the array is counted and reversed
when it is descending, and the remaining elements are put in place by binary
insertion, one after the other.  Arrays of 64 or more elements, which V8
merges from several such runs, are sorted as one run here. -/
def arraySort {α : Type} (comparefn : α → α → Option Int) : List α → List α
  | [] => []
  | [a] => [a]
  | a0 :: a1 :: rest =>
    let order := sortOrder comparefn
    let descending := decide (order a1 a0 < 0)
    let run := a0 :: a1 :: (extendRun order descending a1 rest).1
    (extendRun order descending a1 rest).2.foldl (binaryInsert order)
      (if descending then run.reverse else run)

/-- Handler `router.get('/client/:clientId')` (`payments.js`, lines 74-104).
The query throws a CastError for a parameter that is no ObjectId.  The sort
works on the document in memory, which is not saved. -/
def listSchedules (userId : ObjectId) (clientId : IdParam) (status : Option String)
    (s : Store) : Store × Reply :=
  match clientId.cast with
  | Except.error e => (s, Reply.next e)
  | Except.ok clientId =>
    match Client.findOwned clientId userId s with
    | Option.none => (s, Reply.json 404 false "Client not found" Payload.none)
    | some client =>
      let paymentSchedules :=
        if truthy status then
          client.paymentSchedules.filter (fun schedule => schedule.status == status.getD "")
        else client.paymentSchedules
      (s, Reply.data (Payload.paymentSchedules (arraySort dueDateCompare paymentSchedules)))

/-- The test `scheduleIndex < length` of the webhook (`payments.js`, line
279), on the numeric value of the string. -/
def IndexParam.ltLength : IndexParam → Nat → Bool
  | IndexParam.index n, len => decide (n < len)
  | IndexParam.other (some v), len => decide (v < (len : Int))
  | IndexParam.other Option.none, _ => false

/-- The `metadata` object of a payment link (`payments.js`, lines 237-241)
and of the checkout session the provider reports back (line 275).  The values
are strings; `none` stands for a missing or empty one. -/
structure LinkMetadata where
  clientId : Option IdParam := none
  scheduleIndex : Option IndexParam := none
  userId : Option IdParam := none
deriving DecidableEq, Repr

/-- The argument of `stripe.paymentLinks.create` (`payments.js`, lines
219-242). -/
structure PaymentLinkRequest where
  currency : String
  name : String
  description : String
  unitAmount : Option Int
  redirectUrl : String
  metadata : LinkMetadata
deriving DecidableEq, Repr

/-- The payment provider and the deployment settings the link route reads:
the call `stripe.paymentLinks.create`, which yields the `url` and
`expires_at` of the link or throws, and `process.env.FRONTEND_URL`. -/
structure Provider where
  create : PaymentLinkRequest → Except HandlerError (String × Option Date)
  frontendUrl : String

/-- The fields of `req.body` that `POST /payments/create-payment-link`
reads.  The index may be a JSON number or a string; `IndexParam` covers both,
`none` is a missing key. -/
structure PaymentLinkBody where
  clientId : Option IdParam := none
  scheduleIndex : Option IndexParam := none
  successUrl : Option String := none
  cancelUrl : Option String := none
deriving DecidableEq, Repr

/-- Handler `router.post('/create-payment-link')` (`payments.js`, lines
199-252).  The query throws a CastError for a `clientId` that is no ObjectId.
With a missing index, or a key that denotes no element, `paymentSchedule` is
`undefined` and reading its `currency` throws a TypeError; so does
`toLowerCase` on a schedule without currency.  The metadata carry the ids of
the Client and of the requester as strings.  The store is never written. -/
def createPaymentLink (env : Env) (provider : Provider) (userId : ObjectId)
    (body : PaymentLinkBody) (s : Store) : Store × Reply :=
  match IdParam.castOpt body.clientId with
  | Except.error e => (s, Reply.next e)
  | Except.ok clientId =>
    match clientId.bind (fun id => Client.findOwned id userId s) with
    | Option.none => (s, Reply.json 404 false "Client not found" Payload.none)
    | some client =>
      if (match body.scheduleIndex with
          | some i => i.geLength client.paymentSchedules.length
          | Option.none => false) then
        (s, Reply.json 404 false "Payment schedule not found" Payload.none)
      else
        match (body.scheduleIndex.bind IndexParam.key).bind client.paymentSchedules.get? with
        | Option.none => (s, Reply.next HandlerError.typeError)
        | some paymentSchedule =>
          match paymentSchedule.currency with
          | Option.none => (s, Reply.next HandlerError.typeError)
          | some currency =>
            match provider.create
                { currency := env.toLowerCase currency
                  name := orElse paymentSchedule.description "Payment"
                  description := "Payment for " ++ client.companyName
                  unitAmount := paymentSchedule.amount.map (fun a => a * 100)
                  redirectUrl :=
                    orElse body.successUrl
                      (provider.frontendUrl ++ "/dashboard/payments/success")
                  metadata :=
                    { clientId := some (IdParam.objectId client._id)
                      scheduleIndex := body.scheduleIndex
                      userId := some (IdParam.objectId userId) } } with
            | Except.error e => (s, Reply.next e)
            | Except.ok (url, expiresAt) => (s, Reply.data (Payload.paymentLink url expiresAt))

/-- The event that `stripe.webhooks.constructEvent` returns: its type and
the metadata of `event.data.object`. -/
structure WebhookEvent where
  type : String
  metadata : LinkMetadata := {}
deriving DecidableEq, Repr

/-- The notification built at `payments.js` lines 285-295. -/
def paymentReceivedNotification (now : Date) (id userId : ObjectId) (client : Client)
    (p : PaymentSchedule) : Notification :=
  { _id := id, user := userId, type := "payment_received", title := "Payment Received",
    message := "Payment received from " ++ client.name ++ " for " ++
      p.description.getD "undefined",
    data := { clientId := some client._id, amount := p.amount, currency := p.currency },
    createdAt := now }

/-- Handler `router.post('/webhook')` (`payments.js`, lines 255-315).  The
route has no `verifyToken`.  The argument `event` is the outcome of
`constructEvent`: the verified event, or the message of the error it threw.
The handler body is not inside a `try` block, so an error thrown after the
signature check is `Reply.unhandled`: the CastError of `Client.findById` for
a `clientId` that is no ObjectId (line 278) among them.  The path `paidAt` is
not in the schema and is not persisted.  Modelled from the spec: a
Notification is addressed to exactly one User, so saving one whose `user` is
missing or does not cast to an ObjectId fails validation. -/
def webhook (env : Env) (now : Date) (event : Except String WebhookEvent) (s : Store) :
    Store × Reply :=
  match event with
  | Except.error message => (s, Reply.send 400 ("Webhook Error: " ++ message))
  | Except.ok event =>
    if event.type = "checkout.session.completed" then
      match event.metadata.clientId, event.metadata.scheduleIndex with
      | some clientId, some scheduleIndex =>
        match clientId.cast with
        | Except.error e => (s, Reply.unhandled e)
        | Except.ok clientId =>
          match Client.findById clientId s with
          | some found =>
            if scheduleIndex.ltLength found.paymentSchedules.length then
              match scheduleIndex.key.bind
                  (fun i => (found.paymentSchedules.get? i).map (fun p => (i, p))) with
              | Option.none => (s, Reply.unhandled HandlerError.typeError)
              | some (i, p) =>
                match Client.save env now false
                    { found with
                      paymentSchedules :=
                        found.paymentSchedules.set i { p with status := "paid" } } s with
                | Except.error e => (s, Reply.unhandled e)
                | Except.ok (client, s1) =>
                  match event.metadata.userId with
                  | some (IdParam.objectId userId) =>
                    let notification :=
                      paymentReceivedNotification now s1.nextId userId client
                        { p with status := "paid" }
                    (notification.save { s1 with nextId := s1.nextId + 1 }, Reply.received)
                  | _ => (s1, Reply.unhandled HandlerError.validationError)
            else (s, Reply.received)
          | Option.none => (s, Reply.received)
      | _, _ => (s, Reply.received)
    else (s, Reply.received)

/-! ## The list routes of `routes/clients.js` -/

/-- The regular-expression matcher of the database, as the operator
`$regex` with `$options: 'i'` uses it: `compile pattern` is `none` when the
pattern is not a valid regular expression (the query then fails), otherwise
the test whether a string has a match of the pattern, ignoring case. -/
structure RegexEngine where
  compile : String → Option (String → Bool)

/-- The projection `name email companyName` of a user, as `populate` and
`select` give it. -/
def User.info (u : User) : OwnerInfo :=
  { _id := u._id, name := u.name, email := u.email, companyName := u.companyName }

/-- The order of `.sort(\x7b createdAt: -1 \x7d)` on Clients. -/
def Client.newerFirst (a b : Client) : Prop := b.createdAt ≤ a.createdAt

instance : DecidableRel Client.newerFirst := by
  intro a b
  unfold Client.newerFirst
  infer_instance

/-- Handler `router.get('/')` (`clients.js`, lines 231-260).  The search
string is handed to the database as a regular expression, not escaped. -/
def listClients (regex : RegexEngine) (userId : ObjectId) (search status : Option String)
    (s : Store) : Store × Reply :=
  let inScope := fun (c : Client) =>
    c.addedBy == userId && (if truthy status then c.status == status.getD "" else true)
  let reply := fun (cs : List Client) =>
    Reply.data (Payload.populatedClients
      ((cs.insertionSort Client.newerFirst).map (fun c =>
        (c, (User.findById c.addedBy s).map User.info))))
  if truthy search then
    match regex.compile (search.getD "") with
    | Option.none => (s, Reply.next HandlerError.regexError)
    | some test =>
      (s, reply (s.clients.filter (fun c =>
        inScope c && (test c.name || test c.email || test c.companyName))))
  else (s, reply (s.clients.filter inScope))

/-- Handler `router.get('/search/email')` (`clients.js`, lines 263-293). -/
def searchClientsByEmail (regex : RegexEngine) (userId : ObjectId) (email : Option String)
    (s : Store) : Store × Reply :=
  if !truthy email then
    (s, Reply.json 400 false "Email query parameter is required" Payload.none)
  else
    match regex.compile (email.getD "") with
    | Option.none => (s, Reply.next HandlerError.regexError)
    | some test =>
      (s, Reply.data (Payload.emailSearch
        (s.clients.filter (fun c => c.addedBy == userId && test c.email))
        ((s.users.filter (fun u => test u.email && u._id != userId)).map User.info)))

/-! ## Handlers of `routes/notifications.js` -/

/-- The order of `.sort(\x7b createdAt: -1 \x7d)` on Notifications. -/
def Notification.newerFirst (a b : Notification) : Prop := b.createdAt ≤ a.createdAt

instance : DecidableRel Notification.newerFirst := by
  intro a b
  unfold Notification.newerFirst
  infer_instance

/-- Handler `router.get('/')` (`notifications.js`, lines 25-46).  The
argument `limit` is the value of `parseInt(limit)` for a `limit` key of the
query; without the key it is 50, and the database reads 0 as no limit. -/
def listNotifications (userId : ObjectId) (limit : Option Nat) (unreadOnly : Option String)
    (s : Store) : Store × Reply :=
  let found := s.notifications.filter (fun n =>
    n.user == userId && (if unreadOnly = some "true" then !n.isRead else true))
  let sorted := found.insertionSort Notification.newerFirst
  (s, Reply.data (Payload.notifications
    (if limit.getD 50 = 0 then sorted else sorted.take (limit.getD 50))))

/-- The update of the first element that satisfies `p`, as `findOneAndUpdate`
does it. -/
def updateFirst {α : Type} (p : α → Bool) (f : α → α) : List α → List α
  | [] => []
  | a :: l => if p a then f a :: l else a :: updateFirst p f l

/-- Handler `router.put('/:notificationId/read')` (`notifications.js`, lines
49-71).  The query throws a CastError for a parameter that is no ObjectId. -/
def markNotificationRead (userId : ObjectId) (notificationId : IdParam) (s : Store) :
    Store × Reply :=
  match notificationId.cast with
  | Except.error e => (s, Reply.next e)
  | Except.ok notificationId =>
    match s.notifications.find? (fun n => n._id == notificationId && n.user == userId) with
    | Option.none => (s, Reply.json 404 false "Notification not found" Payload.none)
    | some n =>
      ({ s with
          notifications := updateFirst (fun n => n._id == notificationId && n.user == userId)
            (fun n => { n with isRead := true }) s.notifications },
        Reply.json 200 true "Notification marked as read"
          (Payload.notification { n with isRead := true }))

/-- Handler `router.put('/read-all')` (`notifications.js`, lines 74-88). -/
def markAllNotificationsRead (userId : ObjectId) (s : Store) : Store × Reply :=
  ({ s with
      notifications := s.notifications.map (fun n =>
        if n.user = userId ∧ n.isRead = false then { n with isRead := true } else n) },
    Reply.json 200 true "All notifications marked as read" Payload.none)

/-- Handler `router.get('/unread-count')` (`notifications.js`, lines 91-105). -/
def unreadCount (userId : ObjectId) (s : Store) : Store × Reply :=
  (s, Reply.data (Payload.count
    (s.notifications.countP (fun n => n.user == userId && n.isRead == false))))

/-- Handler `router.delete('/:notificationId')` (`notifications.js`, lines
108-128).  The query throws a CastError for a parameter that is no
ObjectId. -/
def deleteNotification (userId : ObjectId) (notificationId : IdParam) (s : Store) :
    Store × Reply :=
  match notificationId.cast with
  | Except.error e => (s, Reply.next e)
  | Except.ok notificationId =>
    match s.notifications.find? (fun n => n._id == notificationId && n.user == userId) with
    | Option.none => (s, Reply.json 404 false "Notification not found" Payload.none)
    | some _ =>
      ({ s with
          notifications :=
            s.notifications.eraseP (fun n => n._id == notificationId && n.user == userId) },
        Reply.json 200 true "Notification deleted successfully" Payload.none)

/-! ## Authentication and the routes of the API -/

/-- The claims of a token: `userId` and `role` (`auth.js`, lines 102-106). -/
structure TokenPayload where
  userId : ObjectId
  role : String
deriving DecidableEq, Repr

/-- The call `jwt.verify(token, secret)`: the decoded claims, or `none` when
it throws (bad signature, expired, malformed). -/
structure Jwt where
  verify : String → Option TokenPayload

/-- The expression `req.headers.authorization?.split(' ')[1]`. -/
def bearerToken (authorization : Option String) : Option String :=
  match authorization with
  | Option.none => Option.none
  | some header => (header.splitOn " ").get? 1

/-- Middleware `verifyToken` (`clients.js`, `payments.js` lines 10-25,
`notifications.js` lines 7-22), followed by the handler `next`. -/
def verifyToken (jwt : Jwt) (authorization : Option String)
    (next : ObjectId → Store → Store × Reply) (s : Store) : Store × Reply :=
  if !truthy (bearerToken authorization) then
    (s, Reply.json 401 false "No token provided" Payload.none)
  else
    match jwt.verify ((bearerToken authorization).getD "") with
    | Option.none => (s, Reply.json 401 false "Invalid token" Payload.none)
    | some decoded => next decoded.userId s

/-- Handler `router.get('/me')` (`auth.js`, lines 199-228).  The token check
is inside the handler; an error of `jwt.verify` goes to `next`. -/
def authMe (jwt : Jwt) (authorization : Option String) (s : Store) : Store × Reply :=
  if !truthy (bearerToken authorization) then
    (s, Reply.json 401 false "No token provided" Payload.none)
  else
    match jwt.verify ((bearerToken authorization).getD "") with
    | Option.none => (s, Reply.next HandlerError.tokenError)
    | some decoded =>
      match User.findById decoded.userId s with
      | Option.none => (s, Reply.json 404 false "User not found" Payload.none)
      | some user => (s, Reply.data (Payload.user user.info user.role user.region))

/-- Handler `router.put('/region')` (`auth.js`, lines 231-258).  Modelled from
the spec: `user.save()` on the absent User model stores the document. -/
def authRegion (jwt : Jwt) (authorization : Option String)
    (timezone currency country : Option String) (s : Store) : Store × Reply :=
  if !truthy (bearerToken authorization) then
    (s, Reply.json 401 false "No token provided" Payload.none)
  else
    match jwt.verify ((bearerToken authorization).getD "") with
    | Option.none => (s, Reply.next HandlerError.tokenError)
    | some decoded =>
      match User.findById decoded.userId s with
      | Option.none => (s, Reply.json 404 false "User not found" Payload.none)
      | some user =>
        ({ s with
            users := s.users.map (fun u =>
              if u._id = user._id then
                { u with
                  region := { timezone := timezone, currency := currency, country := country } }
              else u) },
          Reply.json 200 true "Region settings updated"
            (Payload.region { timezone := timezone, currency := currency, country := country }))

/-- Handler `router.post('/scan-google')` (`auth.js`, lines 261-273): a mock
reply, with no token check. -/
def scanGoogle (s : Store) : Store × Reply :=
  (s, Reply.json 200 true "Google accounts scanning initiated" Payload.none)

/-- A request to one of the routes of the API that are embedded here.  The
routes `POST /auth/register`, `POST /auth/login`, `GET /auth/google` and
`GET /auth/google/callback` are not embedded. -/
inductive ApiRequest
  | authMe
  | authRegion (timezone currency country : Option String)
  | scanGoogle
  | createClient (body : CreateClientBody)
  | respond (clientId : IdParam) (accept : Bool)
  | listClients (search status : Option String)
  | searchEmail (email : Option String)
  | updateClient (clientId : IdParam) (body : UpdateClientBody)
  | deleteClient (clientId : IdParam)
  | getClient (clientId : IdParam)
  | createSchedule (body : CreateScheduleBody)
  | listSchedules (clientId : IdParam) (status : Option String)
  | updateSchedule (clientId : IdParam) (scheduleIndex : IndexParam)
      (body : UpdateScheduleBody)
  | markPaid (clientId : IdParam) (scheduleIndex : IndexParam)
  | createPaymentLink (body : PaymentLinkBody)
  | webhook (event : Except String WebhookEvent)
  | listNotifications (limit : Option Nat) (unreadOnly : Option String)
  | markRead (notificationId : IdParam)
  | markAllRead
  | unreadCount
  | deleteNotification (notificationId : IdParam)

/-- The collaborators of the routes. -/
structure Deps where
  env : Env
  jwt : Jwt
  provider : Provider
  regex : RegexEngine

/-- The route table: which middleware and handler a request runs, as the
`router.get/post/put/delete` calls of the four route files register them.
The webhook (`payments.js`, line 255) is registered with `express.raw` only,
without `verifyToken`. -/
def serve (deps : Deps) (now : Date) (authorization : Option String) (request : ApiRequest)
    (s : Store) : Store × Reply :=
  match request with
  | ApiRequest.authMe => authMe deps.jwt authorization s
  | ApiRequest.authRegion timezone currency country =>
    authRegion deps.jwt authorization timezone currency country s
  | ApiRequest.scanGoogle => scanGoogle s
  | ApiRequest.createClient body =>
    verifyToken deps.jwt authorization (fun userId => createClient deps.env now userId body) s
  | ApiRequest.respond clientId accept =>
    verifyToken deps.jwt authorization
      (fun userId => respondToClient deps.env now userId clientId accept) s
  | ApiRequest.listClients search status =>
    verifyToken deps.jwt authorization
      (fun userId => listClients deps.regex userId search status) s
  | ApiRequest.searchEmail email =>
    verifyToken deps.jwt authorization
      (fun userId => searchClientsByEmail deps.regex userId email) s
  | ApiRequest.updateClient clientId body =>
    verifyToken deps.jwt authorization
      (fun userId => updateClient deps.env now userId clientId body) s
  | ApiRequest.deleteClient clientId =>
    verifyToken deps.jwt authorization (fun userId => deleteClient userId clientId) s
  | ApiRequest.getClient clientId =>
    verifyToken deps.jwt authorization (fun userId => getClient userId clientId) s
  | ApiRequest.createSchedule body =>
    verifyToken deps.jwt authorization
      (fun userId => createSchedule deps.env now userId body) s
  | ApiRequest.listSchedules clientId status =>
    verifyToken deps.jwt authorization (fun userId => listSchedules userId clientId status) s
  | ApiRequest.updateSchedule clientId scheduleIndex body =>
    verifyToken deps.jwt authorization
      (fun userId => updateSchedule deps.env now userId clientId scheduleIndex body) s
  | ApiRequest.markPaid clientId scheduleIndex =>
    verifyToken deps.jwt authorization
      (fun userId => markPaid deps.env now userId clientId scheduleIndex) s
  | ApiRequest.createPaymentLink body =>
    verifyToken deps.jwt authorization
      (fun userId => createPaymentLink deps.env deps.provider userId body) s
  | ApiRequest.webhook event => webhook deps.env now event s
  | ApiRequest.listNotifications limit unreadOnly =>
    verifyToken deps.jwt authorization
      (fun userId => listNotifications userId limit unreadOnly) s
  | ApiRequest.markRead notificationId =>
    verifyToken deps.jwt authorization
      (fun userId => markNotificationRead userId notificationId) s
  | ApiRequest.markAllRead =>
    verifyToken deps.jwt authorization (fun userId => markAllNotificationsRead userId) s
  | ApiRequest.unreadCount =>
    verifyToken deps.jwt authorization (fun userId => unreadCount userId) s
  | ApiRequest.deleteNotification notificationId =>
    verifyToken deps.jwt authorization
      (fun userId => deleteNotification userId notificationId) s

/-- Successive Respond requests of one user for one Client, each with its
clock reading and its `accept` flag: the final store and the replies in
order. -/
def respondAll (env : Env) (userId clientId : ObjectId) :
    List (Date × Bool) → Store → Store × List Reply
  | [], s => (s, [])
  | (now, accept) :: rest, s =>
    ((respondAll env userId clientId rest
        (respondToClient env now userId clientId accept s).1).1,
      (respondToClient env now userId clientId accept s).2 ::
        (respondAll env userId clientId rest
          (respondToClient env now userId clientId accept s).1).2)

/-! ## Predicates used in the statements -/

/-- A request field is missing or empty. -/
def missingOrEmpty (v : Option String) : Prop := v = none ∨ v = some ""

/-- The `_id` and status of every stored Client, in collection order. -/
def Store.clientStatuses (s : Store) : List (ObjectId × String) :=
  s.clients.map (fun c => (c._id, c.status))

/-- The uniqueness invariant of the spec: no two stored Clients share the
pair of owner and (stored) address. -/
def Store.uniqueClients (s : Store) : Prop :=
  (s.clients.map (fun c => (c.addedBy, c.email))).Nodup

instance (s : Store) : Decidable s.uniqueClients := by
  unfold Store.uniqueClients
  infer_instance

/-- The field `_id` is a key of the `clients` collection. -/
def Store.clientIdsUnique (s : Store) : Prop :=
  (s.clients.map (fun c => c._id)).Nodup

instance (s : Store) : Decidable s.clientIdsUnique := by
  unfold Store.clientIdsUnique
  infer_instance

/-- The HTTP status of a reply, when the handler sent one. -/
def Reply.status? : Reply → Option Nat
  | Reply.json status _ _ _ => some status
  | Reply.data _ => some 200
  | Reply.received => some 200
  | Reply.send status _ => some status
  | Reply.next _ => none
  | Reply.unhandled _ => none

/-- Merge of one optional field: a key of the patch gives the new value, a
missing key leaves the old value. -/
def mergedField {α : Type} (patch old new : Option α) : Prop :=
  (∀ v, patch = some v → new = some v) ∧ (patch = none → new = old)

/-- The reading of the search in the spec: `text` contains `search` as a
literal substring, ignoring (ASCII) case. -/
def containsIgnoreCase (search text : String) : Bool :=
  (text.data.map Char.toLower).tails.any
    (fun t => (search.data.map Char.toLower).isPrefixOf t)

/-- The amount of a schedule is present and not negative. -/
def PaymentSchedule.amountNonneg (p : PaymentSchedule) : Prop :=
  match p.amount with
  | some a => 0 ≤ a
  | Option.none => False

instance (p : PaymentSchedule) : Decidable p.amountNonneg := by
  unfold PaymentSchedule.amountNonneg
  split <;> infer_instance

/-- Every schedule of every stored Client has a nonnegative amount. -/
def Store.amountsNonneg (s : Store) : Prop :=
  ∀ c ∈ s.clients, ∀ p ∈ c.paymentSchedules, p.amountNonneg

instance (s : Store) : Decidable s.amountsNonneg := by
  unfold Store.amountsNonneg
  infer_instance

/-! ## Sample data

A concrete instance of the library functions and a small store, on which the
handlers are evaluated. -/

/-- A sample instance of `Env`: an address is accepted when it contains `@`,
and lowercasing is the ASCII one. -/
def sampleEnv : Env :=
  { isEmail := fun e => e.data.contains '@'
    toLowerCase := fun e => String.mk (e.data.map Char.toLower) }

/-- User 1, the owner in the samples. -/
def sampleOwner : User :=
  { _id := 1, email := "u1@x.com", name := "U1", companyName := "One" }

/-- User 2, a registered counterpart. -/
def sampleCounterpart : User :=
  { _id := 2, email := "u2@x.com", name := "U2", companyName := "Two" }

/-- A pending Client of user 1 for the address of user 2. -/
def samplePending : Client :=
  { _id := 10, name := "Two", email := "u2@x.com", companyName := "Two", addedBy := 1,
    status := "pending", createdAt := 0, updatedAt := 0 }

/-- An active Client of user 1 for an address without an account. -/
def sampleActive : Client :=
  { _id := 11, name := "Carol", email := "c@x.com", companyName := "Carol Co", addedBy := 1,
    status := "active", createdAt := 0, updatedAt := 0 }

/-- A store with two users and two clients of user 1. -/
def sampleStore : Store :=
  { users := [{ sampleOwner with clients := [10, 11] }, sampleCounterpart],
    clients := [samplePending, sampleActive], nextId := 20 }

/-- A sample payment provider: every link request succeeds. -/
def sampleProvider : Provider :=
  { create := fun _ => Except.ok ("https://pay.example/link", some 1000)
    frontendUrl := "https://app.example" }

/-- A pending schedule of 100 USD due at time 50. -/
def sampleInvoice1 : PaymentSchedule :=
  { description := some "Invoice 1", amount := some 100, currency := some "USD",
    dueDate := some 50, frequency := some "one-time", status := "pending",
    createdAt := some 0 }

/-- A pending schedule of 250 EUR due at time 20. -/
def sampleInvoice2 : PaymentSchedule :=
  { description := some "Invoice 2", amount := some 250, currency := some "EUR",
    dueDate := some 20, frequency := some "monthly", status := "pending",
    createdAt := some 0 }

/-- An active Client of user 1 for the address of user 2, with two
schedules. -/
def sampleBilled : Client :=
  { _id := 12, name := "Two", email := "u2@x.com", companyName := "Two", addedBy := 1,
    status := "active", paymentSchedules := [sampleInvoice1, sampleInvoice2],
    createdAt := 0, updatedAt := 0 }

/-- A store with two users and the billed Client of user 1. -/
def billingStore : Store :=
  { users := [{ sampleOwner with clients := [12] }, sampleCounterpart],
    clients := [sampleBilled], nextId := 20 }

/-- A sample token verifier: the token `t1` belongs to user 1, the token
`t2` to user 2, any other token is rejected. -/
def sampleJwt : Jwt :=
  { verify := fun token =>
      if token = "t1" then some { userId := 1, role := "user" }
      else if token = "t2" then some { userId := 2, role := "user" }
      else none }

/-- A sample regular-expression test at the start of a text, for patterns
made of ordinary characters and the wildcard `.`, ignoring case. -/
def sampleMatchHere : List Char → List Char → Bool
  | [], _ => true
  | _ :: _, [] => false
  | p :: ps, c :: cs => (p == '.' || p.toLower == c.toLower) && sampleMatchHere ps cs

/-- The characters that the sample engine does not handle. -/
def sampleUnsupported : List Char :=
  ['\\', '^', '$', '*', '+', '?', '(', ')', '[', ']', '|']

/-- A sample instance of `RegexEngine` for the fragment of patterns made of
ordinary characters and the wildcard `.`; outside the fragment `compile` is
`none`. -/
def sampleRegex : RegexEngine :=
  { compile := fun pattern =>
      if pattern.data.any (fun ch => sampleUnsupported.contains ch) then none
      else some (fun text => text.data.tails.any (sampleMatchHere pattern.data)) }

/-- The sample collaborators of the routes. -/
def sampleDeps : Deps :=
  { env := sampleEnv, jwt := sampleJwt, provider := sampleProvider, regex := sampleRegex }

/-- An unread Notification addressed to user 2. -/
def sampleNotice : Notification :=
  { _id := 30, user := 2, type := "client_add_request", title := "New Client Request",
    message := "A user wants to add you as a client", createdAt := 1 }

/-- An unread Notification addressed to user 1. -/
def sampleNotice2 : Notification :=
  { _id := 31, user := 1, type := "payment_due", title := "Payment Due Reminder",
    message := "Payment due for Two: Invoice 1", createdAt := 2 }

/-- The sample store with the two Notifications. -/
def noticeStore : Store :=
  { sampleStore with notifications := [sampleNotice, sampleNotice2], nextId := 40 }

/-- A store with the two users and nothing else. -/
def freshStore : Store :=
  { users := [sampleOwner, sampleCounterpart], nextId := 20 }

/-! ## Properties of Create -/

theorem truthy_eq_false_iff (v : Option String) : truthy v = false ↔ missingOrEmpty v := by
  cases v with
  | none => simp [truthy, missingOrEmpty]
  | some x => simp [truthy, missingOrEmpty]

theorem truthy_some {x : String} (h : x ≠ "") : truthy (some x) = true := by
  simp [truthy, h]

theorem IdParam.cast_objectId (id : ObjectId) :
    (IdParam.objectId id).cast = Except.ok id := rfl

theorem IdParam.castOpt_objectId (id : ObjectId) :
    IdParam.castOpt (some (IdParam.objectId id)) = Except.ok (some id) := rfl

theorem JsValue.truthy_string {x : String} (h : x ≠ "") :
    (JsValue.string x).truthy = true := by
  simp [JsValue.truthy, h]

theorem Client.keyTaken_stored {c found : Client} {s : Store} (hmem : found ∈ s.clients)
    (hid : found._id = c._id) (he : found.email = c.email) (ha : found.addedBy = c.addedBy) :
    Client.keyTaken false c s = false := by
  have hany : s.clients.any
      (fun d => d._id == c._id && (d.email == c.email && d.addedBy == c.addedBy)) = true := by
    rw [List.any_eq_true]
    exact ⟨found, hmem, by simp [hid, he, ha]⟩
  simp [Client.keyTaken, hany]

theorem Client.keyTaken_new {c : Client} {s : Store}
    (h : ∀ d ∈ s.clients, ¬(d.addedBy = c.addedBy ∧ d.email = c.email)) :
    Client.keyTaken true c s = false := by
  simp only [Client.keyTaken, if_true]
  rw [List.any_eq_false]
  intro d hd
  have := h d hd
  simp only [Bool.and_eq_true, beq_iff_eq, not_and]
  intro he ha
  exact this ⟨ha, he⟩

/-- A save of a stored document that keeps `_id`, `email` and `addedBy` and
passes the validators is accepted: the stored document is replaced. -/
theorem Client.save_stored (env : Env) (now : Date) (c found : Client) (s : Store)
    (hmem : found ∈ s.clients) (hid : found._id = c._id) (he : found.email = c.email)
    (ha : found.addedBy = c.addedBy) (hval : c.validate env = true) :
    Client.save env now false c s =
      Except.ok ({ c with updatedAt := now },
        { s with
          clients := s.clients.map (fun d =>
            if d._id = c._id then { c with updatedAt := now } else d) }) := by
  simp [Client.save, hval, Client.keyTaken_stored hmem hid he ha]

theorem Client.findOneByEmail_isSome (env : Env) (email : String) (userId : ObjectId)
    (s : Store) (h : ∃ c ∈ s.clients, c.email = env.toLowerCase email ∧ c.addedBy = userId) :
    ∃ c, Client.findOneByEmail env email userId s = some c := by
  obtain ⟨c, hc, he, ha⟩ := h
  have : (s.clients.find? (fun c => c.email == env.toLowerCase email && c.addedBy == userId)).isSome := by
    rw [List.find?_isSome]
    exact ⟨c, hc, by simp [he, ha]⟩
  exact Option.isSome_iff_exists.mp this

/-- C2: a Create request that passes the field and address checks, for an
address under which the requester already has a Client (the stored address
being the lowercased one), is answered 400 "Client with this email already
exists" and leaves the whole store as it was: no Client added, no clients list
changed, no Notification stored. -/
theorem createClient_duplicate (env : Env) (now : Date) (userId : ObjectId)
    (body : CreateClientBody) (s : Store) (name email companyName : String)
    (hname : body.name = some name) (hemail : body.email = some email)
    (hcompany : body.companyName = some companyName)
    (hn : name ≠ "") (he : email ≠ "") (hc : companyName ≠ "")
    (hvalid : env.isEmail email = true)
    (hdup : ∃ c ∈ s.clients, c.email = env.toLowerCase email ∧ c.addedBy = userId) :
    createClient env now userId body s =
      (s, Reply.json 400 false "Client with this email already exists" Payload.none) := by
  obtain ⟨c, hfind⟩ := Client.findOneByEmail_isSome env email userId s hdup
  simp [createClient, hname, hemail, hcompany, JsValue.ofOption, JsValue.truthy_string hn,
    JsValue.truthy_string he, JsValue.truthy_string hc, hvalid, hfind]

theorem createClient_duplicate_witness :
    createClient sampleEnv 5 1
        { name := some "Carol", email := some "C@x.com", companyName := some "Carol Co" }
        sampleStore =
      (sampleStore, Reply.json 400 false "Client with this email already exists" Payload.none) :=
  createClient_duplicate sampleEnv 5 1 _ sampleStore "Carol" "C@x.com" "Carol Co" rfl rfl rfl
    (by decide) (by decide) (by decide) (by decide)
    ⟨sampleActive, by simp [sampleStore], by decide, rfl⟩

/-- C5, as the code has it: a Create request in which name, email or
companyName is missing, empty or otherwise falsy (null, false, 0), or whose
email is a string that is not a well-formed address, is answered with status
400 and leaves the whole store as it was.  When the three fields are truthy
and the email is not a string, no 400 is sent: `validator.isEmail` throws a
TypeError, which is handed to `next`; the store is as it was. -/
theorem createClient_invalid (env : Env) (now : Date) (userId : ObjectId)
    (body : CreateClientBody) (s : Store) :
    ((body.name.truthy = false ∨ body.email.truthy = false ∨
        body.companyName.truthy = false ∨
        ∃ email, body.email = JsValue.string email ∧ env.isEmail email = false) →
      ∃ message, createClient env now userId body s =
        (s, Reply.json 400 false message Payload.none)) ∧
    (body.name.truthy = true → body.email.truthy = true → body.companyName.truthy = true →
      (∀ email, body.email ≠ JsValue.string email) →
      createClient env now userId body s = (s, Reply.next HandlerError.typeError)) := by
  constructor
  · intro h
    by_cases hreq :
        (!body.name.truthy || !body.email.truthy || !body.companyName.truthy) = true
    · exact ⟨"Name, email, and company name are required", by
        simp only [createClient, hreq, if_true]⟩
    · have hreq2 :
          (!body.name.truthy || !body.email.truthy || !body.companyName.truthy) = false := by
        simpa using hreq
      rcases h with h | h | h | ⟨email, h1, h2⟩
      · simp [h] at hreq
      · simp [h] at hreq
      · simp [h] at hreq
      · refine ⟨"Invalid email address", ?_⟩
        simp only [createClient, hreq2, Bool.false_eq_true, if_false]
        rw [h1]
        simp [h2]
  · intro hn he hc hns
    have hreq2 :
        (!body.name.truthy || !body.email.truthy || !body.companyName.truthy) = false := by
      simp [hn, he, hc]
    simp only [createClient, hreq2, Bool.false_eq_true, if_false]

theorem createClient_invalid_witness :
    (∃ message, createClient sampleEnv 5 1
        { name := some "Dan", email := some "dan.x.com", companyName := some "Dan Co" }
        sampleStore =
      (sampleStore, Reply.json 400 false message Payload.none)) ∧
    (∃ message, createClient sampleEnv 5 1
        { name := JsValue.number 0, email := some "dan@x.com", companyName := some "Dan Co" }
        sampleStore =
      (sampleStore, Reply.json 400 false message Payload.none)) :=
  ⟨(createClient_invalid sampleEnv 5 1
      { name := some "Dan", email := some "dan.x.com", companyName := some "Dan Co" }
      sampleStore).1 (Or.inr (Or.inr (Or.inr ⟨"dan.x.com", rfl, by decide⟩))),
   (createClient_invalid sampleEnv 5 1
      { name := JsValue.number 0, email := some "dan@x.com", companyName := some "Dan Co" }
      sampleStore).1 (Or.inl (by decide))⟩

/-- C5, counterexample: the Create request with `email: 123`, a truthy value
that is no well-formed address, is not answered 400: `validator.isEmail`
throws a TypeError on the number, the `catch` hands it to `next`, and the
handler sends no reply of its own. -/
theorem createClient_number_email :
    createClient sampleEnv 5 1
        { name := some "Dan", email := JsValue.number 123, companyName := some "Dan Co" }
        sampleStore =
      (sampleStore, Reply.next HandlerError.typeError) ∧
    (createClient sampleEnv 5 1
        { name := some "Dan", email := JsValue.number 123, companyName := some "Dan Co" }
        sampleStore).2.status? = none := by
  decide

theorem Client.findOneByEmail_eq_none (env : Env) (email : String) (userId : ObjectId)
    (s : Store)
    (h : ∀ c ∈ s.clients, c.addedBy = userId → c.email ≠ env.toLowerCase email) :
    Client.findOneByEmail env email userId s = none := by
  unfold Client.findOneByEmail
  rw [List.find?_eq_none]
  intro c hc
  have := h c hc
  by_cases ha : c.addedBy = userId
  · simp [ha, this ha]
  · simp [ha]

theorem Client.validate_new (env : Env) (now : Date) (id : ObjectId)
    (name email companyName : String) (addedBy : ObjectId) (status : String)
    (hn : name ≠ "") (hc : companyName ≠ "")
    (hstored : env.toLowerCase email ≠ "" ∧ env.isEmail (env.toLowerCase email) = true)
    (hstatus : status ∈ clientStatusEnum) :
    (Client.new env now id name email companyName addedBy status).validate env = true := by
  simp [Client.validate, Client.new, hn, hc, hstored.1, hstored.2, hstatus]

/-- C3: a valid, non-duplicate Create request whose address is that of a
registered User `u2` is answered 201 with the new Client, whose status is
pending; the Client is added to the collection, its id is appended to the
clients list of the requester, and exactly one Notification is stored: it is
addressed to `u2`, has type client_add_request and carries the id of the new
Client in `data.clientId`.  Valid means: the three fields are non-empty, the
address passes `isEmail`, and so does its stored (lowercased) form, which the
schema validates on save. -/
theorem createClient_registered (env : Env) (now : Date) (userId : ObjectId) (s : Store)
    (name email companyName : String) (addedByName : Option String) (u2 : User)
    (hn : name ≠ "") (he : email ≠ "") (hc : companyName ≠ "")
    (hvalid : env.isEmail email = true)
    (hstored : env.toLowerCase email ≠ "" ∧ env.isEmail (env.toLowerCase email) = true)
    (hnodup : ∀ c ∈ s.clients, c.addedBy = userId → c.email ≠ env.toLowerCase email)
    (huser : User.findOneByEmail email s = some u2) :
    ∃ (client : Client) (notification : Notification),
      createClient env now userId
          { name := some name, email := some email, companyName := some companyName,
            addedByName := addedByName } s =
        ({ users := s.users.map (fun u =>
              if u._id = userId then { u with clients := u.clients ++ [client._id] } else u)
           clients := s.clients ++ [client]
           notifications := s.notifications ++ [notification]
           nextId := s.nextId + 2 },
          Reply.json 201 true "Client request sent successfully" (Payload.client client)) ∧
      client.status = "pending" ∧ client.addedBy = userId ∧
      client.email = env.toLowerCase email ∧
      notification.user = u2._id ∧ notification.type = "client_add_request" ∧
      notification.data.clientId = some client._id := by
  have hfind := Client.findOneByEmail_eq_none env email userId s hnodup
  have hval := Client.validate_new env now s.nextId name email companyName userId "pending"
    hn hc hstored (by simp [clientStatusEnum])
  refine ⟨{ Client.new env now s.nextId name email companyName userId "pending" with
            updatedAt := now },
          clientAddRequestNotification now (s.nextId + 1) u2
            { Client.new env now s.nextId name email companyName userId "pending" with
              updatedAt := now } userId
            { name := some name, email := some email, companyName := some companyName,
              addedByName := addedByName }, ?_, rfl, rfl, rfl, rfl, rfl, rfl⟩
  have hkey : Client.keyTaken true
      (Client.new env now s.nextId name email companyName userId "pending")
      { s with nextId := s.nextId + 1 } = false :=
    Client.keyTaken_new (fun d hd h => hnodup d hd h.1 h.2)
  simp [createClient, JsValue.ofOption, JsValue.truthy_string hn, JsValue.truthy_string he,
    JsValue.truthy_string hc, JsValue.castString, hvalid, hfind, huser, Client.save, hval,
    hkey, Notification.save, User.pushClient]

theorem createClient_registered_witness :
    ∃ (client : Client) (notification : Notification),
      createClient sampleEnv 5 1
          { name := some "Two", email := some "u2@x.com", companyName := some "Two" }
          { sampleStore with clients := [sampleActive] } =
        ({ users := ({ sampleStore with clients := [sampleActive] }).users.map (fun (u : User) =>
              if u._id = 1 then { u with clients := u.clients ++ [client._id] } else u)
           clients := [sampleActive] ++ [client]
           notifications := [] ++ [notification]
           nextId := 20 + 2 },
          Reply.json 201 true "Client request sent successfully" (Payload.client client)) ∧
      client.status = "pending" ∧ client.addedBy = 1 ∧
      client.email = sampleEnv.toLowerCase "u2@x.com" ∧
      notification.user = sampleCounterpart._id ∧ notification.type = "client_add_request" ∧
      notification.data.clientId = some client._id :=
  createClient_registered sampleEnv 5 1 { sampleStore with clients := [sampleActive] }
    "Two" "u2@x.com" "Two" none sampleCounterpart (by decide) (by decide) (by decide)
    (by decide) (by decide) (by decide) (by decide)

/-- C4: a valid, non-duplicate Create request whose address belongs to no
registered User is answered 201 with the new Client, whose status is active,
and the stored Notifications are the same as before. -/
theorem createClient_unregistered (env : Env) (now : Date) (userId : ObjectId) (s : Store)
    (name email companyName : String) (addedByName : Option String)
    (hn : name ≠ "") (he : email ≠ "") (hc : companyName ≠ "")
    (hvalid : env.isEmail email = true)
    (hstored : env.toLowerCase email ≠ "" ∧ env.isEmail (env.toLowerCase email) = true)
    (hnodup : ∀ c ∈ s.clients, c.addedBy = userId → c.email ≠ env.toLowerCase email)
    (hnouser : ∀ u ∈ s.users, u.email ≠ email) :
    ∃ client : Client,
      createClient env now userId
          { name := some name, email := some email, companyName := some companyName,
            addedByName := addedByName } s =
        ({ users := s.users.map (fun u =>
              if u._id = userId then { u with clients := u.clients ++ [client._id] } else u)
           clients := s.clients ++ [client]
           notifications := s.notifications
           nextId := s.nextId + 1 },
          Reply.json 201 true "Client added successfully" (Payload.client client)) ∧
      client.status = "active" ∧ client.addedBy = userId ∧
      client.email = env.toLowerCase email := by
  have hfind := Client.findOneByEmail_eq_none env email userId s hnodup
  have huser : User.findOneByEmail email s = none := by
    unfold User.findOneByEmail
    rw [List.find?_eq_none]
    intro u hu
    simp [hnouser u hu]
  have hval := Client.validate_new env now s.nextId name email companyName userId "active"
    hn hc hstored (by simp [clientStatusEnum])
  refine ⟨{ Client.new env now s.nextId name email companyName userId "active" with
            updatedAt := now }, ?_, rfl, rfl, rfl⟩
  have hkey : Client.keyTaken true
      (Client.new env now s.nextId name email companyName userId "active")
      { s with nextId := s.nextId + 1 } = false :=
    Client.keyTaken_new (fun d hd h => hnodup d hd h.1 h.2)
  simp [createClient, JsValue.ofOption, JsValue.truthy_string hn, JsValue.truthy_string he,
    JsValue.truthy_string hc, JsValue.castString, hvalid, hfind, huser, Client.save, hval,
    hkey, User.pushClient]

theorem createClient_unregistered_witness :
    ∃ client : Client,
      createClient sampleEnv 5 1
          { name := some "Dan", email := some "Dan@x.com", companyName := some "Dan Co" }
          sampleStore =
        ({ users := sampleStore.users.map (fun (u : User) =>
              if u._id = 1 then { u with clients := u.clients ++ [client._id] } else u)
           clients := sampleStore.clients ++ [client]
           notifications := sampleStore.notifications
           nextId := sampleStore.nextId + 1 },
          Reply.json 201 true "Client added successfully" (Payload.client client)) ∧
      client.status = "active" ∧ client.addedBy = 1 ∧
      client.email = sampleEnv.toLowerCase "Dan@x.com" :=
  createClient_unregistered sampleEnv 5 1 sampleStore "Dan" "Dan@x.com" "Dan Co" none
    (by decide) (by decide) (by decide) (by decide) (by decide) (by decide) (by decide)

/-! ## Properties of Respond -/

theorem Client.findById_id {clientId : ObjectId} {s : Store} {c : Client}
    (h : Client.findById clientId s = some c) : c._id = clientId := by
  have := List.find?_some h
  simpa using this

theorem find_map_replace (id : ObjectId) (c c1 : Client) (h1 : c1._id = id) :
    ∀ cs : List Client, cs.find? (fun d => d._id == id) = some c →
      (cs.map (fun d => if d._id = id then c1 else d)).find? (fun d => d._id == id) = some c1
  | [], h => by simp at h
  | d :: cs, h => by
    by_cases hd : d._id = id
    · simp [hd, h1]
    · have hd2 : (d._id == id) = false := by simp [hd]
      rw [List.find?_cons, hd2] at h
      simp only [List.map_cons, hd, if_false, List.find?_cons, hd2]
      exact find_map_replace id c c1 h1 cs h

theorem Client.validate_status (env : Env) (c : Client) (status : String)
    (hv : c.validate env = true) (hs : status ∈ clientStatusEnum) :
    Client.validate env { c with status := status } = true := by
  simp only [Client.validate, Bool.and_eq_true] at hv ⊢
  obtain ⟨⟨⟨⟨⟨h1, h2⟩, h3⟩, h4⟩, _⟩, h6⟩ := hv
  refine ⟨⟨⟨⟨⟨h1, h2⟩, h3⟩, h4⟩, ?_⟩, h6⟩
  simpa using hs

/-- C6: when the address of the responding User differs from the address of
the Client, Respond is answered 403 whatever `accept` is, and the whole store
(the status of the Client, every clients list, the Notifications) is as it
was. -/
theorem respondToClient_forbidden (env : Env) (now : Date) (userId clientId : ObjectId)
    (accept : Bool) (s : Store) (c : Client) (u : User)
    (hclient : Client.findById clientId s = some c)
    (huser : User.findById userId s = some u)
    (hne : u.email ≠ c.email) :
    respondToClient env now userId clientId accept s =
      (s, Reply.json 403 false "You are not authorized to respond to this request"
        Payload.none) := by
  simp [respondToClient, IdParam.cast, hclient, huser, hne]

theorem respondToClient_forbidden_witness :
    respondToClient sampleEnv 5 1 10 true sampleStore =
      (sampleStore, Reply.json 403 false "You are not authorized to respond to this request"
        Payload.none) :=
  respondToClient_forbidden sampleEnv 5 1 10 true sampleStore samplePending
    { sampleOwner with clients := [10, 11] } (by decide) (by decide) (by decide)

/-- C7: for a stored Client that satisfies the schema (pending, or in any
other status) and a responder whose address is the address of the Client,
Respond with accept=true is answered 200, the stored Client has status active
afterwards, the users (hence the clients list of the owner) are as before,
and exactly one Notification is stored: it has type client_add_response and
is addressed to the owner `addedBy`. -/
theorem respondToClient_accept (env : Env) (now : Date) (userId clientId : ObjectId)
    (s : Store) (c : Client) (u : User)
    (hclient : Client.findById clientId s = some c)
    (hschema : c.validate env = true)
    (huser : User.findById userId s = some u)
    (hemail : u.email = c.email) :
    ∃ notification : Notification,
      respondToClient env now userId clientId true s =
        ({ users := s.users
           clients := s.clients.map (fun d =>
              if d._id = clientId then { c with status := "active", updatedAt := now } else d)
           notifications := s.notifications ++ [notification]
           nextId := s.nextId + 1 },
          Reply.json 200 true "Client request accepted successfully"
            (Payload.client { c with status := "active", updatedAt := now })) ∧
      Client.findById clientId (respondToClient env now userId clientId true s).1 =
        some { c with status := "active", updatedAt := now } ∧
      notification.type = "client_add_response" ∧ notification.user = c.addedBy := by
  have hval := Client.validate_status env c "active" hschema (by simp [clientStatusEnum])
  have hkey : Client.keyTaken false { c with status := "active" } s = false :=
    Client.keyTaken_stored (List.mem_of_find?_eq_some hclient) rfl rfl rfl
  have hid := Client.findById_id hclient
  subst hid
  have hrun : respondToClient env now userId c._id true s =
      ({ users := s.users
         clients := s.clients.map (fun d =>
            if d._id = c._id then { c with status := "active", updatedAt := now } else d)
         notifications := s.notifications ++ [clientAddResponseNotification now s.nextId
            { c with status := "active", updatedAt := now } true]
         nextId := s.nextId + 1 },
        Reply.json 200 true "Client request accepted successfully"
          (Payload.client { c with status := "active", updatedAt := now })) := by
    simp [respondToClient, IdParam.cast, hclient, huser, hemail, Client.save, hval, hkey,
      Notification.save]
  refine ⟨_, hrun, ?_, rfl, rfl⟩
  rw [hrun]
  exact find_map_replace c._id c { c with status := "active", updatedAt := now } rfl
    s.clients hclient

theorem respondToClient_accept_witness :
    ∃ notification : Notification,
      respondToClient sampleEnv 5 2 10 true sampleStore =
        ({ users := sampleStore.users
           clients := sampleStore.clients.map (fun d =>
              if d._id = 10 then { samplePending with status := "active", updatedAt := 5 }
              else d)
           notifications := sampleStore.notifications ++ [notification]
           nextId := sampleStore.nextId + 1 },
          Reply.json 200 true "Client request accepted successfully"
            (Payload.client { samplePending with status := "active", updatedAt := 5 })) ∧
      Client.findById 10 (respondToClient sampleEnv 5 2 10 true sampleStore).1 =
        some { samplePending with status := "active", updatedAt := 5 } ∧
      notification.type = "client_add_response" ∧ notification.user = samplePending.addedBy :=
  respondToClient_accept sampleEnv 5 2 10 sampleStore samplePending sampleCounterpart
    (by decide) (by decide) (by decide) (by decide)

/-- C8: for a stored Client that satisfies the schema (pending, or in any
other status) and a responder whose address is the address of the Client,
Respond with accept=false is answered 200, the stored Client has status
rejected afterwards, every occurrence of its id is removed from the clients
list of its owner while the other entries keep their order, and exactly one
Notification is stored: it has type client_add_response and is addressed to
the owner `addedBy`. -/
theorem respondToClient_reject (env : Env) (now : Date) (userId clientId : ObjectId)
    (s : Store) (c : Client) (u : User)
    (hclient : Client.findById clientId s = some c)
    (hschema : c.validate env = true)
    (huser : User.findById userId s = some u)
    (hemail : u.email = c.email) :
    ∃ notification : Notification,
      respondToClient env now userId clientId false s =
        ({ users := s.users.map (fun w =>
              if w._id = c.addedBy then
                { w with clients := w.clients.filter (fun i => i != clientId) }
              else w)
           clients := s.clients.map (fun d =>
              if d._id = clientId then { c with status := "rejected", updatedAt := now } else d)
           notifications := s.notifications ++ [notification]
           nextId := s.nextId + 1 },
          Reply.json 200 true "Client request rejected"
            (Payload.client { c with status := "rejected", updatedAt := now })) ∧
      Client.findById clientId (respondToClient env now userId clientId false s).1 =
        some { c with status := "rejected", updatedAt := now } ∧
      notification.type = "client_add_response" ∧ notification.user = c.addedBy := by
  have hval := Client.validate_status env c "rejected" hschema (by simp [clientStatusEnum])
  have hkey : Client.keyTaken false { c with status := "rejected" } s = false :=
    Client.keyTaken_stored (List.mem_of_find?_eq_some hclient) rfl rfl rfl
  have hid := Client.findById_id hclient
  subst hid
  have hrun : respondToClient env now userId c._id false s =
      ({ users := s.users.map (fun w =>
            if w._id = c.addedBy then
              { w with clients := w.clients.filter (fun i => i != c._id) }
            else w)
         clients := s.clients.map (fun d =>
            if d._id = c._id then { c with status := "rejected", updatedAt := now } else d)
         notifications := s.notifications ++ [clientAddResponseNotification now s.nextId
            { c with status := "rejected", updatedAt := now } false]
         nextId := s.nextId + 1 },
        Reply.json 200 true "Client request rejected"
          (Payload.client { c with status := "rejected", updatedAt := now })) := by
    simp [respondToClient, IdParam.cast, hclient, huser, hemail, Client.save, hval, hkey,
      Notification.save, User.pullClient]
  refine ⟨_, hrun, ?_, rfl, rfl⟩
  rw [hrun]
  exact find_map_replace c._id c { c with status := "rejected", updatedAt := now } rfl
    s.clients hclient

theorem respondToClient_reject_witness :
    ∃ notification : Notification,
      respondToClient sampleEnv 5 2 10 false sampleStore =
        ({ users := sampleStore.users.map (fun (w : User) =>
              if w._id = samplePending.addedBy then
                { w with clients := w.clients.filter (fun i => i != 10) }
              else w)
           clients := sampleStore.clients.map (fun d =>
              if d._id = 10 then { samplePending with status := "rejected", updatedAt := 5 }
              else d)
           notifications := sampleStore.notifications ++ [notification]
           nextId := sampleStore.nextId + 1 },
          Reply.json 200 true "Client request rejected"
            (Payload.client { samplePending with status := "rejected", updatedAt := 5 })) ∧
      Client.findById 10 (respondToClient sampleEnv 5 2 10 false sampleStore).1 =
        some { samplePending with status := "rejected", updatedAt := 5 } ∧
      notification.type = "client_add_response" ∧ notification.user = samplePending.addedBy :=
  respondToClient_reject sampleEnv 5 2 10 sampleStore samplePending sampleCounterpart
    (by decide) (by decide) (by decide) (by decide)

/-! ## Properties of CreateSchedule -/

/-- C10: for a Client owned by the requester whose status is not active
(pending, rejected or inactive), CreateSchedule is answered 400 "Cannot
schedule payments for inactive clients" whatever the rest of the body is, and
the whole store is as it was: the schedules of the Client are unchanged and no
Notification is stored. -/
theorem createSchedule_not_active (env : Env) (now : Date) (userId clientId : ObjectId)
    (body : CreateScheduleBody) (s : Store) (c : Client)
    (hid : body.clientId = some (IdParam.objectId clientId))
    (hclient : Client.findOwned clientId userId s = some c)
    (hstatus : c.status ≠ "active") :
    createSchedule env now userId body s =
      (s, Reply.json 400 false "Cannot schedule payments for inactive clients"
        Payload.none) := by
  simp [createSchedule, hid, IdParam.castOpt, IdParam.cast, Except.map, hclient, hstatus]

theorem createSchedule_not_active_witness :
    createSchedule sampleEnv 5 1
        { clientId := some 10, description := some "Invoice 1", amount := some 100,
          dueDate := some 9 } sampleStore =
      (sampleStore, Reply.json 400 false "Cannot schedule payments for inactive clients"
        Payload.none) :=
  createSchedule_not_active sampleEnv 5 1 10 _ sampleStore samplePending rfl (by decide)
    (by decide)

/-! ## Which requests change the status of a Client -/

theorem statuses_map_replace (cs : List Client) (found c1 : Client)
    (hkey : (cs.map (fun c => c._id)).Nodup) (hmem : found ∈ cs)
    (hid : c1._id = found._id) (hst : c1.status = found.status) :
    (cs.map (fun d => if d._id = c1._id then c1 else d)).map (fun c => (c._id, c.status)) =
      cs.map (fun c => (c._id, c.status)) := by
  rw [List.map_map]
  apply List.map_congr_left
  intro d hd
  by_cases h : d._id = c1._id
  · have hdf : d = found :=
      List.inj_on_of_nodup_map hkey hd hmem (h.trans hid)
    simp [h, hst, hdf, hid]
  · simp [h]

/-- What an accepted save has done: the document passed the validators, the
unique index accepted the write, and the stored document is the saved one
with `updatedAt` stamped. -/
theorem Client.save_ok {env : Env} {now : Date} {isNew : Bool} {c c1 : Client}
    {s s1 : Store} (hsave : Client.save env now isNew c s = Except.ok (c1, s1)) :
    c.validate env = true ∧ Client.keyTaken isNew c s = false ∧
    c1 = { c with updatedAt := now } ∧
    s1 = { s with
      clients :=
        if isNew then s.clients ++ [{ c with updatedAt := now }]
        else s.clients.map (fun d => if d._id = c._id then { c with updatedAt := now } else d) } := by
  unfold Client.save at hsave
  by_cases hv : c.validate env = true
  · by_cases hk : Client.keyTaken isNew c s = true
    · simp [hv, hk] at hsave
    · have hk2 : Client.keyTaken isNew c s = false := by simpa using hk
      simp only [hv, hk2, if_true, Bool.false_eq_true, if_false, Except.ok.injEq,
        Prod.mk.injEq] at hsave
      exact ⟨hv, hk2, hsave.1.symm, hsave.2.symm⟩
  · simp [hv] at hsave

theorem Client.save_clientStatuses {env : Env} {now : Date} {c c1 : Client}
    {s s1 : Store} (hsave : Client.save env now false c s = Except.ok (c1, s1))
    (found : Client) (hkey : s.clientIdsUnique) (hmem : found ∈ s.clients)
    (hid : c._id = found._id) (hst : c.status = found.status) :
    s1.clientStatuses = s.clientStatuses := by
  obtain ⟨-, -, -, rfl⟩ := Client.save_ok hsave
  simp only [Bool.false_eq_true, if_false]
  exact statuses_map_replace s.clients found { c with updatedAt := now } hkey hmem hid hst

theorem Client.findOwned_mem {clientId userId : ObjectId} {s : Store} {c : Client}
    (h : Client.findOwned clientId userId s = some c) : c ∈ s.clients :=
  List.mem_of_find?_eq_some h

theorem schedulePaymentNotification_clients (now : Date) (client : Client)
    (p : PaymentSchedule) (s : Store) :
    (schedulePaymentNotification now client p s).clients = s.clients := by
  unfold schedulePaymentNotification
  split
  · split <;> rfl
  · rfl

theorem createSchedule_clientStatuses (env : Env) (now : Date) (userId : ObjectId)
    (body : CreateScheduleBody) (s : Store) (hkey : s.clientIdsUnique) :
    (createSchedule env now userId body s).1.clientStatuses = s.clientStatuses := by
  unfold createSchedule
  split
  · rfl
  · rename_i clientId _
    split
    · rfl
    · rename_i found hfound
      have hmem : found ∈ s.clients := by
        cases clientId with
        | none => simp at hfound
        | some id => exact Client.findOwned_mem hfound
      split
      · rfl
      · split
        · rfl
        · dsimp only
          split
          · rfl
          · rename_i client s1 hsave
            have := Client.save_clientStatuses hsave found hkey hmem rfl rfl
            simp only [Store.clientStatuses, schedulePaymentNotification_clients] at this ⊢
            exact this

theorem updateSchedule_clientStatuses (env : Env) (now : Date) (userId : ObjectId)
    (clientId : IdParam) (scheduleIndex : IndexParam) (body : UpdateScheduleBody) (s : Store)
    (hkey : s.clientIdsUnique) :
    (updateSchedule env now userId clientId scheduleIndex body s).1.clientStatuses =
      s.clientStatuses := by
  unfold updateSchedule
  split
  · rfl
  · split
    · rfl
    · rename_i found hfound
      have hmem := Client.findOwned_mem hfound
      split
      · rfl
      · split
        · rfl
        · split
          · rfl
          · split
            · rfl
            · rename_i client s1 hsave
              exact Client.save_clientStatuses hsave found hkey hmem rfl rfl

theorem markPaid_clientStatuses (env : Env) (now : Date) (userId : ObjectId)
    (clientId : IdParam) (scheduleIndex : IndexParam) (s : Store) (hkey : s.clientIdsUnique) :
    (markPaid env now userId clientId scheduleIndex s).1.clientStatuses = s.clientStatuses := by
  unfold markPaid
  split
  · rfl
  · split
    · rfl
    · rename_i found hfound
      have hmem := Client.findOwned_mem hfound
      split
      · rfl
      · split
        · rfl
        · split
          · rfl
          · rename_i client s1 hsave
            exact Client.save_clientStatuses hsave found hkey hmem rfl rfl

theorem updateClient_clientStatuses (env : Env) (now : Date) (userId : ObjectId)
    (clientId : IdParam) (body : UpdateClientBody) (s : Store) (hkey : s.clientIdsUnique)
    (hbody : body.status = none) :
    (updateClient env now userId clientId body s).1.clientStatuses = s.clientStatuses := by
  unfold updateClient
  split
  · rfl
  · split
    · rfl
    · rename_i found hfound
      have hmem := Client.findOwned_mem hfound
      split
      · rfl
      · split
        · rfl
        · rename_i client s1 hsave
          exact Client.save_clientStatuses hsave found hkey hmem rfl
            (by simp [Client.assign, hbody])

/-- C9, as the code has it: in a store whose Clients have distinct ids,
CreateSchedule, UpdateSchedule and MarkPaid leave the status of every Client
as it was, whatever their arguments, and so does Update (PUT) whenever its
body has no `status` key. -/
theorem owner_requests_keep_status (env : Env) (now : Date) (userId : ObjectId) (s : Store)
    (hkey : s.clientIdsUnique) :
    (∀ body, (createSchedule env now userId body s).1.clientStatuses = s.clientStatuses) ∧
    (∀ clientId scheduleIndex body,
      (updateSchedule env now userId clientId scheduleIndex body s).1.clientStatuses =
        s.clientStatuses) ∧
    (∀ clientId scheduleIndex,
      (markPaid env now userId clientId scheduleIndex s).1.clientStatuses =
        s.clientStatuses) ∧
    (∀ clientId body, body.status = none →
      (updateClient env now userId clientId body s).1.clientStatuses = s.clientStatuses) :=
  ⟨fun body => createSchedule_clientStatuses env now userId body s hkey,
   fun clientId scheduleIndex body =>
     updateSchedule_clientStatuses env now userId clientId scheduleIndex body s hkey,
   fun clientId scheduleIndex =>
     markPaid_clientStatuses env now userId clientId scheduleIndex s hkey,
   fun clientId body hbody =>
     updateClient_clientStatuses env now userId clientId body s hkey hbody⟩

theorem owner_requests_keep_status_witness :
    (updateClient sampleEnv 5 1 10 { name := some "Renamed" } sampleStore).1.clientStatuses =
      sampleStore.clientStatuses :=
  (owner_requests_keep_status sampleEnv 5 1 sampleStore (by decide)).2.2.2 10
    { name := some "Renamed" } rfl

/-- C9, counterexample: user 1 owns the pending Client 10, whose address is
that of the registered user 2.  The PUT request of user 1 with body
`status: "active"` is answered 200 and the stored Client is active
afterwards, without any Respond of user 2. -/
theorem updateClient_activates_pending :
    Client.findOwned 10 1 sampleStore = some samplePending ∧
    User.findOneByEmail samplePending.email sampleStore = some sampleCounterpart ∧
    samplePending.status = "pending" ∧
    updateClient sampleEnv 5 1 10 { status := some "active" } sampleStore =
      ({ sampleStore with
          clients := [{ samplePending with status := "active", updatedAt := 5 }, sampleActive] },
        Reply.json 200 true "Client updated successfully"
          (Payload.client { samplePending with status := "active", updatedAt := 5 })) := by
  decide

/-! ## The uniqueness invariant on (owner, address) -/

theorem uniqueClients_append (cs : List Client) (c1 : Client)
    (h : (cs.map (fun c => (c.addedBy, c.email))).Nodup)
    (hnew : ∀ c ∈ cs, ¬(c.addedBy = c1.addedBy ∧ c.email = c1.email)) :
    ((cs ++ [c1]).map (fun c => (c.addedBy, c.email))).Nodup := by
  rw [List.map_append, List.nodup_append]
  refine ⟨h, by simp, ?_⟩
  intro k hk hk1
  simp only [List.map_cons, List.map_nil, List.mem_singleton] at hk1
  obtain ⟨c, hc, rfl⟩ := List.mem_map.mp hk
  simp only [Prod.mk.injEq] at hk1
  exact hnew c hc hk1

/-- An insert that the database accepts keeps the uniqueness invariant: the
unique index has found no stored Client with the pair of the new one. -/
theorem Client.save_insert_uniqueClients {env : Env} {now : Date} {c c1 : Client}
    {s s1 : Store} (hsave : Client.save env now true c s = Except.ok (c1, s1))
    (h : s.uniqueClients) : s1.uniqueClients := by
  obtain ⟨-, hkt, rfl, rfl⟩ := Client.save_ok hsave
  simp only [Client.keyTaken, if_true] at hkt
  rw [List.any_eq_false] at hkt
  simp only [Store.uniqueClients, if_true]
  apply uniqueClients_append _ _ h
  intro d hd hpair
  exact hkt d hd (by simp [hpair.1, hpair.2])

/-- Create keeps the uniqueness invariant, whatever the request. -/
theorem createClient_uniqueClients (env : Env) (now : Date) (userId : ObjectId)
    (body : CreateClientBody) (s : Store) (h : s.uniqueClients) :
    (createClient env now userId body s).1.uniqueClients := by
  unfold createClient
  repeat' (first | split | dsimp only)
  all_goals first
    | exact h
    | (rename_i client s1 hsave
       have hs1 := Client.save_insert_uniqueClients hsave h
       simpa only [Store.uniqueClients, Notification.save] using hs1)

theorem pairs_map_replace (cs : List Client) (found c1 : Client)
    (hkey : (cs.map (fun c => c._id)).Nodup) (hmem : found ∈ cs)
    (hid : c1._id = found._id) (ha : c1.addedBy = found.addedBy)
    (he : c1.email = found.email) :
    (cs.map (fun d => if d._id = c1._id then c1 else d)).map (fun c => (c.addedBy, c.email)) =
      cs.map (fun c => (c.addedBy, c.email)) := by
  rw [List.map_map]
  apply List.map_congr_left
  intro d hd
  by_cases h : d._id = c1._id
  · have hdf : d = found :=
      List.inj_on_of_nodup_map hkey hd hmem (h.trans hid)
    simp [h, ha, he, hdf, hid]
  · simp [h]

/-- Replacing the Client with the id of `c1` by `c1` keeps the pairs of owner
and address distinct when no Client with another id has the pair of `c1`. -/
theorem nodup_keys_replace (cs : List Client) (c1 : Client)
    (hkey : (cs.map (fun c => c._id)).Nodup)
    (hpairs : (cs.map (fun c => (c.addedBy, c.email))).Nodup)
    (hfree : ∀ d ∈ cs, d._id ≠ c1._id → ¬(d.addedBy = c1.addedBy ∧ d.email = c1.email)) :
    ((cs.map (fun d => if d._id = c1._id then c1 else d)).map
      (fun c => (c.addedBy, c.email))).Nodup := by
  rw [List.map_map]
  apply List.Nodup.map_on _ (List.Nodup.of_map _ hkey)
  intro x hx y hy hxy
  simp only [Function.comp] at hxy
  by_cases h1 : x._id = c1._id
  · by_cases h2 : y._id = c1._id
    · exact List.inj_on_of_nodup_map hkey hx hy (h1.trans h2.symm)
    · simp only [h1, h2, if_true, if_false, Prod.mk.injEq] at hxy
      exact absurd ⟨hxy.1.symm, hxy.2.symm⟩ (hfree y hy h2)
  · by_cases h2 : y._id = c1._id
    · simp only [h1, h2, if_true, if_false, Prod.mk.injEq] at hxy
      exact absurd hxy (hfree x hx h1)
    · simp only [h1, h2, if_false] at hxy
      exact List.inj_on_of_nodup_map hpairs hx hy hxy

/-- An update of a stored Client that the database accepts keeps the
uniqueness invariant in a store whose Clients have distinct ids: either the
pair of owner and address is the stored one, or the unique index has found
no other Client with the new pair. -/
theorem Client.save_uniqueClients {env : Env} {now : Date} {c c1 : Client}
    {s s1 : Store} (hsave : Client.save env now false c s = Except.ok (c1, s1))
    (found : Client) (hkey : s.clientIdsUnique) (hmem : found ∈ s.clients)
    (hid : c._id = found._id) (h : s.uniqueClients) : s1.uniqueClients := by
  obtain ⟨-, hkt, -, rfl⟩ := Client.save_ok hsave
  simp only [Store.uniqueClients, Bool.false_eq_true, if_false]
  simp only [Client.keyTaken, Bool.false_eq_true, if_false, Bool.and_eq_false_iff,
    Bool.not_eq_false'] at hkt
  rcases hkt with hsame | hfree
  · rw [List.any_eq_true] at hsame
    obtain ⟨d, hd, hdp⟩ := hsame
    simp only [Bool.and_eq_true, beq_iff_eq] at hdp
    have hdf : d = found := List.inj_on_of_nodup_map hkey hd hmem (hdp.1.trans hid)
    subst hdf
    rw [pairs_map_replace s.clients d { c with updatedAt := now } hkey hmem hid
      hdp.2.2.symm hdp.2.1.symm]
    exact h
  · rw [List.any_eq_false] at hfree
    apply nodup_keys_replace s.clients { c with updatedAt := now } hkey h
    intro d hd hne hpair
    exact hfree d hd (by simp [hne, hpair.1, hpair.2])

/-- Respond keeps the uniqueness invariant in a store whose Clients have
distinct ids: it rewrites the status of one Client only. -/
theorem respondToClient_uniqueClients (env : Env) (now : Date) (userId : ObjectId)
    (clientId : IdParam) (accept : Bool) (s : Store) (hkey : s.clientIdsUnique)
    (h : s.uniqueClients) :
    (respondToClient env now userId clientId accept s).1.uniqueClients := by
  unfold respondToClient
  split
  · exact h
  · split
    · exact h
    · rename_i found hfound
      have hmem : found ∈ s.clients := List.mem_of_find?_eq_some hfound
      split
      · exact h
      · split
        · exact h
        · split
          · split
            · exact h
            · rename_i client s1 hsave
              have hs1 := Client.save_uniqueClients hsave found hkey hmem rfl h
              exact hs1
          · split
            · exact h
            · rename_i client s1 hsave
              have hs1 := Client.save_uniqueClients hsave found hkey hmem rfl h
              exact hs1

/-- Update keeps the uniqueness invariant in a store whose Clients have
distinct ids, whatever the body: a body that moves the Client to the pair of
another Client is refused by the unique index. -/
theorem updateClient_uniqueClients (env : Env) (now : Date) (userId : ObjectId)
    (clientId : IdParam) (body : UpdateClientBody) (s : Store) (hkey : s.clientIdsUnique)
    (h : s.uniqueClients) :
    (updateClient env now userId clientId body s).1.uniqueClients := by
  unfold updateClient
  split
  · exact h
  · split
    · exact h
    · rename_i found hfound
      have hmem := Client.findOwned_mem hfound
      split
      · exact h
      · split
        · exact h
        · rename_i client s1 hsave
          exact Client.save_uniqueClients hsave found hkey hmem rfl h

/-- Delete keeps the uniqueness invariant: it only removes a Client. -/
theorem deleteClient_uniqueClients (userId : ObjectId) (clientId : IdParam) (s : Store)
    (h : s.uniqueClients) : (deleteClient userId clientId s).1.uniqueClients := by
  unfold deleteClient
  split
  · exact h
  · split
    · exact h
    · simp only [Store.uniqueClients]
      exact List.Nodup.sublist (List.Sublist.map _ (List.eraseP_sublist _)) h

/-- The PUT request of user 1 for its Client 11 with body `email: "u2@x.com"`,
the address of its Client 10, is refused by the unique index: `save()` throws
the duplicate-key error, which goes to `next`, and the store is as it was. -/
theorem updateClient_duplicate_refused :
    updateClient sampleEnv 5 1 11 { email := some "u2@x.com" } sampleStore =
      (sampleStore, Reply.next HandlerError.duplicateKey) := by
  decide

/-- C1: in a store whose Clients have distinct ids and in which no two
Clients share the pair of owner (`addedBy`) and stored address, each of the
client operations Create, Respond, Update and Delete, whatever its arguments
and whether it succeeds or fails, leaves a store in which no two Clients
share that pair. -/
theorem client_operations_keep_uniqueness (env : Env) (now : Date) (userId : ObjectId)
    (s : Store) (hkey : s.clientIdsUnique) (h : s.uniqueClients) :
    (∀ body, (createClient env now userId body s).1.uniqueClients) ∧
    (∀ clientId accept, (respondToClient env now userId clientId accept s).1.uniqueClients) ∧
    (∀ clientId body, (updateClient env now userId clientId body s).1.uniqueClients) ∧
    (∀ clientId, (deleteClient userId clientId s).1.uniqueClients) :=
  ⟨fun body => createClient_uniqueClients env now userId body s h,
   fun clientId accept => respondToClient_uniqueClients env now userId clientId accept s hkey h,
   fun clientId body => updateClient_uniqueClients env now userId clientId body s hkey h,
   fun clientId => deleteClient_uniqueClients userId clientId s h⟩

theorem client_operations_keep_uniqueness_witness :
    (updateClient sampleEnv 5 1 11 { email := some "u2@x.com" } sampleStore).1.uniqueClients ∧
    (createClient sampleEnv 5 1
      { name := some "Carol", email := some "C@x.com", companyName := some "Carol Co" }
      sampleStore).1.uniqueClients :=
  ⟨(client_operations_keep_uniqueness sampleEnv 5 1 sampleStore (by decide) (by decide)).2.2.1
      11 { email := some "u2@x.com" },
   (client_operations_keep_uniqueness sampleEnv 5 1 sampleStore (by decide) (by decide)).1
      { name := some "Carol", email := some "C@x.com", companyName := some "Carol Co" }⟩

/-! ## Owner scoping -/

theorem Client.findOwned_eq_none {clientId userId : ObjectId} {s : Store}
    (h : ∀ c ∈ s.clients, c._id = clientId → c.addedBy ≠ userId) :
    Client.findOwned clientId userId s = none := by
  unfold Client.findOwned
  rw [List.find?_eq_none]
  intro c hc
  by_cases hid : c._id = clientId
  · simp [hid, h c hc hid]
  · simp [hid]

/-- C11, as the code has it: when the requested id is a well-formed ObjectId
and no stored Client has both that id and the requester as `addedBy` (the
Client belongs to someone else, or does not exist), each of Get, Update and
Delete on clients and CreateSchedule, list schedules, UpdateSchedule,
MarkPaid and create-payment-link is answered 404 "Client not found" with no
payload, the same reply in both cases, and leaves the whole store as it was.
When the requested id is not a well-formed ObjectId, each of the eight
requests ends in the CastError of the query, handed to `next`: no 404 is
sent, no data of any Client is in the reply, and the store is as it was. -/
theorem not_owned_is_not_found (env : Env) (now : Date) (provider : Provider)
    (userId clientId : ObjectId) (s : Store)
    (h : ∀ c ∈ s.clients, c._id = clientId → c.addedBy ≠ userId) :
    (getClient userId clientId s =
        (s, Reply.json 404 false "Client not found" Payload.none) ∧
      (∀ body, updateClient env now userId clientId body s =
        (s, Reply.json 404 false "Client not found" Payload.none)) ∧
      deleteClient userId clientId s =
        (s, Reply.json 404 false "Client not found" Payload.none) ∧
      (∀ body, body.clientId = some (IdParam.objectId clientId) →
        createSchedule env now userId body s =
          (s, Reply.json 404 false "Client not found" Payload.none)) ∧
      (∀ status, listSchedules userId clientId status s =
        (s, Reply.json 404 false "Client not found" Payload.none)) ∧
      (∀ scheduleIndex body, updateSchedule env now userId clientId scheduleIndex body s =
        (s, Reply.json 404 false "Client not found" Payload.none)) ∧
      (∀ scheduleIndex, markPaid env now userId clientId scheduleIndex s =
        (s, Reply.json 404 false "Client not found" Payload.none)) ∧
      (∀ body, body.clientId = some (IdParam.objectId clientId) →
        createPaymentLink env provider userId body s =
          (s, Reply.json 404 false "Client not found" Payload.none))) ∧
    (getClient userId IdParam.malformed s = (s, Reply.next HandlerError.castError) ∧
      (∀ body, updateClient env now userId IdParam.malformed body s =
        (s, Reply.next HandlerError.castError)) ∧
      deleteClient userId IdParam.malformed s = (s, Reply.next HandlerError.castError) ∧
      (∀ body, body.clientId = some IdParam.malformed →
        createSchedule env now userId body s = (s, Reply.next HandlerError.castError)) ∧
      (∀ status, listSchedules userId IdParam.malformed status s =
        (s, Reply.next HandlerError.castError)) ∧
      (∀ scheduleIndex body,
        updateSchedule env now userId IdParam.malformed scheduleIndex body s =
          (s, Reply.next HandlerError.castError)) ∧
      (∀ scheduleIndex, markPaid env now userId IdParam.malformed scheduleIndex s =
        (s, Reply.next HandlerError.castError)) ∧
      (∀ body, body.clientId = some IdParam.malformed →
        createPaymentLink env provider userId body s =
          (s, Reply.next HandlerError.castError))) := by
  have hnone := Client.findOwned_eq_none h
  refine ⟨⟨?_, ?_, ?_, ?_, ?_, ?_, ?_, ?_⟩, ⟨rfl, fun _ => rfl, rfl, ?_, fun _ => rfl,
    fun _ _ => rfl, fun _ => rfl, ?_⟩⟩
  · simp [getClient, IdParam.cast, hnone]
  · intro body
    simp [updateClient, IdParam.cast, hnone]
  · simp [deleteClient, IdParam.cast, hnone]
  · intro body hbody
    simp [createSchedule, hbody, IdParam.castOpt, IdParam.cast, Except.map, hnone]
  · intro status
    simp [listSchedules, IdParam.cast, hnone]
  · intro scheduleIndex body
    simp [updateSchedule, IdParam.cast, hnone]
  · intro scheduleIndex
    simp [markPaid, IdParam.cast, hnone]
  · intro body hbody
    simp [createPaymentLink, hbody, IdParam.castOpt, IdParam.cast, Except.map, hnone]
  · intro body hbody
    simp [createSchedule, hbody, IdParam.castOpt, IdParam.cast, Except.map]
  · intro body hbody
    simp [createPaymentLink, hbody, IdParam.castOpt, IdParam.cast, Except.map]

theorem not_owned_is_not_found_witness :
    getClient 2 10 sampleStore =
      (sampleStore, Reply.json 404 false "Client not found" Payload.none) ∧
    markPaid sampleEnv 5 2 12 (IndexParam.index 0) billingStore =
      (billingStore, Reply.json 404 false "Client not found" Payload.none) :=
  ⟨(not_owned_is_not_found sampleEnv 5 sampleProvider 2 10 sampleStore (by decide)).1.1,
   (not_owned_is_not_found sampleEnv 5 sampleProvider 2 12 billingStore
      (by decide)).1.2.2.2.2.2.2.1 (IndexParam.index 0)⟩

/-- C11, counterexample: no Client is stored under the id string "abc", yet
`GET /clients/abc` by user 2 is not answered 404 "Client not found": the
query throws a CastError, which the `catch` hands to `next`, and the handler
sends no reply of its own.  The id 99, well formed and unknown, gets the
404. -/
theorem getClient_malformed_id :
    getClient 2 IdParam.malformed sampleStore =
      (sampleStore, Reply.next HandlerError.castError) ∧
    (getClient 2 IdParam.malformed sampleStore).2.status? = none ∧
    getClient 2 99 sampleStore =
      (sampleStore, Reply.json 404 false "Client not found" Payload.none) := by
  decide

/-! ## Properties of MarkPaid -/

/-- C18: for a Client owned by the requester with n schedules and an index
i with n ≤ i, MarkPaid is answered 404 "Payment schedule not found" and the
whole store is as it was: no schedule changes its status and no Notification
is stored. -/
theorem markPaid_out_of_range (env : Env) (now : Date) (userId clientId : ObjectId)
    (i : Nat) (s : Store) (c : Client)
    (hclient : Client.findOwned clientId userId s = some c)
    (hi : c.paymentSchedules.length ≤ i) :
    markPaid env now userId clientId (IndexParam.index i) s =
      (s, Reply.json 404 false "Payment schedule not found" Payload.none) := by
  simp [markPaid, IdParam.cast, hclient, IndexParam.geLength, hi]

theorem markPaid_out_of_range_witness :
    markPaid sampleEnv 5 1 12 (IndexParam.index 2) billingStore =
      (billingStore, Reply.json 404 false "Payment schedule not found" Payload.none) :=
  markPaid_out_of_range sampleEnv 5 1 12 2 billingStore sampleBilled (by decide) (by decide)

/-! ## Properties of a successful CreateSchedule -/

theorem schedulePaymentNotification_users (now : Date) (client : Client)
    (p : PaymentSchedule) (s : Store) :
    (schedulePaymentNotification now client p s).users = s.users := by
  unfold schedulePaymentNotification
  split
  · split <;> rfl
  · rfl

theorem findOwned_map_replace (id uid : ObjectId) (c c1 : Client) (h1 : c1._id = id)
    (h2 : c1.addedBy = uid) :
    ∀ cs : List Client, cs.find? (fun d => d._id == id && d.addedBy == uid) = some c →
      (cs.map (fun d => if d._id = id then c1 else d)).find?
        (fun d => d._id == id && d.addedBy == uid) = some c1
  | [], h => by simp at h
  | d :: cs, h => by
    by_cases hd : d._id = id
    · simp [hd, h1, h2]
    · have hd2 : (d._id == id && d.addedBy == uid) = false := by simp [hd]
      rw [List.find?_cons, hd2] at h
      simp only [List.map_cons, hd, if_false, List.find?_cons, hd2]
      exact findOwned_map_replace id uid c c1 h1 h2 cs h

theorem Client.findOwned_id {clientId userId : ObjectId} {s : Store} {c : Client}
    (h : Client.findOwned clientId userId s = some c) :
    c._id = clientId ∧ c.addedBy = userId := by
  have := List.find?_some h
  simpa using this

/-- What a CreateSchedule that is answered 201 has done: the Client is
active, the due date is a valid date, and the outcome is the store and reply
of the last branch of the handler. -/
theorem createSchedule_created (env : Env) (now : Date) (userId clientId : ObjectId)
    (body : CreateScheduleBody) (s : Store) (c : Client)
    (hid : body.clientId = some (IdParam.objectId clientId))
    (hclient : Client.findOwned clientId userId s = some c)
    (hsucc : (createSchedule env now userId body s).2.status? = some 201) :
    ∃ (d : Date) (p : PaymentSchedule),
      c.status = "active" ∧ body.dueDate = some d ∧
      p = { description := body.description, amount := body.amount,
            currency := some (orElse (orOpt body.currency c.region.currency) "USD"),
            dueDate := some d,
            frequency := some (orElse body.frequency "one-time"),
            status := "pending" } ∧
      createSchedule env now userId body s =
        (schedulePaymentNotification now
            { c with
              paymentSchedules := c.paymentSchedules ++ [{ p with createdAt := some now }]
              updatedAt := now } p
            { s with
              clients := s.clients.map (fun x =>
                if x._id = clientId then
                  { c with
                    paymentSchedules := c.paymentSchedules ++ [{ p with createdAt := some now }]
                    updatedAt := now }
                else x) },
          Reply.json 201 true "Payment schedule created successfully"
            (Payload.paymentSchedule p)) := by
  have hcid := (Client.findOwned_id hclient).1
  subst hcid
  by_cases hact : c.status = "active"
  · have hne : (c.status != "active") = false := by simp [hact]
    cases hdue : body.dueDate with
    | none =>
      simp [createSchedule, hid, IdParam.castOpt_objectId, hclient, hact, hdue,
        Reply.status?] at hsucc
    | some d =>
      by_cases hval : Client.validate env
          { c with
            paymentSchedules := c.paymentSchedules ++
              [{ description := body.description, amount := body.amount,
                 currency := some (orElse (orOpt body.currency c.region.currency) "USD"),
                 dueDate := some d,
                 frequency := some (orElse body.frequency "one-time"),
                 status := "pending", createdAt := some now }] } = true
      · have hsaved := Client.save_stored env now
          { c with
            paymentSchedules := c.paymentSchedules ++
              [{ description := body.description, amount := body.amount,
                 currency := some (orElse (orOpt body.currency c.region.currency) "USD"),
                 dueDate := some d,
                 frequency := some (orElse body.frequency "one-time"),
                 status := "pending", createdAt := some now }] }
          c s (Client.findOwned_mem hclient) rfl rfl rfl hval
        refine ⟨d, _, hact, rfl, rfl, ?_⟩
        simp only [createSchedule, hid, IdParam.castOpt_objectId, Option.some_bind, hclient,
          hne, Bool.false_eq_true, if_false, hdue, Option.isNone_some, hsaved]
      · simp only [createSchedule, hid, IdParam.castOpt_objectId, Option.some_bind, hclient,
          hne, Bool.false_eq_true, if_false, hdue, Option.isNone_some, Client.save, hval,
          Reply.status?] at hsucc
        simp at hsucc
  · simp [createSchedule, hid, IdParam.castOpt_objectId, hclient, hact, Reply.status?] at hsucc

/-- C12: when CreateSchedule on a Client `c` owned by the requester is
answered 201 (which requires `c` to be active), the stored Client is `c` with
one schedule appended to its list, so the list has one more entry and starts
with the old list in the old order, and with `updatedAt` stamped; the new
entry carries the description, amount and due date of the request; Clients
with another id and all users are as before. -/
theorem createSchedule_appends (env : Env) (now : Date) (userId clientId : ObjectId)
    (body : CreateScheduleBody) (s : Store) (c : Client)
    (hid : body.clientId = some (IdParam.objectId clientId))
    (hclient : Client.findOwned clientId userId s = some c)
    (hsucc : (createSchedule env now userId body s).2.status? = some 201) :
    ∃ p : PaymentSchedule,
      p.description = body.description ∧ p.amount = body.amount ∧
      p.dueDate = body.dueDate ∧
      (createSchedule env now userId body s).1.clients =
        s.clients.map (fun d =>
          if d._id = clientId then
            { c with paymentSchedules := c.paymentSchedules ++ [p], updatedAt := now }
          else d) ∧
      Client.findOwned clientId userId (createSchedule env now userId body s).1 =
        some { c with paymentSchedules := c.paymentSchedules ++ [p], updatedAt := now } ∧
      (c.paymentSchedules ++ [p]).length = c.paymentSchedules.length + 1 ∧
      (c.paymentSchedules ++ [p]).take c.paymentSchedules.length = c.paymentSchedules ∧
      (createSchedule env now userId body s).1.users = s.users := by
  obtain ⟨d, p, -, hdue, hp, hrun⟩ :=
    createSchedule_created env now userId clientId body s c hid hclient hsucc
  obtain ⟨hcid, hown⟩ := Client.findOwned_id hclient
  refine ⟨{ p with createdAt := some now }, by simp [hp], by simp [hp], by simp [hp, hdue],
    ?_, ?_, by simp, by simp, ?_⟩
  · rw [hrun]
    simp only [schedulePaymentNotification_clients]
  · rw [hrun]
    simp only [Client.findOwned, schedulePaymentNotification_clients]
    exact findOwned_map_replace clientId userId c
      { c with
        paymentSchedules := c.paymentSchedules ++ [{ p with createdAt := some now }]
        updatedAt := now } hcid hown s.clients hclient
  · rw [hrun]
    simp only [schedulePaymentNotification_users]

theorem createSchedule_appends_witness :
    ∃ p : PaymentSchedule,
      p.description = some "Invoice 3" ∧ p.amount = some 70 ∧ p.dueDate = some 9 ∧
      (createSchedule sampleEnv 5 1
          { clientId := some 12, description := some "Invoice 3", amount := some 70,
            dueDate := some 9 } billingStore).1.clients =
        billingStore.clients.map (fun d =>
          if d._id = 12 then
            { sampleBilled with
              paymentSchedules := sampleBilled.paymentSchedules ++ [p], updatedAt := 5 }
          else d) ∧
      Client.findOwned 12 1 (createSchedule sampleEnv 5 1
          { clientId := some 12, description := some "Invoice 3", amount := some 70,
            dueDate := some 9 } billingStore).1 =
        some { sampleBilled with
                paymentSchedules := sampleBilled.paymentSchedules ++ [p], updatedAt := 5 } ∧
      (sampleBilled.paymentSchedules ++ [p]).length = sampleBilled.paymentSchedules.length + 1 ∧
      (sampleBilled.paymentSchedules ++ [p]).take sampleBilled.paymentSchedules.length =
        sampleBilled.paymentSchedules ∧
      (createSchedule sampleEnv 5 1
          { clientId := some 12, description := some "Invoice 3", amount := some 70,
            dueDate := some 9 } billingStore).1.users = billingStore.users :=
  createSchedule_appends sampleEnv 5 1 12
    { clientId := some 12, description := some "Invoice 3", amount := some 70,
      dueDate := some 9 } billingStore sampleBilled rfl (by decide) (by decide)

theorem orElse_given {v : String} (d : String) (h : v ≠ "") : orElse (some v) d = v := by
  simp [orElse, truthy, h]

theorem orElse_missing {a : Option String} (d : String) (h : missingOrEmpty a) :
    orElse a d = d := by
  rw [← truthy_eq_false_iff] at h
  simp [orElse, h]

theorem orOpt_given {v : String} (b : Option String) (h : v ≠ "") :
    orOpt (some v) b = some v := by
  simp [orOpt, truthy, h]

theorem orOpt_missing {a : Option String} (b : Option String) (h : missingOrEmpty a) :
    orOpt a b = b := by
  rw [← truthy_eq_false_iff] at h
  simp [orOpt, h]

/-- C13: when CreateSchedule on a Client `c` owned by the requester is
answered 201, the schedule appended to the stored list, which is also the one
in the reply, has as currency the currency of the request if that is given
(present and non-empty), otherwise the region currency of the Client if that
is set, otherwise USD; as frequency the frequency of the request if given,
otherwise one-time; and status pending, whatever `status` the body holds. -/
theorem createSchedule_defaults (env : Env) (now : Date) (userId clientId : ObjectId)
    (body : CreateScheduleBody) (s : Store) (c : Client)
    (hid : body.clientId = some (IdParam.objectId clientId))
    (hclient : Client.findOwned clientId userId s = some c)
    (hsucc : (createSchedule env now userId body s).2.status? = some 201) :
    ∃ p : PaymentSchedule,
      Client.findOwned clientId userId (createSchedule env now userId body s).1 =
        some { c with paymentSchedules := c.paymentSchedules ++ [p], updatedAt := now } ∧
      (createSchedule env now userId body s).2 =
        Reply.json 201 true "Payment schedule created successfully"
          (Payload.paymentSchedule { p with createdAt := none }) ∧
      (∀ v, body.currency = some v → v ≠ "" → p.currency = some v) ∧
      (missingOrEmpty body.currency →
        ∀ v, c.region.currency = some v → v ≠ "" → p.currency = some v) ∧
      (missingOrEmpty body.currency → missingOrEmpty c.region.currency →
        p.currency = some "USD") ∧
      (∀ v, body.frequency = some v → v ≠ "" → p.frequency = some v) ∧
      (missingOrEmpty body.frequency → p.frequency = some "one-time") ∧
      p.status = "pending" := by
  obtain ⟨d, p, -, hdue, hp, hrun⟩ :=
    createSchedule_created env now userId clientId body s c hid hclient hsucc
  obtain ⟨hcid, hown⟩ := Client.findOwned_id hclient
  refine ⟨{ p with createdAt := some now }, ?_, ?_, ?_, ?_, ?_, ?_, ?_, by simp [hp]⟩
  · rw [hrun]
    simp only [Client.findOwned, schedulePaymentNotification_clients]
    exact findOwned_map_replace clientId userId c
      { c with
        paymentSchedules := c.paymentSchedules ++ [{ p with createdAt := some now }]
        updatedAt := now } hcid hown s.clients hclient
  · rw [hrun]
    simp [hp]
  · intro v hv hne
    simp [hp, hv, orOpt_given _ hne, orElse_given _ hne]
  · intro hmiss v hv hne
    simp [hp, orOpt_missing _ hmiss, hv, orElse_given _ hne]
  · intro hmiss hmiss2
    simp [hp, orOpt_missing _ hmiss, orElse_missing _ hmiss2]
  · intro v hv hne
    simp [hp, hv, orElse_given _ hne]
  · intro hmiss
    simp [hp, orElse_missing _ hmiss]

theorem createSchedule_defaults_witness :
    ∃ p : PaymentSchedule,
      Client.findOwned 12 1 (createSchedule sampleEnv 5 1
          { clientId := some 12, description := some "Invoice 3", amount := some 70,
            dueDate := some 9, status := some "paid" } billingStore).1 =
        some { sampleBilled with
                paymentSchedules := sampleBilled.paymentSchedules ++ [p], updatedAt := 5 } ∧
      (createSchedule sampleEnv 5 1
          { clientId := some 12, description := some "Invoice 3", amount := some 70,
            dueDate := some 9, status := some "paid" } billingStore).2 =
        Reply.json 201 true "Payment schedule created successfully"
          (Payload.paymentSchedule { p with createdAt := none }) ∧
      (∀ v, (none : Option String) = some v → v ≠ "" → p.currency = some v) ∧
      (missingOrEmpty none →
        ∀ v, sampleBilled.region.currency = some v → v ≠ "" → p.currency = some v) ∧
      (missingOrEmpty none → missingOrEmpty sampleBilled.region.currency →
        p.currency = some "USD") ∧
      (∀ v, (none : Option String) = some v → v ≠ "" → p.frequency = some v) ∧
      (missingOrEmpty none → p.frequency = some "one-time") ∧
      p.status = "pending" :=
  createSchedule_defaults sampleEnv 5 1 12
    { clientId := some 12, description := some "Invoice 3", amount := some 70,
      dueDate := some 9, status := some "paid" } billingStore sampleBilled rfl (by decide)
    (by decide)

/-- C14: when CreateSchedule on a Client `c` owned by the requester is
answered 201, the due date `d` of the request is a valid date; if `d` is at
or after the current time, exactly one Notification is stored, of type
payment_due and addressed to the owner `addedBy`; if `d` is strictly in the
past, the stored Notifications are as before.  In no case is more than one
stored. -/
theorem createSchedule_notifies (env : Env) (now : Date) (userId clientId : ObjectId)
    (body : CreateScheduleBody) (s : Store) (c : Client)
    (hid : body.clientId = some (IdParam.objectId clientId))
    (hclient : Client.findOwned clientId userId s = some c)
    (hsucc : (createSchedule env now userId body s).2.status? = some 201) :
    ∃ d : Date, body.dueDate = some d ∧
      (now ≤ d → ∃ n : Notification,
        (createSchedule env now userId body s).1.notifications = s.notifications ++ [n] ∧
        n.type = "payment_due" ∧ n.user = c.addedBy) ∧
      (d < now →
        (createSchedule env now userId body s).1.notifications = s.notifications) := by
  obtain ⟨d, p, -, hdue, hp, hrun⟩ :=
    createSchedule_created env now userId clientId body s c hid hclient hsucc
  have hpd : p.dueDate = some d := by simp [hp]
  refine ⟨d, hdue, ?_, ?_⟩
  · intro hle
    rw [hrun]
    simp only [schedulePaymentNotification, hpd, hle, if_true, Notification.save]
    exact ⟨_, rfl, rfl, rfl⟩
  · intro hlt
    rw [hrun]
    have hnle : ¬ now ≤ d := not_le.mpr hlt
    simp only [schedulePaymentNotification, hpd, hnle, if_false]

theorem createSchedule_notifies_witness :
    ∃ d : Date, (some 9 : Option Date) = some d ∧
      (5 ≤ d → ∃ n : Notification,
        (createSchedule sampleEnv 5 1
            { clientId := some 12, description := some "Invoice 3", amount := some 70,
              dueDate := some 9 } billingStore).1.notifications =
          billingStore.notifications ++ [n] ∧
        n.type = "payment_due" ∧ n.user = sampleBilled.addedBy) ∧
      (d < 5 →
        (createSchedule sampleEnv 5 1
            { clientId := some 12, description := some "Invoice 3", amount := some 70,
              dueDate := some 9 } billingStore).1.notifications =
          billingStore.notifications) :=
  createSchedule_notifies sampleEnv 5 1 12
    { clientId := some 12, description := some "Invoice 3", amount := some 70,
      dueDate := some 9 } billingStore sampleBilled rfl (by decide) (by decide)

/-! ## Properties of UpdateSchedule -/

theorem PaymentSchedule.validate_of_mem (env : Env) (c : Client) (p : PaymentSchedule)
    (hschema : c.validate env = true) (hp : p ∈ c.paymentSchedules) : p.validate = true := by
  simp only [Client.validate, Bool.and_eq_true, List.all_eq_true] at hschema
  exact hschema.2 p hp

theorem Client.validate_set (env : Env) (c : Client) (i : Nat) (p1 : PaymentSchedule)
    (hschema : c.validate env = true) (hp1 : p1.validate = true) :
    Client.validate env { c with paymentSchedules := c.paymentSchedules.set i p1 } = true := by
  simp only [Client.validate, Bool.and_eq_true, List.all_eq_true] at hschema ⊢
  refine ⟨hschema.1, ?_⟩
  intro x hx
  rcases List.mem_or_eq_of_mem_set hx with h | h
  · exact hschema.2 x h
  · rw [h]; exact hp1

theorem PaymentSchedule.validate_assign (p : PaymentSchedule) (body : UpdateScheduleBody)
    (hp : p.validate = true)
    (hfreq : ∀ f, body.frequency = some f → f ∈ frequencyEnum)
    (hstatus : ∀ v, body.status = some v → v ∈ scheduleStatusEnum) :
    (p.assign body).validate = true := by
  simp only [PaymentSchedule.validate, Bool.and_eq_true] at hp ⊢
  constructor
  · cases hb : body.frequency with
    | none => simpa [PaymentSchedule.assign, assignOpt, hb] using hp.1
    | some f =>
      have := hfreq f hb
      simp [PaymentSchedule.assign, assignOpt, hb, this]
  · cases hb : body.status with
    | none => simpa [PaymentSchedule.assign, hb] using hp.2
    | some v =>
      have := hstatus v hb
      simp [PaymentSchedule.assign, hb, this]

/-- A patch whose frequency or status is not a value of the schema enum gives
a schedule that fails the validators. -/
theorem PaymentSchedule.validate_assign_false (p : PaymentSchedule)
    (body : UpdateScheduleBody)
    (h : (∃ f, body.frequency = some f ∧ f ∉ frequencyEnum) ∨
      (∃ v, body.status = some v ∧ v ∉ scheduleStatusEnum)) :
    (p.assign body).validate = false := by
  rcases h with ⟨f, hf, hnot⟩ | ⟨v, hv, hnot⟩
  · simp [PaymentSchedule.validate, PaymentSchedule.assign, assignOpt, hf, hnot]
  · simp [PaymentSchedule.validate, PaymentSchedule.assign, hv, hnot]

theorem Client.validate_set_false (env : Env) (c : Client) (i : Nat) (p1 : PaymentSchedule)
    (hi : i < c.paymentSchedules.length) (hp1 : p1.validate = false) :
    Client.validate env { c with paymentSchedules := c.paymentSchedules.set i p1 } = false := by
  have hall : (c.paymentSchedules.set i p1).all PaymentSchedule.validate = false := by
    rw [List.all_eq_false]
    exact ⟨p1, List.mem_set _ i hi p1, by simp [hp1]⟩
  simp [Client.validate, hall]

theorem List.get?_lt_length {α : Type} {l : List α} {i : Nat} {a : α}
    (h : l.get? i = some a) : i < l.length := by
  by_contra hlt
  rw [List.get?_eq_none.mpr (Nat.le_of_not_lt hlt)] at h
  exact Option.noConfusion h

/-- C16, as the code has it: for a stored Client `c` of the requester that
satisfies the schema and an index `i` below the number of its schedules.
When every value of the patch casts to the type of its schema path and the
`frequency` and `status` of the patch, when present, are values of the schema
enums, UpdateSchedule is answered 200; the stored list has the same length,
the schedules at other positions are as before, in the schedule at `i`
every schema field with a key in the patch has the value of the patch and
every other field has its old value, and the keys of the patch that are no
schema path (`paidAt`) are not stored: the outcome is that of the patch
without them.  Every other patch is rejected on save: the request ends in a
validation error and the store is as it was. -/
theorem updateSchedule_merges (env : Env) (now : Date) (userId clientId : ObjectId)
    (i : Nat) (body : UpdateScheduleBody) (s : Store) (c : Client) (p : PaymentSchedule)
    (hclient : Client.findOwned clientId userId s = some c)
    (hschema : c.validate env = true)
    (hi : c.paymentSchedules.get? i = some p) :
    (body.uncastable = [] →
      (∀ f, body.frequency = some f → f ∈ frequencyEnum) →
      (∀ v, body.status = some v → v ∈ scheduleStatusEnum) →
      ∃ p1 : PaymentSchedule,
        updateSchedule env now userId clientId (IndexParam.index i) body s =
          ({ s with
              clients := s.clients.map (fun d =>
                if d._id = clientId then
                  { c with paymentSchedules := c.paymentSchedules.set i p1, updatedAt := now }
                else d) },
            Reply.json 200 true "Payment schedule updated successfully"
              (Payload.paymentSchedule p1)) ∧
        (c.paymentSchedules.set i p1).length = c.paymentSchedules.length ∧
        (∀ j, j ≠ i → (c.paymentSchedules.set i p1).get? j = c.paymentSchedules.get? j) ∧
        (c.paymentSchedules.set i p1).get? i = some p1 ∧
        mergedField body.description p.description p1.description ∧
        mergedField body.amount p.amount p1.amount ∧
        mergedField body.currency p.currency p1.currency ∧
        mergedField body.dueDate p.dueDate p1.dueDate ∧
        mergedField body.frequency p.frequency p1.frequency ∧
        ((∀ v, body.status = some v → p1.status = v) ∧
          (body.status = none → p1.status = p.status)) ∧
        mergedField body.lastNotified p.lastNotified p1.lastNotified ∧
        mergedField body.createdAt p.createdAt p1.createdAt ∧
        updateSchedule env now userId clientId (IndexParam.index i) body s =
          updateSchedule env now userId clientId (IndexParam.index i)
            { body with otherKeys := [] } s) ∧
    (body.uncastable ≠ [] ∨ (∃ f, body.frequency = some f ∧ f ∉ frequencyEnum) ∨
        (∃ v, body.status = some v ∧ v ∉ scheduleStatusEnum) →
      updateSchedule env now userId clientId (IndexParam.index i) body s =
        (s, Reply.next HandlerError.validationError)) := by
  have hlt := List.get?_lt_length hi
  have hge : ¬ c.paymentSchedules.length ≤ i := Nat.not_le.mpr hlt
  have hcid := (Client.findOwned_id hclient).1
  subst hcid
  have hpv := PaymentSchedule.validate_of_mem env c p hschema (List.get?_mem hi)
  constructor
  · intro hcast hfreq hstatus
    have hval := Client.validate_set env c i (p.assign body) hschema
      (PaymentSchedule.validate_assign p body hpv hfreq hstatus)
    have hsaved := Client.save_stored env now
      { c with paymentSchedules := c.paymentSchedules.set i (p.assign body) } c s
      (Client.findOwned_mem hclient) rfl rfl rfl hval
    have hmerge : ∀ {α : Type} (a b : Option α), mergedField a b (assignOpt a b) := by
      intro α a b
      cases a <;> simp [mergedField, assignOpt]
    refine ⟨p.assign body, ?_, by simp, ?_, ?_, hmerge _ _, hmerge _ _, hmerge _ _,
      hmerge _ _, hmerge _ _, ?_, hmerge _ _, hmerge _ _, rfl⟩
    · simp only [updateSchedule, IdParam.cast_objectId, hclient, IndexParam.geLength, hge,
        decide_False, Bool.false_eq_true, if_false, IndexParam.key, Option.some_bind, hi,
        Option.map_some', hcast, List.isEmpty_nil, Bool.not_true, hsaved]
    · intro j hj
      simp [List.getElem?_set_ne (Ne.symm hj)]
    · simp [hlt]
    · cases hb : body.status <;> simp [PaymentSchedule.assign, hb]
  · intro hbad
    by_cases hcast : body.uncastable = []
    · have hnot : (p.assign body).validate = false :=
        PaymentSchedule.validate_assign_false p body (by
          rcases hbad with h | h | h
          · exact absurd hcast h
          · exact Or.inl h
          · exact Or.inr h)
      have hval := Client.validate_set_false env c i (p.assign body) hlt hnot
      simp only [updateSchedule, IdParam.cast_objectId, hclient, IndexParam.geLength, hge,
        decide_False, Bool.false_eq_true, if_false, IndexParam.key, Option.some_bind, hi,
        Option.map_some', hcast, List.isEmpty_nil, Bool.not_true, Client.save, hval]
    · have hne : body.uncastable.isEmpty = false := by
        cases hu : body.uncastable with
        | nil => exact absurd hu hcast
        | cons a l => rfl
      simp only [updateSchedule, IdParam.cast_objectId, hclient, IndexParam.geLength, hge,
        decide_False, Bool.false_eq_true, if_false, IndexParam.key, Option.some_bind, hi,
        Option.map_some', hne, Bool.not_false, if_true]

theorem updateSchedule_merges_witness :
    ∃ p1 : PaymentSchedule,
      updateSchedule sampleEnv 5 1 12 (IndexParam.index 1)
          { amount := some 300, status := some "overdue", otherKeys := ["paidAt"] }
          billingStore =
        ({ billingStore with
            clients := billingStore.clients.map (fun d =>
              if d._id = 12 then
                { sampleBilled with
                  paymentSchedules := sampleBilled.paymentSchedules.set 1 p1, updatedAt := 5 }
              else d) },
          Reply.json 200 true "Payment schedule updated successfully"
            (Payload.paymentSchedule p1)) ∧
      (sampleBilled.paymentSchedules.set 1 p1).length = sampleBilled.paymentSchedules.length ∧
      (∀ j, j ≠ 1 →
        (sampleBilled.paymentSchedules.set 1 p1).get? j = sampleBilled.paymentSchedules.get? j) ∧
      (sampleBilled.paymentSchedules.set 1 p1).get? 1 = some p1 ∧
      mergedField none sampleInvoice2.description p1.description ∧
      mergedField (some 300) sampleInvoice2.amount p1.amount ∧
      mergedField none sampleInvoice2.currency p1.currency ∧
      mergedField none sampleInvoice2.dueDate p1.dueDate ∧
      mergedField none sampleInvoice2.frequency p1.frequency ∧
      ((∀ v, some "overdue" = some v → p1.status = v) ∧
        ((some "overdue" : Option String) = none → p1.status = sampleInvoice2.status)) ∧
      mergedField none sampleInvoice2.lastNotified p1.lastNotified ∧
      mergedField none sampleInvoice2.createdAt p1.createdAt ∧
      updateSchedule sampleEnv 5 1 12 (IndexParam.index 1)
          { amount := some 300, status := some "overdue", otherKeys := ["paidAt"] }
          billingStore =
        updateSchedule sampleEnv 5 1 12 (IndexParam.index 1)
          { amount := some 300, status := some "overdue" } billingStore :=
  (updateSchedule_merges sampleEnv 5 1 12 1
    { amount := some 300, status := some "overdue", otherKeys := ["paidAt"] }
    billingStore sampleBilled sampleInvoice2 (by decide) (by decide) (by decide)).1
    rfl (by simp) (by simp [scheduleStatusEnum])

/-- C16, counterexample: three patches for schedule 0 of the billed Client
after which a patched field does not have the value of the patch.  The patch
`status: "bogus"` fails the enum validator and the patch `amount: "abc"` does
not cast to a number: both requests end in a validation error and the stored
schedule is as before.  The patch `paidAt: ...` is answered 200, but the
schema has no such path: the stored schedule is the old one, with nothing
stored for the key. -/
theorem updateSchedule_rejects_patch :
    updateSchedule sampleEnv 5 1 12 (IndexParam.index 0) { status := some "bogus" }
        billingStore =
      (billingStore, Reply.next HandlerError.validationError) ∧
    updateSchedule sampleEnv 5 1 12 (IndexParam.index 0) { uncastable := ["amount"] }
        billingStore =
      (billingStore, Reply.next HandlerError.validationError) ∧
    (Client.findOwned 12 1 billingStore).map (fun c => c.paymentSchedules.map (fun q => q.status)) =
      some ["pending", "pending"] ∧
    updateSchedule sampleEnv 5 1 12 (IndexParam.index 0) { otherKeys := ["paidAt"] }
        billingStore =
      ({ billingStore with clients := [{ sampleBilled with updatedAt := 5 }] },
        Reply.json 200 true "Payment schedule updated successfully"
          (Payload.paymentSchedule sampleInvoice1)) := by
  decide

/-- C15, the failing requests: for the billed Client (two schedules) the
index strings "-1" and "abc" pass the test `scheduleIndex >= length`, the
element looked up is `undefined`, and `Object.assign` throws a TypeError that
goes to `next`: the reply is not the 404 "Payment schedule not found" that
index 2 gets.  The store is unchanged in all three cases. -/
theorem updateSchedule_bad_index :
    updateSchedule sampleEnv 5 1 12 (IndexParam.other (some (-1))) { amount := some 1 }
        billingStore =
      (billingStore, Reply.next HandlerError.typeError) ∧
    updateSchedule sampleEnv 5 1 12 (IndexParam.other none) { amount := some 1 }
        billingStore =
      (billingStore, Reply.next HandlerError.typeError) ∧
    updateSchedule sampleEnv 5 1 12 (IndexParam.index 2) { amount := some 1 } billingStore =
      (billingStore, Reply.json 404 false "Payment schedule not found" Payload.none) := by
  decide

/-- UpdateSchedule with an index at or above the number of schedules is
answered 404 "Payment schedule not found" and changes nothing. -/
theorem updateSchedule_out_of_range (env : Env) (now : Date) (userId clientId : ObjectId)
    (i : Nat) (body : UpdateScheduleBody) (s : Store) (c : Client)
    (hclient : Client.findOwned clientId userId s = some c)
    (hi : c.paymentSchedules.length ≤ i) :
    updateSchedule env now userId clientId (IndexParam.index i) body s =
      (s, Reply.json 404 false "Payment schedule not found" Payload.none) := by
  simp [updateSchedule, IdParam.cast, hclient, IndexParam.geLength, hi]

/-- UpdateSchedule never changes the store when the index string is not the
decimal numeral of a position: it answers 404 or throws. -/
theorem updateSchedule_other_index (env : Env) (now : Date) (userId : ObjectId)
    (clientId : IdParam) (v : Option Int) (body : UpdateScheduleBody) (s : Store) :
    (updateSchedule env now userId clientId (IndexParam.other v) body s).1 = s := by
  unfold updateSchedule
  split
  · rfl
  · split
    · rfl
    · split
      · rfl
      · simp [IndexParam.key]

/-! ## MarkPaid and the provider webhook -/

theorem PaymentSchedule.validate_paid (p : PaymentSchedule) (hp : p.validate = true) :
    PaymentSchedule.validate { p with status := "paid" } = true := by
  simp only [PaymentSchedule.validate, Bool.and_eq_true] at hp ⊢
  exact ⟨hp.1, by simp [scheduleStatusEnum]⟩

/-- What MarkPaid does for a stored Client of the requester that satisfies
the schema and an index in range: the schedule at the index is saved with
status paid, then the reference to the unbound name `User` throws; the error
goes to `next`, and users and Notifications are as before. -/
theorem markPaid_outcome (env : Env) (now : Date) (userId clientId : ObjectId) (i : Nat)
    (s : Store) (c : Client) (p : PaymentSchedule)
    (hclient : Client.findOwned clientId userId s = some c)
    (hschema : c.validate env = true)
    (hi : c.paymentSchedules.get? i = some p) :
    markPaid env now userId clientId (IndexParam.index i) s =
      ({ s with
          clients := s.clients.map (fun d =>
            if d._id = clientId then
              { c with
                paymentSchedules := c.paymentSchedules.set i { p with status := "paid" }
                updatedAt := now }
            else d) },
        Reply.next HandlerError.referenceError) := by
  have hlt := List.get?_lt_length hi
  have hcid := (Client.findOwned_id hclient).1
  subst hcid
  have hpv := PaymentSchedule.validate_of_mem env c p hschema (List.get?_mem hi)
  have hval := Client.validate_set env c i { p with status := "paid" } hschema
    (PaymentSchedule.validate_paid p hpv)
  have hge : ¬ c.paymentSchedules.length ≤ i := Nat.not_le.mpr hlt
  have hsaved := Client.save_stored env now
    { c with paymentSchedules := c.paymentSchedules.set i { p with status := "paid" } } c s
    (Client.findOwned_mem hclient) rfl rfl rfl hval
  simp only [markPaid, IdParam.cast_objectId, hclient, IndexParam.geLength, hge, decide_False,
    Bool.false_eq_true, if_false, IndexParam.key, Option.some_bind, hi, Option.map_some',
    hsaved]

/-- C17, the failing request: user 1 marks schedule 0 of its billed Client
paid; the address of that Client is the address of the registered user 2.
The schedule is saved with status paid (no paid timestamp is stored: the
schema has no such path), but the reply is the ReferenceError handed to
`next`, not a success, and no Notification is stored. -/
theorem markPaid_throws :
    Client.findOwned 12 1 billingStore = some sampleBilled ∧
    User.findOneByEmail sampleBilled.email billingStore = some sampleCounterpart ∧
    markPaid sampleEnv 5 1 12 (IndexParam.index 0) billingStore =
      ({ billingStore with
          clients := [{ sampleBilled with
            paymentSchedules := [{ sampleInvoice1 with status := "paid" }, sampleInvoice2]
            updatedAt := 5 }] },
        Reply.next HandlerError.referenceError) ∧
    (markPaid sampleEnv 5 1 12 (IndexParam.index 0) billingStore).1.notifications = [] := by
  decide

/-- MarkPaid is idempotent on the schedules: after a first MarkPaid at an
index in range, a second one at the same index leaves the stored Client with
the same schedule list (only `updatedAt` is stamped again). -/
theorem markPaid_twice (env : Env) (now now2 : Date) (userId clientId : ObjectId) (i : Nat)
    (s : Store) (c : Client) (p : PaymentSchedule)
    (hclient : Client.findOwned clientId userId s = some c)
    (hschema : c.validate env = true)
    (hi : c.paymentSchedules.get? i = some p) :
    Client.findOwned clientId userId
        (markPaid env now userId clientId (IndexParam.index i) s).1 =
      some { c with
              paymentSchedules := c.paymentSchedules.set i { p with status := "paid" }
              updatedAt := now } ∧
    Client.findOwned clientId userId
        (markPaid env now2 userId clientId (IndexParam.index i)
          (markPaid env now userId clientId (IndexParam.index i) s).1).1 =
      some { c with
              paymentSchedules := c.paymentSchedules.set i { p with status := "paid" }
              updatedAt := now2 } := by
  obtain ⟨hcid, hown⟩ := Client.findOwned_id hclient
  have hlt := List.get?_lt_length hi
  have hpv := PaymentSchedule.validate_of_mem env c p hschema (List.get?_mem hi)
  have h1 := markPaid_outcome env now userId clientId i s c p hclient hschema hi
  have hfind1 : Client.findOwned clientId userId
      (markPaid env now userId clientId (IndexParam.index i) s).1 =
      some { c with
              paymentSchedules := c.paymentSchedules.set i { p with status := "paid" }
              updatedAt := now } := by
    rw [h1]
    exact findOwned_map_replace clientId userId c
      { c with
        paymentSchedules := c.paymentSchedules.set i { p with status := "paid" }
        updatedAt := now } hcid hown s.clients hclient
  refine ⟨hfind1, ?_⟩
  have hval1 : Client.validate env
      { c with
        paymentSchedules := c.paymentSchedules.set i { p with status := "paid" }
        updatedAt := now } = true :=
    Client.validate_set env c i { p with status := "paid" } hschema
      (PaymentSchedule.validate_paid p hpv)
  have hi1 : (c.paymentSchedules.set i { p with status := "paid" }).get? i =
      some { p with status := "paid" } := by simp [hlt]
  have h2 := markPaid_outcome env now2 userId clientId i
    (markPaid env now userId clientId (IndexParam.index i) s).1 _ _ hfind1 hval1 hi1
  rw [h2]
  have := findOwned_map_replace clientId userId
    { c with
      paymentSchedules := c.paymentSchedules.set i { p with status := "paid" }
      updatedAt := now }
    { c with
      paymentSchedules := c.paymentSchedules.set i { p with status := "paid" }
      updatedAt := now2 } hcid hown
    (markPaid env now userId clientId (IndexParam.index i) s).1.clients hfind1
  simpa [Client.findOwned] using this

/-- C19, the failing requests: user 1 marks schedule 0 of its billed Client
paid twice; the address of that Client is the address of the registered user
2.  The statuses after the second call are those after the first (paid,
pending), but both calls end in the ReferenceError and the store holds no
Notification afterwards, not two. -/
theorem markPaid_twice_no_notification :
    User.findOneByEmail sampleBilled.email billingStore = some sampleCounterpart ∧
    (markPaid sampleEnv 5 1 12 (IndexParam.index 0) billingStore).2 =
      Reply.next HandlerError.referenceError ∧
    (markPaid sampleEnv 6 1 12 (IndexParam.index 0)
        (markPaid sampleEnv 5 1 12 (IndexParam.index 0) billingStore).1).2 =
      Reply.next HandlerError.referenceError ∧
    (Client.findOwned 12 1
        (markPaid sampleEnv 5 1 12 (IndexParam.index 0) billingStore).1).map
      (fun c => c.paymentSchedules.map (fun q => q.status)) = some ["paid", "pending"] ∧
    (Client.findOwned 12 1
        (markPaid sampleEnv 6 1 12 (IndexParam.index 0)
          (markPaid sampleEnv 5 1 12 (IndexParam.index 0) billingStore).1).1).map
      (fun c => c.paymentSchedules.map (fun q => q.status)) = some ["paid", "pending"] ∧
    (markPaid sampleEnv 6 1 12 (IndexParam.index 0)
        (markPaid sampleEnv 5 1 12 (IndexParam.index 0) billingStore).1).1.notifications = [] := by
  decide

theorem Client.findOwned_of_findById {clientId : ObjectId} {c : Client} :
    ∀ cs : List Client, cs.find? (fun d => d._id == clientId) = some c →
      cs.find? (fun d => d._id == clientId && d.addedBy == c.addedBy) = some c
  | [], h => by simp at h
  | d :: cs, h => by
    by_cases hd : d._id = clientId
    · have hdc : d = c := by simpa [hd] using h
      subst hdc
      simp [hd]
    · have hd2 : (d._id == clientId) = false := by simp [hd]
      rw [List.find?_cons, hd2] at h
      have hd3 : (d._id == clientId && d.addedBy == c.addedBy) = false := by simp [hd]
      rw [List.find?_cons, hd3]
      exact Client.findOwned_of_findById cs h

/-- C20, as the code has it: for a stored Client `c` that satisfies the
schema and an index `i` in range, a signature-verified
checkout.session.completed event whose metadata names the Client, `i` and a
user id is acknowledged with `received: true`; it stores the Client with
schedule `i` paid, which up to `updatedAt` is the Client that MarkPaid by the
owner leaves, and it stores exactly one Notification, of type
payment_received, addressed to the user id of the metadata. -/
theorem webhook_marks_paid (env : Env) (now now2 : Date) (clientId userId : ObjectId)
    (i : Nat) (s : Store) (c : Client) (p : PaymentSchedule)
    (hclient : Client.findById clientId s = some c)
    (hschema : c.validate env = true)
    (hi : c.paymentSchedules.get? i = some p) :
    ∃ n : Notification,
      webhook env now
          (Except.ok { type := "checkout.session.completed"
                       metadata := { clientId := some clientId
                                     scheduleIndex := some (IndexParam.index i)
                                     userId := some userId } }) s =
        ({ users := s.users
           clients := s.clients.map (fun d =>
              if d._id = clientId then
                { c with
                  paymentSchedules := c.paymentSchedules.set i { p with status := "paid" }
                  updatedAt := now }
              else d)
           notifications := s.notifications ++ [n]
           nextId := s.nextId + 1 },
          Reply.received) ∧
      n.type = "payment_received" ∧ n.user = userId ∧
      (webhook env now
          (Except.ok { type := "checkout.session.completed"
                       metadata := { clientId := some clientId
                                     scheduleIndex := some (IndexParam.index i)
                                     userId := some userId } }) s).1.clients.map
          (fun d => { d with updatedAt := 0 }) =
        (markPaid env now2 c.addedBy clientId (IndexParam.index i) s).1.clients.map
          (fun d => { d with updatedAt := 0 }) := by
  have hlt := List.get?_lt_length hi
  have hcid := Client.findById_id hclient
  subst hcid
  have hpv := PaymentSchedule.validate_of_mem env c p hschema (List.get?_mem hi)
  have hval := Client.validate_set env c i { p with status := "paid" } hschema
    (PaymentSchedule.validate_paid p hpv)
  have hown : Client.findOwned c._id c.addedBy s = some c :=
    Client.findOwned_of_findById s.clients hclient
  have hmark := markPaid_outcome env now2 c.addedBy c._id i s c p hown hschema hi
  have hrun : webhook env now
      (Except.ok { type := "checkout.session.completed"
                   metadata := { clientId := some c._id
                                 scheduleIndex := some (IndexParam.index i)
                                 userId := some userId } }) s =
      ({ users := s.users
         clients := s.clients.map (fun d =>
            if d._id = c._id then
              { c with
                paymentSchedules := c.paymentSchedules.set i { p with status := "paid" }
                updatedAt := now }
            else d)
         notifications := s.notifications ++
            [paymentReceivedNotification now s.nextId userId
              { c with
                paymentSchedules := c.paymentSchedules.set i { p with status := "paid" }
                updatedAt := now } { p with status := "paid" }]
         nextId := s.nextId + 1 },
        Reply.received) := by
    have hsaved := Client.save_stored env now
      { c with paymentSchedules := c.paymentSchedules.set i { p with status := "paid" } } c s
      (List.mem_of_find?_eq_some hclient) rfl rfl rfl hval
    simp only [webhook, if_true, IdParam.cast_objectId, hclient, IndexParam.ltLength, hlt,
      decide_True, IndexParam.key, Option.some_bind, hi, Option.map_some', hsaved,
      Notification.save, Bool.false_eq_true, if_false]
  refine ⟨_, hrun, rfl, rfl, ?_⟩
  rw [hrun, hmark]
  simp only [List.map_map]
  apply List.map_congr_left
  intro d _
  by_cases hd : d._id = c._id <;> simp [hd]

theorem webhook_marks_paid_witness :
    ∃ n : Notification,
      webhook sampleEnv 5
          (Except.ok { type := "checkout.session.completed"
                       metadata := { clientId := some 12
                                     scheduleIndex := some (IndexParam.index 0)
                                     userId := some 1 } }) billingStore =
        ({ users := billingStore.users
           clients := billingStore.clients.map (fun d =>
              if d._id = 12 then
                { sampleBilled with
                  paymentSchedules :=
                    sampleBilled.paymentSchedules.set 0 { sampleInvoice1 with status := "paid" }
                  updatedAt := 5 }
              else d)
           notifications := billingStore.notifications ++ [n]
           nextId := billingStore.nextId + 1 },
          Reply.received) ∧
      n.type = "payment_received" ∧ n.user = 1 ∧
      (webhook sampleEnv 5
          (Except.ok { type := "checkout.session.completed"
                       metadata := { clientId := some 12
                                     scheduleIndex := some (IndexParam.index 0)
                                     userId := some 1 } }) billingStore).1.clients.map
          (fun d => { d with updatedAt := 0 }) =
        (markPaid sampleEnv 7 sampleBilled.addedBy 12 (IndexParam.index 0)
          billingStore).1.clients.map (fun d => { d with updatedAt := 0 }) :=
  webhook_marks_paid sampleEnv 5 7 12 1 0 billingStore sampleBilled sampleInvoice1
    (by decide) (by decide) (by decide)

/-- C20, counterexample: for the billed Client of user 1, whose address is
that of the registered user 2, the verified webhook with the metadata of a
link made by user 1 stores one payment_received Notification addressed to
user 1.  MarkPaid by user 1 stores none, and the recipient its code names is
the User with the address of the Client, user 2.  The recipients differ. -/
theorem webhook_notifies_link_creator :
    ((webhook sampleEnv 5
        (Except.ok { type := "checkout.session.completed"
                     metadata := { clientId := some 12
                                   scheduleIndex := some (IndexParam.index 0)
                                   userId := some 1 } }) billingStore).1.notifications.map
      (fun n => (n.type, n.user))) = [("payment_received", 1)] ∧
    (markPaid sampleEnv 5 1 12 (IndexParam.index 0) billingStore).1.notifications = [] ∧
    (User.findOneByEmail sampleBilled.email billingStore).map (fun u => u._id) = some 2 := by
  decide

/-! ## Notifications -/

/-- C21: when no stored Notification has both the requested id and the
requester as `user` (it is addressed to someone else, or does not exist),
MarkRead and Delete are answered 404 "Notification not found", the same reply
in both cases, and the whole store, hence the read flag and the existence of
the Notification, is as it was. -/
theorem notification_not_owned (userId notificationId : ObjectId) (s : Store)
    (h : ∀ n ∈ s.notifications, n._id = notificationId → n.user ≠ userId) :
    markNotificationRead userId notificationId s =
      (s, Reply.json 404 false "Notification not found" Payload.none) ∧
    deleteNotification userId notificationId s =
      (s, Reply.json 404 false "Notification not found" Payload.none) := by
  have hnone : s.notifications.find?
      (fun n => n._id == notificationId && n.user == userId) = none := by
    rw [List.find?_eq_none]
    intro n hn
    by_cases hid : n._id = notificationId
    · simp [hid, h n hn hid]
    · simp [hid]
  constructor
  · simp [markNotificationRead, IdParam.cast, hnone]
  · simp [deleteNotification, IdParam.cast, hnone]

theorem notification_not_owned_witness :
    markNotificationRead 1 30 noticeStore =
      (noticeStore, Reply.json 404 false "Notification not found" Payload.none) ∧
    deleteNotification 1 30 noticeStore =
      (noticeStore, Reply.json 404 false "Notification not found" Payload.none) :=
  notification_not_owned 1 30 noticeStore (by decide)

theorem countP_read_all (userId other : ObjectId) (ns : List Notification) :
    (ns.map (fun n =>
        if n.user = userId ∧ n.isRead = false then { n with isRead := true } else n)).countP
      (fun n => n.user == other && n.isRead == false) =
    if other = userId then 0
    else ns.countP (fun n => n.user == other && n.isRead == false) := by
  induction ns with
  | nil => simp
  | cons n ns ih =>
    rw [List.map_cons, List.countP_cons, ih, List.countP_cons]
    by_cases ho : other = userId
    · subst ho
      by_cases hu : n.user = other <;> cases hr : n.isRead <;> simp [hu, hr]
    · by_cases hu : n.user = userId
      · have hne : ¬ n.user = other := fun h => ho (h.symm.trans hu)
        cases hr : n.isRead <;> simp [ho, hu, hr, hne, Ne.symm ho]
      · simp [ho, hu]

/-- C22: UnreadCount of a user is the number of stored Notifications
addressed to that user with `isRead` false.  MarkAllRead of the user sets the
read flag of every Notification addressed to the user and changes nothing
else: afterwards UnreadCount of the user is 0, the Notifications are the same
in number and identity, those addressed to other users are untouched, and
UnreadCount of every other user is as before. -/
theorem unreadCount_markAllRead (userId : ObjectId) (s : Store) :
    unreadCount userId s =
      (s, Reply.data (Payload.count
        (s.notifications.filter (fun n => n.user = userId ∧ n.isRead = false)).length)) ∧
    (markAllNotificationsRead userId s).1 =
      { s with
        notifications := s.notifications.map (fun n =>
          if n.user = userId then { n with isRead := true } else n) } ∧
    (unreadCount userId (markAllNotificationsRead userId s).1).2 =
      Reply.data (Payload.count 0) ∧
    (markAllNotificationsRead userId s).1.notifications.map (fun n => n._id) =
      s.notifications.map (fun n => n._id) ∧
    (∀ other, other ≠ userId →
      (unreadCount other (markAllNotificationsRead userId s).1).2 =
        (unreadCount other s).2) := by
  refine ⟨?_, ?_, ?_, ?_, ?_⟩
  · simp only [unreadCount, List.countP_eq_length_filter]
    congr 4
    apply List.filter_congr
    intro n _
    by_cases hu : n.user = userId <;> simp [hu]
  · simp only [markAllNotificationsRead]
    congr 1
    apply List.map_congr_left
    intro n _
    by_cases hu : n.user = userId
    · cases hr : n.isRead with
      | false => simp [hu, hr]
      | true =>
        simp only [hu, hr, true_and, if_true]
        rw [if_neg (by simp)]
        cases n
        simp_all
    · simp [hu]
  · simp only [unreadCount, markAllNotificationsRead, countP_read_all, if_true]
  · simp only [markAllNotificationsRead, List.map_map]
    apply List.map_congr_left
    intro n _
    by_cases hc : n.user = userId ∧ n.isRead = false <;> simp [hc]
  · intro other ho
    simp only [unreadCount, markAllNotificationsRead, countP_read_all, ho, if_false]

/-! ## Authentication -/

/-- C23, as the code has it: a request without Authorization header to any
embedded route other than the provider webhook and the mock scan-google
route is answered 401 "No token provided" and leaves the store as it was.
This covers /auth/me, /auth/region and every route of /clients, /payments
(webhook apart) and /notifications. -/
theorem no_token_unauthorized (deps : Deps) (now : Date) (request : ApiRequest) (s : Store)
    (hwebhook : ∀ event, request ≠ ApiRequest.webhook event)
    (hscan : request ≠ ApiRequest.scanGoogle) :
    serve deps now none request s =
      (s, Reply.json 401 false "No token provided" Payload.none) := by
  cases request <;>
    first
    | exact absurd rfl hscan
    | exact absurd rfl (hwebhook _)
    | simp [serve, verifyToken, authMe, authRegion, bearerToken, truthy]

theorem no_token_unauthorized_witness :
    serve sampleDeps 5 none (ApiRequest.markPaid 12 (IndexParam.index 0)) billingStore =
      (billingStore, Reply.json 401 false "No token provided" Payload.none) :=
  no_token_unauthorized sampleDeps 5 (ApiRequest.markPaid 12 (IndexParam.index 0))
    billingStore (fun _ h => ApiRequest.noConfusion h) (fun h => ApiRequest.noConfusion h)

/-- C23, counterexample: a signature-verified checkout.session.completed
event sent to POST /payments/webhook without Authorization header is not
answered 401: it is acknowledged with `received: true`, schedule 0 of the
billed Client is stored as paid and a Notification is stored. -/
theorem webhook_needs_no_token :
    serve sampleDeps 5 none
        (ApiRequest.webhook
          (Except.ok { type := "checkout.session.completed"
                       metadata := { clientId := some 12
                                     scheduleIndex := some (IndexParam.index 0)
                                     userId := some 1 } })) billingStore =
      ({ billingStore with
          clients := [{ sampleBilled with
            paymentSchedules := [{ sampleInvoice1 with status := "paid" }, sampleInvoice2]
            updatedAt := 5 }]
          notifications := [paymentReceivedNotification 5 20 1
            { sampleBilled with
              paymentSchedules := [{ sampleInvoice1 with status := "paid" }, sampleInvoice2]
              updatedAt := 5 } { sampleInvoice1 with status := "paid" }]
          nextId := 21 },
        Reply.received) := by
  decide

/-! ## List and search of Clients -/

/-- C24, as the code has it: for a non-empty search string whose regular
expression, on the name, email and companyName of the stored Clients, tests
exactly case-insensitive literal containment (as for a string without
metacharacters), List answers with exactly the Clients whose `addedBy` is the
requester, whose status is the filter when one is given, and one of whose
name, email or companyName contains the string; the store is unchanged. -/
theorem listClients_literal (regex : RegexEngine) (userId : ObjectId) (search : String)
    (status : Option String) (s : Store) (test : String → Bool)
    (hsearch : search ≠ "")
    (hcompile : regex.compile search = some test)
    (hliteral : ∀ c ∈ s.clients, ∀ f ∈ [c.name, c.email, c.companyName],
      test f = containsIgnoreCase search f) :
    ∃ cs : List (Client × Option OwnerInfo),
      listClients regex userId (some search) status s =
        (s, Reply.data (Payload.populatedClients cs)) ∧
      (cs.map Prod.fst).Perm
        (s.clients.filter (fun c =>
          (c.addedBy == userId && (if truthy status then c.status == status.getD "" else true))
          && (containsIgnoreCase search c.name || containsIgnoreCase search c.email
              || containsIgnoreCase search c.companyName))) := by
  refine ⟨((s.clients.filter (fun c =>
      (c.addedBy == userId && (if truthy status then c.status == status.getD "" else true))
      && (test c.name || test c.email || test c.companyName))).insertionSort
        Client.newerFirst).map (fun c => (c, (User.findById c.addedBy s).map User.info)),
    ?_, ?_⟩
  · simp only [listClients, truthy_some hsearch, if_true, Option.getD_some, hcompile]
  · rw [List.map_map]
    have hfst : (Prod.fst ∘ fun (c : Client) => (c, (User.findById c.addedBy s).map User.info))
        = id := rfl
    rw [hfst, List.map_id]
    refine (List.perm_insertionSort _ _).trans ?_
    have hfilter : s.clients.filter (fun c =>
          (c.addedBy == userId && (if truthy status then c.status == status.getD "" else true))
          && (test c.name || test c.email || test c.companyName)) =
        s.clients.filter (fun c =>
          (c.addedBy == userId && (if truthy status then c.status == status.getD "" else true))
          && (containsIgnoreCase search c.name || containsIgnoreCase search c.email
              || containsIgnoreCase search c.companyName)) := by
      apply List.filter_congr
      intro c hc
      rw [hliteral c hc c.name (by simp), hliteral c hc c.email (by simp),
        hliteral c hc c.companyName (by simp)]
    rw [hfilter]

theorem listClients_literal_witness :
    ∃ cs : List (Client × Option OwnerInfo),
      listClients sampleRegex 1 (some "carol") none sampleStore =
        (sampleStore, Reply.data (Payload.populatedClients cs)) ∧
      (cs.map Prod.fst).Perm
        (sampleStore.clients.filter (fun c =>
          (c.addedBy == 1 && (if truthy none then c.status == (none : Option String).getD ""
            else true))
          && (containsIgnoreCase "carol" c.name || containsIgnoreCase "carol" c.email
              || containsIgnoreCase "carol" c.companyName))) :=
  listClients_literal sampleRegex 1 "carol" none sampleStore
    (fun text => text.data.tails.any (sampleMatchHere "carol".data))
    (by decide) rfl (by decide)

/-- C24, counterexample: the search string `u.@` is a substring of no field
of the pending sample Client, yet List returns that Client, because the
string is matched as a regular expression and `.` stands for any character
(`u2@x.com`).  The search string `(` is not a valid pattern and the request
ends in an error. -/
theorem listClients_regex_search :
    containsIgnoreCase "u.@" samplePending.name = false ∧
    containsIgnoreCase "u.@" samplePending.email = false ∧
    containsIgnoreCase "u.@" samplePending.companyName = false ∧
    listClients sampleRegex 1 (some "u.@") none sampleStore =
      (sampleStore, Reply.data (Payload.populatedClients
        [(samplePending, some sampleOwner.info)])) ∧
    listClients sampleRegex 1 (some "(") none sampleStore =
      (sampleStore, Reply.next HandlerError.regexError) := by
  decide

/-! ## Delete -/

theorem eraseP_eq_filter_of_nodup (clientId userId : ObjectId) (c : Client) :
    ∀ cs : List Client, (cs.map (fun d => d._id)).Nodup →
      cs.find? (fun d => d._id == clientId && d.addedBy == userId) = some c →
      cs.eraseP (fun d => d._id == clientId && d.addedBy == userId) =
        cs.filter (fun d => d._id != clientId)
  | [], _, h => by simp at h
  | d :: cs, hnd, h => by
    rw [List.map_cons, List.nodup_cons] at hnd
    by_cases hp : (d._id == clientId && d.addedBy == userId) = true
    · have hid : d._id = clientId := by
        simp only [Bool.and_eq_true, beq_iff_eq] at hp
        exact hp.1
      have hrest : cs.filter (fun d => d._id != clientId) = cs := by
        rw [List.filter_eq_self]
        intro x hx
        have : x._id ≠ clientId := by
          intro hx2
          exact hnd.1 (List.mem_map.mpr ⟨x, hx, hx2.trans hid.symm⟩)
        simp [this]
      rw [List.eraseP_cons, List.filter_cons]
      simp only [hp, if_true]
      simp [hid, hrest]
    · have hp2 : (d._id == clientId && d.addedBy == userId) = false := by simpa using hp
      rw [List.find?_cons, hp2] at h
      have hc := List.find?_some h
      have hcm := List.mem_of_find?_eq_some h
      have hcid : c._id = clientId := by
        simp only [Bool.and_eq_true, beq_iff_eq] at hc
        exact hc.1
      have hid : d._id ≠ clientId := by
        intro hd
        exact hnd.1 (List.mem_map.mpr ⟨c, hcm, hcid.trans hd.symm⟩)
      have hbne : (d._id != clientId) = true := by simp [hid]
      have hrec := eraseP_eq_filter_of_nodup clientId userId c cs hnd.2 h
      rw [List.eraseP_cons, List.filter_cons]
      simp only [hp2, hbne, if_true, Bool.false_eq_true, if_false, hrec, cond_false]

/-- C25: in a store whose Clients have distinct ids, Delete of a Client
owned by the requester is answered 200; afterwards the collection is the old
one without that Client, every other Client kept in place, the clients list
of the requester is the old one without any occurrence of the id, the other
entries in their order, every other user is as before, and no Client with
that id is stored. -/
theorem deleteClient_removes (userId clientId : ObjectId) (s : Store) (c : Client)
    (hkey : s.clientIdsUnique)
    (hclient : Client.findOwned clientId userId s = some c) :
    deleteClient userId clientId s =
      ({ users := s.users.map (fun u =>
            if u._id = userId then
              { u with clients := u.clients.filter (fun i => i != clientId) }
            else u)
         clients := s.clients.filter (fun d => d._id != clientId)
         notifications := s.notifications
         nextId := s.nextId },
        Reply.json 200 true "Client deleted successfully" Payload.none) ∧
    Client.findById clientId (deleteClient userId clientId s).1 = none := by
  have herase := eraseP_eq_filter_of_nodup clientId userId c s.clients hkey hclient
  have hrun : deleteClient userId clientId s =
      ({ users := s.users.map (fun u =>
            if u._id = userId then
              { u with clients := u.clients.filter (fun i => i != clientId) }
            else u)
         clients := s.clients.filter (fun d => d._id != clientId)
         notifications := s.notifications
         nextId := s.nextId },
        Reply.json 200 true "Client deleted successfully" Payload.none) := by
    simp only [deleteClient, IdParam.cast_objectId, hclient, herase, User.pullClient]
  refine ⟨hrun, ?_⟩
  rw [hrun]
  simp only [Client.findById]
  rw [List.find?_eq_none]
  intro d hd
  have := (List.mem_filter.mp hd).2
  simpa using this

theorem deleteClient_removes_witness :
    deleteClient 1 10 sampleStore =
      ({ users := sampleStore.users.map (fun (u : User) =>
            if u._id = 1 then
              { u with clients := u.clients.filter (fun i => i != 10) }
            else u)
         clients := sampleStore.clients.filter (fun d => d._id != 10)
         notifications := sampleStore.notifications
         nextId := sampleStore.nextId },
        Reply.json 200 true "Client deleted successfully" Payload.none) ∧
    Client.findById 10 (deleteClient 1 10 sampleStore).1 = none :=
  deleteClient_removes 1 10 sampleStore samplePending (by decide) (by decide)

/-! ## Amounts of schedules -/

theorem Client.save_amountsNonneg {env : Env} {now : Date} {c c1 : Client} {s s1 : Store}
    (hsave : Client.save env now false c s = Except.ok (c1, s1))
    (hc : ∀ p ∈ c.paymentSchedules, p.amountNonneg) (h : s.amountsNonneg) :
    s1.amountsNonneg := by
  obtain ⟨-, -, -, rfl⟩ := Client.save_ok hsave
  intro d hd p hp
  simp only [Bool.false_eq_true, if_false, List.mem_map] at hd
  obtain ⟨d0, hd0, hd1⟩ := hd
  by_cases hid : d0._id = c._id
  · simp only [hid, if_true] at hd1
    subst hd1
    exact hc p hp
  · simp only [hid, if_false] at hd1
    subst hd1
    exact h d0 hd0 p hp

theorem schedulePaymentNotification_amountsNonneg (now : Date) (client : Client)
    (p : PaymentSchedule) (s : Store) (h : s.amountsNonneg) :
    (schedulePaymentNotification now client p s).amountsNonneg := by
  intro d hd
  rw [schedulePaymentNotification_clients] at hd
  exact h d hd

/-- C26, as the code has it: starting from a store in which every schedule
has a nonnegative amount, CreateSchedule with an amount that is present and
nonnegative, and UpdateSchedule with a patch whose amount is absent or
nonnegative, leave every stored schedule with a nonnegative amount (whether
they succeed or fail). -/
theorem nonneg_amounts_preserved (env : Env) (now : Date) (userId : ObjectId) (s : Store)
    (h : s.amountsNonneg) :
    (∀ body : CreateScheduleBody, (∃ a, body.amount = some a ∧ 0 ≤ a) →
      (createSchedule env now userId body s).1.amountsNonneg) ∧
    (∀ (clientId : ObjectId) (scheduleIndex : IndexParam) (body : UpdateScheduleBody),
      (∀ a, body.amount = some a → 0 ≤ a) →
      (updateSchedule env now userId clientId scheduleIndex body s).1.amountsNonneg) := by
  constructor
  · intro body ⟨a, ha, ha0⟩
    unfold createSchedule
    split
    · exact h
    · rename_i castId _
      split
      · exact h
      · rename_i found hfound
        have hmem : found ∈ s.clients := by
          cases castId with
          | none => simp at hfound
          | some id => exact Client.findOwned_mem hfound
        split
        · exact h
        · split
          · exact h
          · dsimp only
            split
            · exact h
            · rename_i client s1 hsave
              apply schedulePaymentNotification_amountsNonneg
              apply Client.save_amountsNonneg hsave _ h
              intro p hp
              rcases List.mem_append.mp hp with hp | hp
              · exact h found hmem p hp
              · simp only [List.mem_singleton] at hp
                subst hp
                simp [PaymentSchedule.amountNonneg, ha, ha0]
  · intro clientId scheduleIndex body hbody
    simp only [updateSchedule, IdParam.cast_objectId]
    split
    · exact h
    · rename_i found hfound
      have hmem := Client.findOwned_mem hfound
      split
      · exact h
      · split
        · exact h
        · rename_i i p hlookup
          have hpmem : p ∈ found.paymentSchedules := by
            cases hk : scheduleIndex.key with
            | none => simp [hk] at hlookup
            | some j =>
              simp only [hk, Option.some_bind, Option.map_eq_some', Prod.mk.injEq] at hlookup
              obtain ⟨q, hq, -, hqp⟩ := hlookup
              subst hqp
              exact List.get?_mem hq
          split
          · exact h
          · split
            · exact h
            · rename_i client s1 hsave
              apply Client.save_amountsNonneg hsave _ h
              intro q hq
              rcases List.mem_or_eq_of_mem_set hq with hq | hq
              · exact h found hmem q hq
              · subst hq
                have hp0 := h found hmem p hpmem
                cases hb : body.amount with
                | none =>
                  simpa [PaymentSchedule.amountNonneg, PaymentSchedule.assign, assignOpt, hb]
                    using hp0
                | some a =>
                  have := hbody a hb
                  simp [PaymentSchedule.amountNonneg, PaymentSchedule.assign, assignOpt, hb,
                    this]

theorem nonneg_amounts_preserved_witness :
    (createSchedule sampleEnv 5 1
        { clientId := some 12, description := some "Invoice 3", amount := some 70,
          dueDate := some 9 } billingStore).1.amountsNonneg :=
  (nonneg_amounts_preserved sampleEnv 5 1 billingStore (by decide)).1
    { clientId := some 12, description := some "Invoice 3", amount := some 70,
      dueDate := some 9 } ⟨70, rfl, by decide⟩

/-- C26, counterexample: every schedule of the billing store has a
nonnegative amount; CreateSchedule with amount -5 is answered 201 and the
stored list of the Client then ends with a schedule of amount -5. -/
theorem createSchedule_negative_amount :
    billingStore.amountsNonneg ∧
    (createSchedule sampleEnv 5 1
        { clientId := some 12, description := some "Refund", amount := some (-5),
          dueDate := some 9 } billingStore).2.status? = some 201 ∧
    (Client.findOwned 12 1
        (createSchedule sampleEnv 5 1
          { clientId := some 12, description := some "Refund", amount := some (-5),
            dueDate := some 9 } billingStore).1).map
      (fun c => c.paymentSchedules.map (fun q => q.amount)) =
      some [some 100, some 250, some (-5)] ∧
    ¬ (createSchedule sampleEnv 5 1
        { clientId := some 12, description := some "Refund", amount := some (-5),
          dueDate := some 9 } billingStore).1.amountsNonneg := by
  decide

/-! ## List of schedules -/

theorem extendRun_append {α : Type} (order : α → α → Int) (descending : Bool) :
    ∀ (rest : List α) (prev : α),
      (extendRun order descending prev rest).1 ++ (extendRun order descending prev rest).2 =
        rest
  | [], _ => rfl
  | cur :: rest, prev => by
    unfold extendRun
    by_cases h : decide (order cur prev < 0) = descending
    · simp only [h, if_true, List.cons_append, extendRun_append order descending rest cur]
    · simp only [h, if_false, List.nil_append]

theorem extendRun_chain {α : Type} (order : α → α → Int) (descending : Bool)
    (P : α → Prop) (R : α → α → Prop)
    (hR : ∀ prev cur, P prev → P cur → decide (order cur prev < 0) = descending → R prev cur) :
    ∀ (rest : List α) (prev : α), P prev → (∀ x ∈ rest, P x) →
      List.Chain R prev (extendRun order descending prev rest).1
  | [], _, _, _ => List.Chain.nil
  | cur :: rest, prev, hprev, hrest => by
    unfold extendRun
    by_cases h : decide (order cur prev < 0) = descending
    · simp only [h, if_true]
      exact List.Chain.cons (hR prev cur hprev (hrest cur (by simp)) h)
        (extendRun_chain order descending P R hR rest cur (hrest cur (by simp))
          (fun x hx => hrest x (List.mem_cons_of_mem _ hx)))
    · simp only [h, if_false]
      exact List.Chain.nil

/-- The binary search finds the place of the pivot in a sorted segment: the
elements left of the insertion point are not above the pivot, the elements
from the insertion point on are above it. -/
theorem insertionPoint_spec {α : Type} (order : α → α → Int) (key : α → Int) (P : α → Prop)
    (hord : ∀ a b, P a → P b → (order a b < 0 ↔ key a < key b)) (pivot : α)
    (hpivot : P pivot) :
    ∀ (fuel : Nat) (seg : List α), seg.length ≤ fuel → (∀ x ∈ seg, P x) →
      seg.Pairwise (fun a b => key a ≤ key b) →
      insertionPoint order pivot fuel seg ≤ seg.length ∧
      (∀ x ∈ seg.take (insertionPoint order pivot fuel seg), key x ≤ key pivot) ∧
      (∀ x ∈ seg.drop (insertionPoint order pivot fuel seg), key pivot < key x)
  | 0, seg, hlen, _, _ => by
    have hnil : seg = [] := List.length_eq_zero.mp (Nat.le_zero.mp hlen)
    subst hnil
    simp [insertionPoint]
  | fuel + 1, seg, hlen, hP, hsorted => by
    unfold insertionPoint
    cases hmid : seg.get? (seg.length / 2) with
    | none =>
      have hge : seg.length ≤ seg.length / 2 := List.get?_eq_none.mp hmid
      have hzero : seg.length = 0 := by omega
      have hnil : seg = [] := List.length_eq_zero.mp hzero
      subst hnil
      simp
    | some mid =>
      have hm : seg.length / 2 < seg.length := List.get?_lt_length hmid
      have hsplit : seg = seg.take (seg.length / 2) ++ mid :: seg.drop (seg.length / 2 + 1) := by
        have h1 := (List.take_append_drop (seg.length / 2) seg).symm
        have h2 : seg.drop (seg.length / 2) = mid :: seg.drop (seg.length / 2 + 1) := by
          rw [List.drop_eq_getElem_cons hm]
          congr 1
          rw [List.get?_eq_getElem?, List.getElem?_eq_getElem hm] at hmid
          exact Option.some.inj hmid
        rw [h2] at h1
        exact h1
      have hmidmem : mid ∈ seg := List.get?_mem hmid
      have hPmid : P mid := hP mid hmidmem
      have hltake : (seg.take (seg.length / 2)).length = seg.length / 2 := by
        rw [List.length_take]; omega
      have hsorted2 := hsorted
      rw [hsplit, List.pairwise_append] at hsorted2
      obtain ⟨hsl, hsr, hcross⟩ := hsorted2
      rw [List.pairwise_cons] at hsr
      by_cases hlt : order pivot mid < 0
      · simp only [hlt, if_true]
        have hkey : key pivot < key mid := (hord pivot mid hpivot hPmid).mp hlt
        obtain ⟨hk, hleft, hright⟩ := insertionPoint_spec order key P hord pivot hpivot fuel
          (seg.take (seg.length / 2)) (by rw [hltake]; omega)
          (fun x hx => hP x (List.mem_of_mem_take hx)) hsl
        rw [hltake] at hk
        refine ⟨by omega, ?_, ?_⟩
        · intro x hx
          apply hleft x
          rw [List.take_take, Nat.min_eq_left hk]
          exact hx
        · intro x hx
          have hx2 : x ∈ (seg.take (seg.length / 2)).drop
              (insertionPoint order pivot fuel (seg.take (seg.length / 2))) ∨
              x ∈ seg.drop (seg.length / 2) := by
            have hmem : x ∈ ((seg.take (seg.length / 2)) ++ seg.drop (seg.length / 2)).drop
                (insertionPoint order pivot fuel (seg.take (seg.length / 2))) := by
              rw [List.take_append_drop]
              exact hx
            rw [List.drop_append_of_le_length (by rw [hltake]; exact hk)] at hmem
            exact List.mem_append.mp hmem
          rcases hx2 with hx2 | hx2
          · exact hright x hx2
          · have hx3 : x ∈ mid :: seg.drop (seg.length / 2 + 1) := by
              rw [List.drop_eq_getElem_cons hm] at hx2
              rw [List.get?_eq_getElem?, List.getElem?_eq_getElem hm] at hmid
              rw [Option.some.inj hmid] at hx2
              exact hx2
            rcases List.mem_cons.mp hx3 with hx3 | hx3
            · rw [hx3]; exact hkey
            · exact lt_of_lt_of_le hkey (hsr.1 x hx3)
      · simp only [hlt, if_false]
        have hkey : key mid ≤ key pivot := by
          have := (hord pivot mid hpivot hPmid).not.mp hlt
          exact not_lt.mp this
        obtain ⟨hk, hleft, hright⟩ := insertionPoint_spec order key P hord pivot hpivot fuel
          (seg.drop (seg.length / 2 + 1)) (by rw [List.length_drop]; omega)
          (fun x hx => hP x (List.mem_of_mem_drop hx)) hsr.2
        rw [List.length_drop] at hk
        refine ⟨by omega, ?_, ?_⟩
        · intro x hx
          have hmid2 : seg[seg.length / 2]? = some mid := by
            rw [← List.get?_eq_getElem?]; exact hmid
          rw [List.take_add, List.take_succ, hmid2] at hx
          rcases List.mem_append.mp hx with hx | hx
          · rcases List.mem_append.mp hx with hx | hx
            · exact le_trans (hcross x hx mid (by simp)) hkey
            · simp only [Option.toList_some, List.mem_singleton] at hx
              rw [hx]; exact hkey
          · exact hleft x hx
        · intro x hx
          apply hright x
          rw [List.drop_drop]
          exact hx


theorem binaryInsert_perm {α : Type} (order : α → α → Int) (sorted : List α) (pivot : α) :
    (binaryInsert order sorted pivot).Perm (pivot :: sorted) := by
  unfold binaryInsert
  refine List.perm_middle.trans ?_
  rw [List.take_append_drop]

theorem binaryInsert_sorted {α : Type} (order : α → α → Int) (key : α → Int) (P : α → Prop)
    (hord : ∀ a b, P a → P b → (order a b < 0 ↔ key a < key b)) (sorted : List α)
    (pivot : α) (hpivot : P pivot) (hP : ∀ x ∈ sorted, P x)
    (hsorted : sorted.Pairwise (fun a b => key a ≤ key b)) :
    (binaryInsert order sorted pivot).Pairwise (fun a b => key a ≤ key b) := by
  obtain ⟨-, hleft, hright⟩ := insertionPoint_spec order key P hord pivot hpivot
    sorted.length sorted (le_refl _) hP hsorted
  unfold binaryInsert
  have hsplit := hsorted
  rw [← List.take_append_drop (insertionPoint order pivot sorted.length sorted) sorted,
    List.pairwise_append] at hsplit
  obtain ⟨hl, hr, hcross⟩ := hsplit
  rw [List.pairwise_append]
  refine ⟨hl, List.pairwise_cons.mpr ⟨fun x hx => le_of_lt (hright x hx), hr⟩, ?_⟩
  intro a ha b hb
  rcases List.mem_cons.mp hb with hb | hb
  · rw [hb]; exact hleft a ha
  · exact hcross a ha b hb

theorem foldl_binaryInsert_perm {α : Type} (order : α → α → Int) :
    ∀ (tail init : List α), (tail.foldl (binaryInsert order) init).Perm (init ++ tail)
  | [], init => by simp
  | a :: tail, init => by
    rw [List.foldl_cons]
    refine (foldl_binaryInsert_perm order tail (binaryInsert order init a)).trans ?_
    refine (List.Perm.append_right tail (binaryInsert_perm order init a)).trans ?_
    simp only [List.cons_append]
    exact List.perm_middle.symm

theorem foldl_binaryInsert_sorted {α : Type} (order : α → α → Int) (key : α → Int)
    (P : α → Prop) (hord : ∀ a b, P a → P b → (order a b < 0 ↔ key a < key b)) :
    ∀ (tail init : List α), (∀ x ∈ tail, P x) → (∀ x ∈ init, P x) →
      init.Pairwise (fun a b => key a ≤ key b) →
      (tail.foldl (binaryInsert order) init).Pairwise (fun a b => key a ≤ key b)
  | [], _, _, _, hinit => by simpa using hinit
  | a :: tail, init, htail, hPinit, hinit => by
    rw [List.foldl_cons]
    apply foldl_binaryInsert_sorted order key P hord tail
    · exact fun x hx => htail x (List.mem_cons_of_mem _ hx)
    · intro x hx
      rcases List.mem_cons.mp ((binaryInsert_perm order init a).subset hx) with h | h
      · rw [h]; exact htail a (by simp)
      · exact hPinit x h
    · exact binaryInsert_sorted order key P hord init a (htail a (by simp)) hPinit hinit

/-- The sort returns the elements of the array, whatever the comparator. -/
theorem arraySort_perm {α : Type} (comparefn : α → α → Option Int) :
    ∀ l : List α, (arraySort comparefn l).Perm l
  | [] => List.Perm.refl _
  | [a] => List.Perm.refl _
  | a0 :: a1 :: rest => by
    unfold arraySort
    dsimp only
    refine (foldl_binaryInsert_perm _ _ _).trans ?_
    have happ := extendRun_append (sortOrder comparefn)
      (decide (sortOrder comparefn a1 a0 < 0)) rest a1
    have hrun : (if decide (sortOrder comparefn a1 a0 < 0) = true then
          (a0 :: a1 :: (extendRun (sortOrder comparefn)
            (decide (sortOrder comparefn a1 a0 < 0)) a1 rest).1).reverse
        else a0 :: a1 :: (extendRun (sortOrder comparefn)
            (decide (sortOrder comparefn a1 a0 < 0)) a1 rest).1).Perm
        (a0 :: a1 :: (extendRun (sortOrder comparefn)
            (decide (sortOrder comparefn a1 a0 < 0)) a1 rest).1) := by
      split
      · exact List.reverse_perm _
      · exact List.Perm.refl _
    refine (List.Perm.append_right _ hrun).trans ?_
    simp only [List.cons_append, happ]
    exact List.Perm.refl _

/-- With a comparator that orders the elements by a key, the sort returns
them with the keys in non-decreasing order. -/
theorem arraySort_sorted {α : Type} (comparefn : α → α → Option Int) (key : α → Int)
    (P : α → Prop)
    (hord : ∀ a b, P a → P b → (sortOrder comparefn a b < 0 ↔ key a < key b)) :
    ∀ l : List α, (∀ x ∈ l, P x) →
      (arraySort comparefn l).Pairwise (fun a b => key a ≤ key b)
  | [], _ => List.Pairwise.nil
  | [a], _ => List.pairwise_singleton _ _
  | a0 :: a1 :: rest, hP => by
    have hP0 : P a0 := hP a0 (by simp)
    have hP1 : P a1 := hP a1 (by simp)
    have hPrest : ∀ x ∈ rest, P x := fun x hx => hP x (by simp [hx])
    have happ := extendRun_append (sortOrder comparefn)
      (decide (sortOrder comparefn a1 a0 < 0)) rest a1
    have hPrun : ∀ x ∈ (extendRun (sortOrder comparefn)
        (decide (sortOrder comparefn a1 a0 < 0)) a1 rest).1, P x := by
      intro x hx
      apply hPrest
      rw [← happ]
      exact List.mem_append_left _ hx
    have hPtail : ∀ x ∈ (extendRun (sortOrder comparefn)
        (decide (sortOrder comparefn a1 a0 < 0)) a1 rest).2, P x := by
      intro x hx
      apply hPrest
      rw [← happ]
      exact List.mem_append_right _ hx
    unfold arraySort
    dsimp only
    apply foldl_binaryInsert_sorted (sortOrder comparefn) key P hord
    · exact hPtail
    · intro x hx
      have hx2 : x ∈ a0 :: a1 :: (extendRun (sortOrder comparefn)
          (decide (sortOrder comparefn a1 a0 < 0)) a1 rest).1 := by
        split at hx
        · exact List.mem_reverse.mp hx
        · exact hx
      rcases List.mem_cons.mp hx2 with h | h
      · rw [h]; exact hP0
      · rcases List.mem_cons.mp h with h | h
        · rw [h]; exact hP1
        · exact hPrun x h
    · by_cases hdesc : sortOrder comparefn a1 a0 < 0
      · have hd : decide (sortOrder comparefn a1 a0 < 0) = true := decide_eq_true hdesc
        simp only [hd, if_true]
        rw [List.pairwise_reverse]
        have hchain : List.Chain (fun a b => key b < key a) a1
            (extendRun (sortOrder comparefn) true a1 rest).1 :=
          extendRun_chain (sortOrder comparefn) true P (fun a b => key b < key a)
            (fun prev cur hp hc h =>
              (hord cur prev hc hp).mp (of_decide_eq_true h)) rest a1 hP1 hPrest
        have hchain2 : List.Chain (fun a b => key b < key a) a0
            (a1 :: (extendRun (sortOrder comparefn) true a1 rest).1) :=
          List.Chain.cons ((hord a1 a0 hP1 hP0).mp hdesc) hchain
        have hpw : (a0 :: a1 :: (extendRun (sortOrder comparefn) true a1 rest).1).Pairwise
            (fun a b => key b < key a) := by
          haveI : IsTrans α (fun a b => key b < key a) := ⟨fun a b c h1 h2 => lt_trans h2 h1⟩
          exact List.chain_iff_pairwise.mp hchain2
        rw [hd] at *
        exact hpw.imp (fun h => le_of_lt h)
      · have hd : decide (sortOrder comparefn a1 a0 < 0) = false := decide_eq_false hdesc
        simp only [hd, Bool.false_eq_true, if_false]
        have hchain : List.Chain (fun a b => key a ≤ key b) a1
            (extendRun (sortOrder comparefn) false a1 rest).1 :=
          extendRun_chain (sortOrder comparefn) false P (fun a b => key a ≤ key b)
            (fun prev cur hp hc h =>
              not_lt.mp ((hord cur prev hc hp).not.mp (of_decide_eq_false h))) rest a1 hP1
            hPrest
        have hchain2 : List.Chain (fun a b => key a ≤ key b) a0
            (a1 :: (extendRun (sortOrder comparefn) false a1 rest).1) :=
          List.Chain.cons (not_lt.mp ((hord a1 a0 hP1 hP0).not.mp hdesc)) hchain
        haveI : IsTrans α (fun a b => key a ≤ key b) := ⟨fun a b c h1 h2 => le_trans h1 h2⟩
        exact List.chain_iff_pairwise.mp hchain2

theorem sortOrder_dueDate (a b : PaymentSchedule) (ha : a.dueDate ≠ none)
    (hb : b.dueDate ≠ none) :
    sortOrder dueDateCompare a b < 0 ↔ a.dueDate.getD 0 < b.dueDate.getD 0 := by
  obtain ⟨x, hx⟩ := Option.ne_none_iff_exists'.mp ha
  obtain ⟨y, hy⟩ := Option.ne_none_iff_exists'.mp hb
  simp only [sortOrder, dueDateCompare, hx, hy, Option.getD_some]
  exact sub_neg

/-- C28, as the code has it: for a Client owned by the requester the list
route answers with a list that is a permutation of the schedules of the
Client, or of those whose status equals the filter when one is given, and the
store is unchanged.  When every schedule of the Client has a due date, the
due dates in the list do not decrease. -/
theorem listSchedules_sorted (userId clientId : ObjectId) (status : Option String)
    (s : Store) (c : Client)
    (hclient : Client.findOwned clientId userId s = some c) :
    ∃ ps : List PaymentSchedule,
      listSchedules userId clientId status s =
        (s, Reply.data (Payload.paymentSchedules ps)) ∧
      ps.Perm (if truthy status then
          c.paymentSchedules.filter (fun p => p.status == status.getD "")
        else c.paymentSchedules) ∧
      ((∀ p ∈ c.paymentSchedules, p.dueDate ≠ none) →
        ps.Pairwise (fun p q => ∀ x y, p.dueDate = some x → q.dueDate = some y → x ≤ y)) := by
  refine ⟨arraySort dueDateCompare (if truthy status then
      c.paymentSchedules.filter (fun p => p.status == status.getD "")
    else c.paymentSchedules), ?_, arraySort_perm _ _, ?_⟩
  · simp only [listSchedules, IdParam.cast_objectId, hclient]
  · intro hdates
    have hsorted := arraySort_sorted dueDateCompare (fun p => p.dueDate.getD 0)
      (fun p => p.dueDate ≠ none) sortOrder_dueDate
      (if truthy status then
        c.paymentSchedules.filter (fun p => p.status == status.getD "")
      else c.paymentSchedules)
      (by
        intro p hp
        split at hp
        · exact hdates p (List.mem_filter.mp hp).1
        · exact hdates p hp)
    refine hsorted.imp ?_
    intro p q hpq x y hx hy
    simpa [hx, hy] using hpq

theorem listSchedules_sorted_witness :
    ∃ ps : List PaymentSchedule,
      listSchedules 1 12 none billingStore =
        (billingStore, Reply.data (Payload.paymentSchedules ps)) ∧
      ps.Perm (if truthy none then
          sampleBilled.paymentSchedules.filter
            (fun p => p.status == (none : Option String).getD "")
        else sampleBilled.paymentSchedules) ∧
      ps.Pairwise (fun p q => ∀ x y, p.dueDate = some x → q.dueDate = some y → x ≤ y) :=
  match listSchedules_sorted 1 12 none billingStore sampleBilled (by decide) with
  | ⟨ps, hreply, hperm, hsorted⟩ => ⟨ps, hreply, hperm, hsorted (by decide)⟩

/-- C28, counterexample: user 1 sends PUT for its billed Client with three
schedules, due at 50, without a due date, and due at 10; the request is
answered 200 and the schedules are stored in that order.  The list route
then answers with the schedules in the stored order, due 50 before due 10:
every comparison with the schedule without a date gives NaN, which the sort
takes as equal, so the whole array counts as one ascending run. -/
theorem listSchedules_undated_unsorted :
    (updateClient sampleEnv 5 1 12
        { paymentSchedules := some [{ dueDate := some 50 }, { }, { dueDate := some 10 }] }
        billingStore).2.status? = some 200 ∧
    (Client.findOwned 12 1
        (updateClient sampleEnv 5 1 12
          { paymentSchedules := some [{ dueDate := some 50 }, { }, { dueDate := some 10 }] }
          billingStore).1).map (fun c => c.paymentSchedules.map (fun p => p.dueDate)) =
      some [some 50, none, some 10] ∧
    (listSchedules 1 12 none
        (updateClient sampleEnv 5 1 12
          { paymentSchedules := some [{ dueDate := some 50 }, { }, { dueDate := some 10 }] }
          billingStore).1).2 =
      Reply.data (Payload.paymentSchedules
        [{ dueDate := some 50, createdAt := some 5 }, { createdAt := some 5 },
         { dueDate := some 10, createdAt := some 5 }]) := by
  decide

/-- The order of the sort on the schedules due at 30, due at 20, without a
due date, due at 10: the descending run of the first two is reversed and the
other two are put in place by binary insertion, which gives due 10, due 20,
due 30, no date. -/
theorem arraySort_mixed_dates :
    (arraySort dueDateCompare
        [({ dueDate := some 30 } : PaymentSchedule), { dueDate := some 20 }, { },
         { dueDate := some 10 }]).map (fun p => p.dueDate) =
      [some 10, some 20, some 30, none] := by
  decide

/-! ## Consistency of the clients lists -/

/-- C29, the failing requests: starting from the store with the two users
and no Client, user 1 creates a Client for the address of user 2 (pending,
id 20, appended to the list of user 1), user 2 rejects it (rejected, id
removed from the list), then user 2 accepts it (Respond does not look at the
current status).  All three requests succeed, and afterwards the stored
Client 20 of user 1 is active while the clients list of user 1 is empty. -/
theorem accept_after_reject_breaks_list :
    (createClient sampleEnv 1 1
        { name := some "Two", email := some "u2@x.com", companyName := some "Two" }
        freshStore).2.status? = some 201 ∧
    (respondToClient sampleEnv 2 2 20 false
        (createClient sampleEnv 1 1
          { name := some "Two", email := some "u2@x.com", companyName := some "Two" }
          freshStore).1).2.status? = some 200 ∧
    (respondToClient sampleEnv 3 2 20 true
        (respondToClient sampleEnv 2 2 20 false
          (createClient sampleEnv 1 1
            { name := some "Two", email := some "u2@x.com", companyName := some "Two" }
            freshStore).1).1).2.status? = some 200 ∧
    (Client.findById 20
        (respondToClient sampleEnv 3 2 20 true
          (respondToClient sampleEnv 2 2 20 false
            (createClient sampleEnv 1 1
              { name := some "Two", email := some "u2@x.com", companyName := some "Two" }
              freshStore).1).1).1).map (fun c => (c.addedBy, c.status)) =
      some (1, "active") ∧
    (User.findById 1
        (respondToClient sampleEnv 3 2 20 true
          (respondToClient sampleEnv 2 2 20 false
            (createClient sampleEnv 1 1
              { name := some "Two", email := some "u2@x.com", companyName := some "Two" }
              freshStore).1).1).1).map (fun u => u.clients) = some [] := by
  decide

/-! ## Repeated Respond -/

theorem User.findById_map (f : User → User) (hf : ∀ u, (f u)._id = u._id) (uid : ObjectId) :
    ∀ us : List User, (us.map f).find? (fun u => u._id == uid) =
      (us.find? (fun u => u._id == uid)).map f
  | [] => rfl
  | u :: us => by
    by_cases hu : u._id = uid
    · simp [hf, hu]
    · have h1 : (u._id == uid) = false := by simp [hu]
      have h2 : ((f u)._id == uid) = false := by simp [hf, hu]
      rw [List.map_cons, List.find?_cons, h2, List.find?_cons, h1]
      exact User.findById_map f hf uid us

theorem Client.validate_saved (env : Env) (c : Client) (status : String) (now : Date)
    (hv : c.validate env = true) (hs : status ∈ clientStatusEnum) :
    Client.validate env { c with status := status, updatedAt := now } = true :=
  Client.validate_status env c status hv hs

/-- One Respond of the addressed counterpart on a stored Client that
satisfies the schema, whatever the status of the Client: the reply is 200,
one Notification for the owner is stored, the Client has the status of the
answer, and the conditions for a further Respond hold again. -/
theorem respondToClient_step (env : Env) (now : Date) (userId clientId : ObjectId)
    (accept : Bool) (s : Store) (c : Client) (u : User)
    (hclient : Client.findById clientId s = some c)
    (hschema : c.validate env = true)
    (huser : User.findById userId s = some u)
    (hemail : u.email = c.email) :
    (respondToClient env now userId clientId accept s).2.status? = some 200 ∧
    (∃ n : Notification,
      (respondToClient env now userId clientId accept s).1.notifications =
        s.notifications ++ [n] ∧
      n.type = "client_add_response" ∧ n.user = c.addedBy) ∧
    (∃ (c1 : Client) (u1 : User),
      Client.findById clientId (respondToClient env now userId clientId accept s).1 =
        some c1 ∧
      c1.validate env = true ∧ c1.addedBy = c.addedBy ∧ c1.email = c.email ∧
      c1.status = (if accept then "active" else "rejected") ∧
      User.findById userId (respondToClient env now userId clientId accept s).1 = some u1 ∧
      u1.email = c1.email) := by
  have hid := Client.findById_id hclient
  subst hid
  cases accept with
  | true =>
    have hval := Client.validate_status env c "active" hschema (by simp [clientStatusEnum])
    have hkey : Client.keyTaken false { c with status := "active" } s = false :=
      Client.keyTaken_stored (List.mem_of_find?_eq_some hclient) rfl rfl rfl
    have hrun : respondToClient env now userId c._id true s =
        ({ users := s.users
           clients := s.clients.map (fun d =>
              if d._id = c._id then { c with status := "active", updatedAt := now } else d)
           notifications := s.notifications ++ [clientAddResponseNotification now s.nextId
              { c with status := "active", updatedAt := now } true]
           nextId := s.nextId + 1 },
          Reply.json 200 true "Client request accepted successfully"
            (Payload.client { c with status := "active", updatedAt := now })) := by
      simp [respondToClient, IdParam.cast, hclient, huser, hemail, Client.save, hval, hkey,
        Notification.save]
    rw [hrun]
    refine ⟨rfl, ⟨_, rfl, rfl, rfl⟩,
      ⟨{ c with status := "active", updatedAt := now }, u, ?_, ?_, rfl, rfl, rfl, huser,
        hemail⟩⟩
    · exact find_map_replace c._id c { c with status := "active", updatedAt := now } rfl
        s.clients hclient
    · exact Client.validate_saved env c "active" now hschema (by simp [clientStatusEnum])
  | false =>
    have hval := Client.validate_status env c "rejected" hschema (by simp [clientStatusEnum])
    have hkey : Client.keyTaken false { c with status := "rejected" } s = false :=
      Client.keyTaken_stored (List.mem_of_find?_eq_some hclient) rfl rfl rfl
    have hrun : respondToClient env now userId c._id false s =
        ({ users := s.users.map (fun w =>
              if w._id = c.addedBy then
                { w with clients := w.clients.filter (fun i => i != c._id) }
              else w)
           clients := s.clients.map (fun d =>
              if d._id = c._id then { c with status := "rejected", updatedAt := now } else d)
           notifications := s.notifications ++ [clientAddResponseNotification now s.nextId
              { c with status := "rejected", updatedAt := now } false]
           nextId := s.nextId + 1 },
          Reply.json 200 true "Client request rejected"
            (Payload.client { c with status := "rejected", updatedAt := now })) := by
      simp [respondToClient, IdParam.cast, hclient, huser, hemail, Client.save, hval, hkey,
        Notification.save, User.pullClient]
    rw [hrun]
    have husers := User.findById_map (fun w =>
        if w._id = c.addedBy then
          { w with clients := w.clients.filter (fun i => i != c._id) }
        else w) (by intro w; by_cases hw : w._id = c.addedBy <;> simp [hw]) userId s.users
    refine ⟨rfl, ⟨_, rfl, rfl, rfl⟩,
      ⟨{ c with status := "rejected", updatedAt := now },
        (fun (w : User) =>
          if w._id = c.addedBy then
            { w with clients := w.clients.filter (fun i => i != c._id) }
          else w) u, ?_, ?_, rfl, rfl, rfl, ?_, ?_⟩⟩
    · exact find_map_replace c._id c { c with status := "rejected", updatedAt := now } rfl
        s.clients hclient
    · exact Client.validate_saved env c "rejected" now hschema (by simp [clientStatusEnum])
    · simp only [User.findById] at huser ⊢
      rw [husers, huser]
      rfl
    · by_cases hw : u._id = c.addedBy <;> simp [hw, hemail]

/-- C27: Respond does not look at the current status.  For a stored Client
that satisfies the schema, in whatever status, and a responder whose address
is the address of the Client, every one of k successive Respond requests
(with any `accept` flags, at any times) is answered 200, and together they
store exactly k Notifications, each of type client_add_response and
addressed to the owner; after the last request the Client has the status
that request asked for. -/
theorem respond_repeated (env : Env) (userId clientId : ObjectId)
    (calls : List (Date × Bool)) :
    ∀ (s : Store) (c : Client) (u : User),
      Client.findById clientId s = some c → c.validate env = true →
      User.findById userId s = some u → u.email = c.email →
      ∃ ns : List Notification,
        (respondAll env userId clientId calls s).1.notifications = s.notifications ++ ns ∧
        ns.length = calls.length ∧
        (∀ n ∈ ns, n.type = "client_add_response" ∧ n.user = c.addedBy) ∧
        (respondAll env userId clientId calls s).2.length = calls.length ∧
        (∀ r ∈ (respondAll env userId clientId calls s).2, r.status? = some 200) ∧
        (∀ now accept, calls.getLast? = some (now, accept) →
          ∃ c1, Client.findById clientId (respondAll env userId clientId calls s).1 = some c1 ∧
            c1.status = (if accept then "active" else "rejected")) := by
  induction calls with
  | nil =>
    intro s c u _ _ _ _
    exact ⟨[], by simp [respondAll], rfl, by simp, rfl, by simp [respondAll], by simp⟩
  | cons call rest ih =>
    intro s c u hclient hschema huser hemail
    obtain ⟨now, accept⟩ := call
    obtain ⟨hok, ⟨n, hn, hnt, hnu⟩, c1, u1, hc1, hv1, ha1, he1, hs1, hu1, hue1⟩ :=
      respondToClient_step env now userId clientId accept s c u hclient hschema huser hemail
    obtain ⟨ns, hns, hlen, hall, hrlen, hrs, hlast⟩ :=
      ih (respondToClient env now userId clientId accept s).1 c1 u1 hc1 hv1 hu1 hue1
    refine ⟨n :: ns, ?_, by simp [hlen], ?_, by simp [respondAll, hrlen], ?_, ?_⟩
    · simp only [respondAll]
      rw [hns, hn]
      simp
    · intro m hm
      rcases List.mem_cons.mp hm with hm | hm
      · subst hm
        exact ⟨hnt, hnu⟩
      · have := hall m hm
        rw [ha1] at this
        exact this
    · intro r hr
      simp only [respondAll, List.mem_cons] at hr
      rcases hr with hr | hr
      · rw [hr]; exact hok
      · exact hrs r hr
    · intro now2 accept2 hl
      cases rest with
      | nil =>
        simp only [List.getLast?_singleton, Option.some.injEq, Prod.mk.injEq] at hl
        obtain ⟨-, rfl⟩ := hl
        exact ⟨c1, by simpa [respondAll] using hc1, hs1⟩
      | cons call2 rest2 =>
        rw [List.getLast?_cons_cons] at hl
        simpa only [respondAll] using hlast now2 accept2 hl

theorem respond_repeated_witness :
    ∃ ns : List Notification,
      (respondAll sampleEnv 2 10 [(5, true), (6, false), (7, true)] sampleStore).1.notifications
        = sampleStore.notifications ++ ns ∧
      ns.length = [((5 : Date), true), (6, false), (7, true)].length ∧
      (∀ n ∈ ns, n.type = "client_add_response" ∧ n.user = samplePending.addedBy) ∧
      (respondAll sampleEnv 2 10 [(5, true), (6, false), (7, true)] sampleStore).2.length =
        [((5 : Date), true), (6, false), (7, true)].length ∧
      (∀ r ∈ (respondAll sampleEnv 2 10 [(5, true), (6, false), (7, true)] sampleStore).2,
        r.status? = some 200) ∧
      (∀ now accept, [((5 : Date), true), (6, false), (7, true)].getLast? = some (now, accept) →
        ∃ c1, Client.findById 10
            (respondAll sampleEnv 2 10 [(5, true), (6, false), (7, true)] sampleStore).1 =
              some c1 ∧
          c1.status = (if accept then "active" else "rejected")) :=
  respond_repeated sampleEnv 2 10 [(5, true), (6, false), (7, true)] sampleStore samplePending
    sampleCounterpart (by decide) (by decide) (by decide) (by decide)

/-! ## The payment-link round trip -/

theorem Client.findById_of_findOwned {clientId userId : ObjectId} {c : Client} :
    ∀ cs : List Client, (cs.map (fun d => d._id)).Nodup →
      cs.find? (fun d => d._id == clientId && d.addedBy == userId) = some c →
      cs.find? (fun d => d._id == clientId) = some c
  | [], _, h => by simp at h
  | d :: cs, hnd, h => by
    rw [List.map_cons, List.nodup_cons] at hnd
    by_cases hp : (d._id == clientId && d.addedBy == userId) = true
    · have hdc : d = c := by simpa [List.find?_cons, hp] using h
      have hid : d._id = clientId := by
        simp only [Bool.and_eq_true, beq_iff_eq] at hp
        exact hp.1
      subst hdc
      have hbeq : (d._id == clientId) = true := by simp [hid]
      rw [List.find?_cons, hbeq]
    · have hp2 : (d._id == clientId && d.addedBy == userId) = false := by simpa using hp
      rw [List.find?_cons, hp2] at h
      have hc := List.find?_some h
      have hcm := List.mem_of_find?_eq_some h
      have hcid : c._id = clientId := by
        simp only [Bool.and_eq_true, beq_iff_eq] at hc
        exact hc.1
      have hid : (d._id == clientId) = false := by
        have : d._id ≠ clientId := by
          intro hd
          exact hnd.1 (List.mem_map.mpr ⟨c, hcm, hcid.trans hd.symm⟩)
        simp [this]
      rw [List.find?_cons, hid]
      exact Client.findById_of_findOwned cs hnd.2 h

/-- What the webhook does with a verified checkout.session.completed event
that names a stored Client satisfying the schema, an index in range and a
user id. -/
theorem webhook_paid_outcome (env : Env) (now : Date) (clientId userId : ObjectId) (i : Nat)
    (s : Store) (c : Client) (p : PaymentSchedule)
    (hclient : Client.findById clientId s = some c)
    (hschema : c.validate env = true)
    (hi : c.paymentSchedules.get? i = some p) :
    webhook env now
        (Except.ok { type := "checkout.session.completed"
                     metadata := { clientId := some clientId
                                   scheduleIndex := some (IndexParam.index i)
                                   userId := some userId } }) s =
      ({ users := s.users
         clients := s.clients.map (fun d =>
            if d._id = clientId then
              { c with
                paymentSchedules := c.paymentSchedules.set i { p with status := "paid" }
                updatedAt := now }
            else d)
         notifications := s.notifications ++
            [paymentReceivedNotification now s.nextId userId
              { c with
                paymentSchedules := c.paymentSchedules.set i { p with status := "paid" }
                updatedAt := now } { p with status := "paid" }]
         nextId := s.nextId + 1 },
        Reply.received) := by
  have hlt := List.get?_lt_length hi
  have hcid := Client.findById_id hclient
  subst hcid
  have hpv := PaymentSchedule.validate_of_mem env c p hschema (List.get?_mem hi)
  have hval := Client.validate_set env c i { p with status := "paid" } hschema
    (PaymentSchedule.validate_paid p hpv)
  have hsaved := Client.save_stored env now
    { c with paymentSchedules := c.paymentSchedules.set i { p with status := "paid" } } c s
    (List.mem_of_find?_eq_some hclient) rfl rfl rfl hval
  simp only [webhook, if_true, IdParam.cast_objectId, hclient, IndexParam.ltLength, hlt,
    decide_True, IndexParam.key, Option.some_bind, hi, Option.map_some', hsaved,
    Notification.save, Bool.false_eq_true, if_false]

/-- C30, as the code has it: in a store whose Clients have distinct ids, for
a Client `c` of the requester that satisfies the schema and an index `i` in
range whose schedule has a currency, create-payment-link calls the provider
with the metadata (clientId, i, requester), the two ids as strings, and
leaves the store as it was.  That metadata, delivered in a verified
checkout.session.completed webhook against the same store, is acknowledged
with `received: true`, stores `c` with schedule `i` paid and every other
schedule and every other Client as before, and stores one payment_received
Notification addressed to the requester.  A webhook whose index is at or
above the number of schedules, or whose clientId is a well-formed ObjectId
that names no stored Client, changes nothing and is acknowledged the same
way.  A webhook with an index whose clientId is not a well-formed ObjectId
changes nothing and is not acknowledged: `Client.findById` throws a
CastError outside any `try` block and the handler sends no reply. -/
theorem payment_link_round_trip (env : Env) (provider : Provider) (now : Date)
    (userId clientId : ObjectId) (i : Nat) (body : PaymentLinkBody) (s : Store)
    (c : Client) (p : PaymentSchedule) (currency : String)
    (hkey : s.clientIdsUnique)
    (hbodyId : body.clientId = some (IdParam.objectId clientId))
    (hbodyIndex : body.scheduleIndex = some (IndexParam.index i))
    (hclient : Client.findOwned clientId userId s = some c)
    (hschema : c.validate env = true)
    (hi : c.paymentSchedules.get? i = some p)
    (hcurrency : p.currency = some currency) :
    ∃ (request : PaymentLinkRequest) (n : Notification),
      request.metadata =
        { clientId := some (IdParam.objectId clientId)
          scheduleIndex := some (IndexParam.index i)
          userId := some (IdParam.objectId userId) } ∧
      createPaymentLink env provider userId body s =
        (match provider.create request with
         | Except.error e => (s, Reply.next e)
         | Except.ok link => (s, Reply.data (Payload.paymentLink link.1 link.2))) ∧
      webhook env now
          (Except.ok { type := "checkout.session.completed", metadata := request.metadata })
          s =
        ({ users := s.users
           clients := s.clients.map (fun d =>
              if d._id = clientId then
                { c with
                  paymentSchedules := c.paymentSchedules.set i { p with status := "paid" }
                  updatedAt := now }
              else d)
           notifications := s.notifications ++ [n]
           nextId := s.nextId + 1 },
          Reply.received) ∧
      n.type = "payment_received" ∧ n.user = userId ∧
      (∀ j, j ≠ i →
        (c.paymentSchedules.set i { p with status := "paid" }).get? j =
          c.paymentSchedules.get? j) ∧
      (∀ (k : Nat) (uid : Option IdParam), c.paymentSchedules.length ≤ k →
        webhook env now
            (Except.ok { type := "checkout.session.completed"
                         metadata := { clientId := some (IdParam.objectId clientId)
                                       scheduleIndex := some (IndexParam.index k)
                                       userId := uid } }) s =
          (s, Reply.received)) ∧
      (∀ (unknown : ObjectId) (index : Option IndexParam) (uid : Option IdParam),
        (∀ d ∈ s.clients, d._id ≠ unknown) →
        webhook env now
            (Except.ok { type := "checkout.session.completed"
                         metadata := { clientId := some (IdParam.objectId unknown)
                                       scheduleIndex := index
                                       userId := uid } }) s =
          (s, Reply.received)) ∧
      (∀ (index : IndexParam) (uid : Option IdParam),
        webhook env now
            (Except.ok { type := "checkout.session.completed"
                         metadata := { clientId := some IdParam.malformed
                                       scheduleIndex := some index
                                       userId := uid } }) s =
          (s, Reply.unhandled HandlerError.castError)) := by
  have hbyId : Client.findById clientId s = some c :=
    Client.findById_of_findOwned s.clients hkey hclient
  have hlt := List.get?_lt_length hi
  have hge : ¬ c.paymentSchedules.length ≤ i := Nat.not_le.mpr hlt
  refine ⟨{ currency := env.toLowerCase currency
            name := orElse p.description "Payment"
            description := "Payment for " ++ c.companyName
            unitAmount := p.amount.map (fun a => a * 100)
            redirectUrl :=
              orElse body.successUrl (provider.frontendUrl ++ "/dashboard/payments/success")
            metadata :=
              { clientId := some (IdParam.objectId clientId)
                scheduleIndex := some (IndexParam.index i)
                userId := some (IdParam.objectId userId) } },
    paymentReceivedNotification now s.nextId userId
      { c with
        paymentSchedules := c.paymentSchedules.set i { p with status := "paid" }
        updatedAt := now } { p with status := "paid" },
    rfl, ?_, ?_, rfl, rfl, ?_, ?_, ?_, ?_⟩
  · have hcid := (Client.findOwned_id hclient).1
    simp only [createPaymentLink, hbodyId, hbodyIndex, IdParam.castOpt_objectId,
      Option.some_bind, hclient, IndexParam.geLength, hge, decide_False, Bool.false_eq_true,
      if_false, IndexParam.key, hi, hcurrency, hcid]
    cases provider.create _ with
    | error e => rfl
    | ok link => rfl
  · exact webhook_paid_outcome env now clientId userId i s c p hbyId hschema hi
  · intro j hj
    simp [List.getElem?_set_ne (Ne.symm hj)]
  · intro k uid hk
    have hnlt : ¬ k < c.paymentSchedules.length := Nat.not_lt.mpr hk
    simp only [webhook, if_true, IdParam.cast_objectId, hbyId, IndexParam.ltLength, hnlt,
      decide_False, Bool.false_eq_true, if_false]
  · intro unknown index uid hunknown
    have hnone : Client.findById unknown s = none := by
      unfold Client.findById
      rw [List.find?_eq_none]
      intro d hd
      simp [hunknown d hd]
    cases index with
    | none => simp only [webhook, if_true]
    | some idx => simp only [webhook, if_true, IdParam.cast_objectId, hnone]
  · intro index uid
    simp only [webhook, if_true, IdParam.cast]

theorem payment_link_round_trip_witness :
    ∃ (request : PaymentLinkRequest) (n : Notification),
      request.metadata =
        { clientId := some 12, scheduleIndex := some (IndexParam.index 1),
          userId := some 1 } ∧
      createPaymentLink sampleEnv sampleProvider 1
          { clientId := some 12, scheduleIndex := some (IndexParam.index 1) } billingStore =
        (match sampleProvider.create request with
         | Except.error e => (billingStore, Reply.next e)
         | Except.ok link => (billingStore, Reply.data (Payload.paymentLink link.1 link.2))) ∧
      webhook sampleEnv 5
          (Except.ok { type := "checkout.session.completed", metadata := request.metadata })
          billingStore =
        ({ users := billingStore.users
           clients := billingStore.clients.map (fun d =>
              if d._id = 12 then
                { sampleBilled with
                  paymentSchedules :=
                    sampleBilled.paymentSchedules.set 1 { sampleInvoice2 with status := "paid" }
                  updatedAt := 5 }
              else d)
           notifications := billingStore.notifications ++ [n]
           nextId := billingStore.nextId + 1 },
          Reply.received) ∧
      n.type = "payment_received" ∧ n.user = 1 ∧
      (∀ j, j ≠ 1 →
        (sampleBilled.paymentSchedules.set 1 { sampleInvoice2 with status := "paid" }).get? j =
          sampleBilled.paymentSchedules.get? j) ∧
      (∀ (k : Nat) (uid : Option IdParam), sampleBilled.paymentSchedules.length ≤ k →
        webhook sampleEnv 5
            (Except.ok { type := "checkout.session.completed"
                         metadata := { clientId := some 12
                                       scheduleIndex := some (IndexParam.index k)
                                       userId := uid } }) billingStore =
          (billingStore, Reply.received)) ∧
      (∀ (unknown : ObjectId) (index : Option IndexParam) (uid : Option IdParam),
        (∀ d ∈ billingStore.clients, d._id ≠ unknown) →
        webhook sampleEnv 5
            (Except.ok { type := "checkout.session.completed"
                         metadata := { clientId := some (IdParam.objectId unknown)
                                       scheduleIndex := index
                                       userId := uid } }) billingStore =
          (billingStore, Reply.received)) ∧
      (∀ (index : IndexParam) (uid : Option IdParam),
        webhook sampleEnv 5
            (Except.ok { type := "checkout.session.completed"
                         metadata := { clientId := some IdParam.malformed
                                       scheduleIndex := some index
                                       userId := uid } }) billingStore =
          (billingStore, Reply.unhandled HandlerError.castError)) :=
  payment_link_round_trip sampleEnv sampleProvider 5 1 12 1
    { clientId := some 12, scheduleIndex := some (IndexParam.index 1) } billingStore
    sampleBilled sampleInvoice2 "EUR" (by decide) rfl rfl (by decide) (by decide)
    (by decide) (by decide)

/-- C30, counterexample: a verified checkout.session.completed webhook whose
metadata carry the clientId string "abc", which names no stored Client, and
the index 0 is not acknowledged with `received: true`: `Client.findById`
throws a CastError outside any `try` block, the handler sends no reply, and
the store is as it was.  The same webhook with the well-formed unknown id 99
is acknowledged. -/
theorem webhook_malformed_client_id :
    webhook sampleEnv 5
        (Except.ok { type := "checkout.session.completed"
                     metadata := { clientId := some IdParam.malformed
                                   scheduleIndex := some (IndexParam.index 0)
                                   userId := some 1 } }) billingStore =
      (billingStore, Reply.unhandled HandlerError.castError) ∧
    (webhook sampleEnv 5
        (Except.ok { type := "checkout.session.completed"
                     metadata := { clientId := some IdParam.malformed
                                   scheduleIndex := some (IndexParam.index 0)
                                   userId := some 1 } }) billingStore).2.status? = none ∧
    webhook sampleEnv 5
        (Except.ok { type := "checkout.session.completed"
                     metadata := { clientId := some 99
                                   scheduleIndex := some (IndexParam.index 0)
                                   userId := some 1 } }) billingStore =
      (billingStore, Reply.received) := by
  decide

end SettleUp
